import Mathlib

/-!
# Entity component system: registry, component operations and views

A shallow embedding of `src/EntityComponentSystem/ECS.h`.

* `uint32_t` fields are natural numbers, reduced modulo `2 ^ 32` where the code can overflow.
* `std::bitset<32>` is the natural number whose binary digits are the bits of the set;
  `test`, `set(pos)` and `reset(pos)` throw `std::out_of_range` for `pos >= 32`.
* `std::vector` is a list; `operator[]` outside the vector is undefined behaviour in C++ and
  is the fault `Fault.OutOfBounds` here.
* The `Scene*` an iterator keeps is passed explicitly to every iterator operation, so every
  step reads the scene it is given.
* A component type `T` enters every operation as the number `GetID<T>()` resolves to.
-/

namespace ECS

/-! ## Scalars, faults and vectors -/

/-- Number of values of `uint32_t` (`EntityIndex`, `EntityVersion`). -/
def UInt32Size : Nat := 4294967296

/-- The value the code writes as `-1` into an `EntityIndex`: `0xFFFFFFFF`, the tombstone. -/
def InvalidIndex : Nat := 4294967295

/-- Width of `ComponentMask = std::bitset<32>`. -/
def MaskBits : Nat := 32

/-- Ways an operation can leave its normal path. -/
inductive Fault where
  /-- `std::vector::operator[]` with an index outside the vector. -/
  | OutOfBounds
  /-- `std::out_of_range` thrown by `std::bitset<32>` for a position `>= 32`. -/
  | BitsetOutOfRange
  /-- The loop bound of the embedding was used up before the loop ended. -/
  | OutOfFuel
deriving DecidableEq, Repr

/-- The call `v.resize(n, a)` of `std::vector`. -/
def vecResize {α : Type} (v : List α) (n : Nat) (a : α) : List α :=
  v.take n ++ List.replicate (n - v.length) a

/-! ## `ComponentMask` -/

/-- The type `ComponentMask = std::bitset<32>`, as the number with the same binary digits. -/
abbrev ComponentMask := Nat

/-- The call `mask.test(pos)`. -/
def bitsetTest (m : ComponentMask) (pos : Nat) : Except Fault Bool :=
  if pos < MaskBits then .ok (m.testBit pos) else .error .BitsetOutOfRange

/-- The call `mask.set(pos, true)`. -/
def bitsetSet (m : ComponentMask) (pos : Nat) : Except Fault ComponentMask :=
  if pos < MaskBits then .ok (m ||| (1 <<< pos)) else .error .BitsetOutOfRange

/-- The call `mask.reset(pos)`. -/
def bitsetReset (m : ComponentMask) (pos : Nat) : Except Fault ComponentMask :=
  if pos < MaskBits then .ok (m ^^^ (m &&& (1 <<< pos))) else .error .BitsetOutOfRange

/-! ## `EntityID`, `EntityDesc` -/

/-- The struct `EntityID`. -/
structure EntityID where
  Index : Nat
  Version : Nat
deriving DecidableEq, Repr

/-- The operator `EntityID::operator==`. -/
def EntityID.eq (a b : EntityID) : Bool :=
  a.Index == b.Index && a.Version == b.Version

/-- The operator `EntityID::operator!=`. -/
def EntityID.ne (a b : EntityID) : Bool :=
  a.Index != b.Index || a.Version != b.Version

/-- The struct `Scene::EntityDesc`. -/
structure EntityDesc where
  ID : EntityID
  Masks : ComponentMask
deriving DecidableEq, Repr

/-! ## `ComponentPool` -/

/-- The `void*` a handle-table entry holds when it is not `nullptr`: storage for one
instance at slot `slot` of the pool of the row the entry is in. -/
structure Handle where
  slot : Nat
deriving DecidableEq, Repr

/-- Modelled from the spec: `ComponentPool` (`ComponentPool.h` is not among the sources).
A typed storage block dedicated to one component type; `new ComponentPool(sizeof(T))`
records the element size. -/
structure ComponentPool where
  elementSize : Nat
deriving DecidableEq, Repr

/-- Modelled from the spec: `ComponentPool::Get(index)` (`ComponentPool.h` is not among the
sources). "Returns uninitialized storage sized for one instance at that index"; never fails. -/
def ComponentPool.Get (_pool : ComponentPool) (index : Nat) : Handle :=
  { slot := index }

/-! ## `Scene` -/

/-- The data members of `class Scene`. -/
structure Scene where
  m_CurrentEntityID : EntityID
  m_Entities : List EntityDesc
  m_FreeEntityIndecies : List Nat
  m_ComponentPools : List (Option ComponentPool)
  m_EntityComponents : List (List (Option Handle))
deriving DecidableEq, Repr

/-- A default-constructed `Scene`. -/
def Scene.empty : Scene :=
  { m_CurrentEntityID := { Index := 0, Version := 0 }
    m_Entities := []
    m_FreeEntityIndecies := []
    m_ComponentPools := []
    m_EntityComponents := [] }

/-- Modelled from the spec: `Scene::CreateEntity` (declared in `ECS.h`, its body is not among
the sources). "If the free-slot list is non-empty, pop an index and increment that slot's
stored version, set its mask to empty, and return the resulting EntityID; otherwise append a
new descriptor with version 0 and return its EntityID." The free-slot list is a stack, so the
index popped is its last element; the resulting EntityID carries the popped index (an
EntityID's index is its slot position), and an appended descriptor has the empty mask. -/
def Scene.CreateEntity (s : Scene) : Except Fault (EntityID × Scene) :=
  match s.m_FreeEntityIndecies.getLast? with
  | some j =>
    match s.m_Entities[j]? with
    | none => .error .OutOfBounds
    | some d =>
      let id : EntityID := { Index := j, Version := (d.ID.Version + 1) % UInt32Size }
      .ok (id, { s with
        m_Entities := s.m_Entities.set j { ID := id, Masks := 0 }
        m_FreeEntityIndecies := s.m_FreeEntityIndecies.dropLast })
  | none =>
    let id : EntityID := { Index := s.m_Entities.length % UInt32Size, Version := 0 }
    .ok (id, { s with m_Entities := s.m_Entities ++ [{ ID := id, Masks := 0 }] })

/-- The method `Scene::IsEntityValid`. -/
def Scene.IsEntityValid (s : Scene) (_EntityID : EntityID) : Except Fault Bool :=
  match s.m_Entities[_EntityID.Index]? with
  | none => .error .OutOfBounds
  | some d => .ok (d.ID.eq _EntityID)

/-- The method `Scene::Get<T>`, with `_ComponentID = GetID<T>()`; `none` is `nullptr`. -/
def Scene.Get (s : Scene) (_ComponentID : Nat) (_EntityID : EntityID) :
    Except Fault (Option Handle) :=
  match s.m_Entities[_EntityID.Index]? with
  | none => .error .OutOfBounds
  | some d =>
    match bitsetTest d.Masks _ComponentID with
    | .error e => .error e
    | .ok false => .ok none
    | .ok true =>
      match s.m_EntityComponents[_ComponentID]? with
      | none => .error .OutOfBounds
      | some row =>
        match row[_EntityID.Index]? with
        | none => .error .OutOfBounds
        | some h => .ok h

/-- The first half of `Scene::Assign<T>` (the two `if` statements and the read of
`m_ComponentPools[_ComponentID].get()`): the pool of the component type, and the pool table and
handle table after the resizes. -/
def Scene.ensurePool (s : Scene) (_ComponentID : Nat) (sizeofT : Nat) :
    Except Fault (ComponentPool × List (Option ComponentPool) × List (List (Option Handle))) :=
  -- if (_ComponentID >= m_ComponentPools.size()) { resize both tables to _ComponentID + 1 }
  let pools₁ := if _ComponentID ≥ s.m_ComponentPools.length
    then vecResize s.m_ComponentPools (_ComponentID + 1) none else s.m_ComponentPools
  let comps₁ := if _ComponentID ≥ s.m_ComponentPools.length
    then vecResize s.m_EntityComponents (_ComponentID + 1) [] else s.m_EntityComponents
  -- if (m_ComponentPools[_ComponentID] == nullptr) { new pool; row.resize(1024, nullptr) }
  match pools₁[_ComponentID]? with
  | none => .error .OutOfBounds
  | some (some pool) => .ok (pool, pools₁, comps₁)
  | some none =>
    match comps₁[_ComponentID]? with
    | none => .error .OutOfBounds
    | some row =>
      .ok ({ elementSize := sizeofT },
        pools₁.set _ComponentID (some { elementSize := sizeofT }),
        comps₁.set _ComponentID (vecResize row 1024 none))

/-- The method `Scene::Assign<T>`, with `_ComponentID = GetID<T>()` and `sizeofT = sizeof(T)`.
The value constructed in the pool's storage is not part of the state. -/
def Scene.Assign (s : Scene) (_ComponentID : Nat) (sizeofT : Nat) (_EntityID : EntityID) :
    Except Fault Scene :=
  match s.ensurePool _ComponentID sizeofT with
  | .error e => .error e
  | .ok (_ComponentPool, pools₂, comps₂) =>
    let _NewComponent := _ComponentPool.Get _EntityID.Index
    -- m_Entities[_EntityID.Index].Masks.set(_ComponentID, true);
    match s.m_Entities[_EntityID.Index]? with
    | none => .error .OutOfBounds
    | some d =>
      match bitsetSet d.Masks _ComponentID with
      | .error e => .error e
      | .ok m =>
        -- m_EntityComponents[_ComponentID][_EntityID.Index] = _NewComponent;
        match comps₂[_ComponentID]? with
        | none => .error .OutOfBounds
        | some row =>
          if _EntityID.Index < row.length then
            .ok { s with
              m_Entities := s.m_Entities.set _EntityID.Index { d with Masks := m }
              m_ComponentPools := pools₂
              m_EntityComponents :=
                comps₂.set _ComponentID (row.set _EntityID.Index (some _NewComponent)) }
          else .error .OutOfBounds

/-- What a call of `Scene::Remove<T>` leaves: whether it took the `assert(false)` branch, and
the scene at that point. -/
structure RemoveResult where
  asserted : Bool
  scene : Scene
deriving DecidableEq, Repr

/-- The method `Scene::Remove<T>`, with `_ComponentID = GetID<T>()`. -/
def Scene.Remove (s : Scene) (_ComponentID : Nat) (_EntityID : EntityID) :
    Except Fault RemoveResult :=
  match s.IsEntityValid _EntityID with
  | .error e => .error e
  | .ok false => .ok { asserted := true, scene := s }
  | .ok true =>
    match s.m_Entities[_EntityID.Index]? with
    | none => .error .OutOfBounds
    | some d =>
      match bitsetReset d.Masks _ComponentID with
      | .error e => .error e
      | .ok m =>
        .ok { asserted := false
              scene := { s with m_Entities := s.m_Entities.set _EntityID.Index { d with Masks := m } } }

/-- The method `Scene::DestroyEntity`. -/
def Scene.DestroyEntity (s : Scene) (_ID : EntityID) : Except Fault Scene :=
  match s.m_Entities[_ID.Index]? with
  | none => .error .OutOfBounds
  | some d =>
    .ok { s with
      m_Entities := s.m_Entities.set _ID.Index
        { ID := { Index := InvalidIndex, Version := (d.ID.Version + 1) % UInt32Size }, Masks := 0 }
      m_FreeEntityIndecies := s.m_FreeEntityIndecies ++ [_ID.Index] }

/-! ## `Scene::SceneView` and its iterator -/

/-- The data members of `SceneView<Ts...>` other than the `Scene*`. -/
structure SceneView where
  m_ComponentMask : ComponentMask
deriving DecidableEq, Repr

/-- The data members of `SceneView<Ts...>::Iterator` other than the `Scene*`. -/
structure Iterator where
  m_Index : Nat
  m_ComponentMask : ComponentMask
deriving DecidableEq, Repr

/-- The loop of the constructor of `SceneView`: `m_ComponentMask.set(_ComponentIDs[i], true)`
for the ids of `Ts...` in order. -/
def SceneView.setAll : ComponentMask → List Nat → Except Fault ComponentMask
  | m, [] => .ok m
  | m, t :: ts =>
    match bitsetSet m t with
    | .error e => .error e
    | .ok m' => SceneView.setAll m' ts

/-- The method `Scene::View<Ts...>`; `_ComponentIDs` are the values `GetID<Ts>()...`. -/
def Scene.View (_ComponentIDs : List Nat) : Except Fault SceneView :=
  match SceneView.setAll 0 _ComponentIDs with
  | .error e => .error e
  | .ok m => .ok { m_ComponentMask := m }

/-- The operator `Iterator::operator*`. -/
def Iterator.deref (s : Scene) (it : Iterator) : Except Fault EntityID :=
  match s.m_Entities[it.m_Index]? with
  | none => .error .OutOfBounds
  | some d => .ok d.ID

/-- The operator `Iterator::operator==`. -/
def Iterator.eq (it other : Iterator) : Bool :=
  it.m_Index == other.m_Index

/-- The operator `Iterator::operator!=`. -/
def Iterator.ne (it other : Iterator) : Bool :=
  it.m_Index != other.m_Index

/-- The method `Iterator::IsValidIndex`. -/
def Iterator.IsValidIndex (s : Scene) (it : Iterator) (_Index : Nat) : Except Fault Bool :=
  match s.m_Entities[_Index]? with
  | none => .error .OutOfBounds
  | some _EntityDesc =>
    .ok (_EntityDesc.ID.Index != InvalidIndex &&
      (it.m_ComponentMask == 0 ||
        it.m_ComponentMask == (it.m_ComponentMask &&& _EntityDesc.Masks)))

/-- The `do { m_Index++; } while (...)` loop of `Iterator::operator++`, at most `fuel` rounds. -/
def Iterator.incLoop (s : Scene) : Nat → Iterator → Except Fault Iterator
  | 0, _ => .error .OutOfFuel
  | fuel + 1, it =>
    let it₁ : Iterator := { it with m_Index := it.m_Index + 1 }
    if it₁.m_Index < s.m_Entities.length then
      match it₁.IsValidIndex s it₁.m_Index with
      | .error e => .error e
      | .ok true => .ok it₁
      | .ok false => Iterator.incLoop s fuel it₁
    else .ok it₁

/-- The operator `Iterator::operator++`. -/
def Iterator.inc (s : Scene) (it : Iterator) : Except Fault Iterator :=
  Iterator.incLoop s (s.m_Entities.length + 1) it

/-- The `while` loop of `SceneView::begin`, at most `fuel` tests of its condition. -/
def SceneView.beginLoop (s : Scene) (v : SceneView) : Nat → Nat → Except Fault Nat
  | 0, _ => .error .OutOfFuel
  | fuel + 1, _Index =>
    if _Index < s.m_Entities.length then
      match s.m_Entities[_Index]? with
      | none => .error .OutOfBounds
      | some d =>
        if d.ID.Index == InvalidIndex ||
            (v.m_ComponentMask != 0 && v.m_ComponentMask != (d.Masks &&& v.m_ComponentMask)) then
          SceneView.beginLoop s v fuel (_Index + 1)
        else .ok _Index
    else .ok _Index

/-- The method `SceneView::begin`. -/
def SceneView.begin (s : Scene) (v : SceneView) : Except Fault Iterator :=
  match SceneView.beginLoop s v (s.m_Entities.length + 1) 0 with
  | .error e => .error e
  | .ok _Index => .ok { m_Index := _Index, m_ComponentMask := v.m_ComponentMask }

/-- The method `SceneView::end`. -/
def SceneView.end_ (s : Scene) (v : SceneView) : Iterator :=
  { m_Index := s.m_Entities.length, m_ComponentMask := v.m_ComponentMask }

/-- The range-for loop `for (; it != last; ++it) yield *it` over a scene that does not change,
at most `fuel` tests of its condition. -/
def SceneView.forLoop (s : Scene) (last : Iterator) : Nat → Iterator → Except Fault (List EntityID)
  | 0, _ => .error .OutOfFuel
  | fuel + 1, it =>
    if it.ne last then
      match it.deref s with
      | .error e => .error e
      | .ok id =>
        match it.inc s with
        | .error e => .error e
        | .ok it' =>
          match SceneView.forLoop s last fuel it' with
          | .error e => .error e
          | .ok rest => .ok (id :: rest)
    else .ok []

/-- The EntityIDs `for (auto EntityID : view)` visits, in order (the loop of `main`). -/
def SceneView.traverse (s : Scene) (v : SceneView) : Except Fault (List EntityID) :=
  match v.begin s with
  | .error e => .error e
  | .ok first => SceneView.forLoop s (v.end_ s) (s.m_Entities.length + 1) first

/-! ## Sequences of operations -/

/-- One call on a `Scene`. -/
inductive Op where
  | CreateEntity
  | DestroyEntity (_ID : EntityID)
  | Assign (_ComponentID : Nat) (sizeofT : Nat) (_EntityID : EntityID)
  | Remove (_ComponentID : Nat) (_EntityID : EntityID)
deriving DecidableEq, Repr

/-- The scene after one call. A `Remove` that takes the `assert(false)` branch leaves the scene
as it was. -/
def Scene.step (s : Scene) : Op → Except Fault Scene
  | .CreateEntity =>
    match s.CreateEntity with
    | .error e => .error e
    | .ok (_, s') => .ok s'
  | .DestroyEntity _ID => s.DestroyEntity _ID
  | .Assign _ComponentID sizeofT _EntityID => s.Assign _ComponentID sizeofT _EntityID
  | .Remove _ComponentID _EntityID =>
    match s.Remove _ComponentID _EntityID with
    | .error e => .error e
    | .ok r => .ok r.scene

/-- The scene after a sequence of calls, the first call first. -/
def Scene.run : Scene → List Op → Except Fault Scene
  | s, [] => .ok s
  | s, op :: ops =>
    match s.step op with
    | .error e => .error e
    | .ok s' => Scene.run s' ops

/-- The id is inside the descriptor sequence and `IsEntityValid` returns true for it. -/
def Scene.validId (s : Scene) (_EntityID : EntityID) : Bool :=
  match s.IsEntityValid _EntityID with
  | .ok true => true
  | _ => false

/-- The call is `CreateEntity`, or its id is valid in `s`. -/
def Scene.onValidId (s : Scene) : Op → Bool
  | .CreateEntity => true
  | .DestroyEntity _ID => s.validId _ID
  | .Assign _ _ _EntityID => s.validId _EntityID
  | .Remove _ _EntityID => s.validId _EntityID

/-- The scene after a sequence of calls each of which is applied to an id valid at the time of
the call and returns normally; `none` otherwise. -/
def Scene.runValid : Scene → List Op → Option Scene
  | s, [] => some s
  | s, op :: ops =>
    if s.onValidId op then
      match s.step op with
      | .error _ => none
      | .ok s' => Scene.runValid s' ops
    else none

/-! ## Invariants of the registry -/

/-- The pool table and the handle table have the same length, and whenever mask bit `t` of
slot `i` is set, component type `t` has a pool and its handle-table row holds a handle that is
not `nullptr` at `i`. -/
def Scene.MaskHandleInv (s : Scene) : Prop :=
  s.m_ComponentPools.length = s.m_EntityComponents.length ∧
  ∀ (i : Nat) (d : EntityDesc) (t : Nat), s.m_Entities[i]? = some d →
    d.Masks.testBit t = true →
    ∃ (p : ComponentPool) (row : List (Option Handle)) (h : Handle),
      s.m_ComponentPools[t]? = some (some p) ∧ s.m_EntityComponents[t]? = some row ∧
      row[i]? = some (some h)

/-- Facts about the free-slot list and the handle-table rows that hold in every state reached
from the empty registry by calls on valid ids. -/
structure Scene.WellFormed (s : Scene) : Prop where
  /-- A handle-table row has at most the 1024 entries `Assign` resizes it to. -/
  rows : ∀ row ∈ s.m_EntityComponents, row.length ≤ 1024
  /-- A slot no row reaches has the empty mask. -/
  high : ∀ (i : Nat) (d : EntityDesc), s.m_Entities[i]? = some d → 1024 ≤ i → d.Masks = 0
  /-- A slot on the free-slot list is tombstoned. -/
  tomb : ∀ j ∈ s.m_FreeEntityIndecies, j ≠ 4294967295 →
    ∀ d, s.m_Entities[j]? = some d → d.ID.Index = 4294967295
  /-- A slot is on the free-slot list at most once. -/
  once : ∀ j, j ≠ 4294967295 → s.m_FreeEntityIndecies.count j ≤ 1

/-- How one call changes the answer to "was `Assign<T>` called on `E` more recently than any
`Remove<T>` or `DestroyEntity` on `E`": `Assign<T>(E)` makes it true, `Remove<T>(E)` and
`DestroyEntity(E)` make it false, every other call leaves it. -/
def Op.touch (E : EntityID) (T : Nat) (b : Bool) : Op → Bool
  | .CreateEntity => b
  | .DestroyEntity _ID => if _ID = E then false else b
  | .Assign _ComponentID _ _EntityID => if _ComponentID = T ∧ _EntityID = E then true else b
  | .Remove _ComponentID _EntityID => if _ComponentID = T ∧ _EntityID = E then false else b

/-- After the calls `ops`, first call first: `Assign<T>` was called on `E` more recently than
any `Remove<T>` or `DestroyEntity` on `E`. -/
def Op.standing (E : EntityID) (T : Nat) (ops : List Op) : Bool :=
  ops.foldl (Op.touch E T) false

/-- The slot `E.Index` exists, stores the id `E`, and has mask bit `T` set. -/
def Scene.holdsBit (s : Scene) (E : EntityID) (T : Nat) : Prop :=
  ∃ d, s.m_Entities[E.Index]? = some d ∧ d.ID = E ∧ d.Masks.testBit T = true

/-! ## Scenes used as concrete inputs -/

/-- Two live slots: `{0, 7}` with components 0 and 2, `{1, 0}` with component 1. -/
def sceneTwoSlots : Scene :=
  { Scene.empty with
    m_Entities := [⟨⟨0, 7⟩, 5⟩, ⟨⟨1, 0⟩, 2⟩]
    m_ComponentPools := [some ⟨4⟩, some ⟨4⟩, some ⟨4⟩]
    m_EntityComponents := [[some ⟨0⟩, none], [none, some ⟨1⟩], [some ⟨0⟩, none]] }

/-- The calls of `main` in `EntityComponentSystem.cpp`, with `ComponentA` as component id 0
(`sizeof` 12) and `ComponentB` as component id 1 (`sizeof` 24). -/
def mainOps : List Op :=
  [.CreateEntity, .CreateEntity, .Assign 0 12 ⟨0, 0⟩, .Assign 1 24 ⟨0, 0⟩, .CreateEntity,
    .Assign 1 24 ⟨2, 0⟩]

/-- The scene `main` iterates over. -/
def sceneMain : Scene :=
  match Scene.empty.run mainOps with
  | .ok s => s
  | .error _ => Scene.empty

/-- One live slot `{0, v}` with no component. `sceneSingle 0` is the scene after the first
`CreateEntity` on an empty scene. -/
def sceneSingle (v : Nat) : Scene :=
  { Scene.empty with m_Entities := [⟨⟨0, v⟩, 0⟩] }

/-- Calls on valid ids only: E1 = `{0, 0}` is created and destroyed, its slot is recycled for
`{0, 2}`, and component 0 is assigned to `{0, 2}`. -/
def staleOps : List Op :=
  [.CreateEntity, .DestroyEntity ⟨0, 0⟩, .CreateEntity, .Assign 0 4 ⟨0, 2⟩]

/-- The operator `Iterator::operator++` applied `k` times in a row. -/
def Iterator.incTimes (s : Scene) : Nat → Iterator → Except Fault Iterator
  | 0, it => .ok it
  | k + 1, it =>
    match it.inc s with
    | .error e => .error e
    | .ok it' => Iterator.incTimes s k it'

/-! ## `GetID` and the process-wide counter -/

/-- Number of values of `size_t` (64-bit). -/
def SizeTSize : Nat := 18446744073709551616

/-- The state behind `Scene::GetID<T>`, for component types named by values of `τ`: the global
`gComponentIDCounter`, and for every `T` the function-local `static_ComponentID` of `GetID<T>`
(`none` until its initialiser has run). There is one such state per process, not per
`Scene`. -/
structure ComponentIDs (τ : Type) where
  gComponentIDCounter : Nat
  static_ComponentID : τ → Option Nat

/-- The state at process start: the counter is 0 and no static is initialised. -/
def ComponentIDs.initial {τ : Type} : ComponentIDs τ :=
  { gComponentIDCounter := 0, static_ComponentID := fun _ => none }

/-- The method `Scene::GetID<T>`, called on the scene `_s`: the first call for `T` initialises
`static_ComponentID` with `gComponentIDCounter++`; every call returns the static. -/
def Scene.GetID {τ : Type} [DecidableEq τ] (_s : Scene) (T : τ) (g : ComponentIDs τ) :
    Nat × ComponentIDs τ :=
  match g.static_ComponentID T with
  | some id => (id, g)
  | none =>
    (g.gComponentIDCounter,
      { gComponentIDCounter := (g.gComponentIDCounter + 1) % SizeTSize
        static_ComponentID := fun U =>
          if U = T then some g.gComponentIDCounter else g.static_ComponentID U })

/-- The ids a sequence of calls `scene.GetID<T>()` returns, the first call first. -/
def getIDCalls {τ : Type} [DecidableEq τ] : ComponentIDs τ → List (Scene × τ) → List Nat
  | _, [] => []
  | g, (s, T) :: rest => (s.GetID T g).1 :: getIDCalls (s.GetID T g).2 rest

/-- The types of `types` that are not in `seen`, appended to `seen` in the order in which they
first occur. -/
def firstUseFrom {τ : Type} [DecidableEq τ] (seen : List τ) (types : List τ) : List τ :=
  types.foldl (fun acc T => if T ∈ acc then acc else acc ++ [T]) seen

/-- The distinct types of `types` in the order of their first use. -/
def firstUseOrder {τ : Type} [DecidableEq τ] (types : List τ) : List τ :=
  firstUseFrom [] types

/-- The state `g` is the one reached when the types of `seen` (distinct) have been used for the
first time in that order. -/
def ComponentIDs.Represents {τ : Type} [DecidableEq τ] (g : ComponentIDs τ) (seen : List τ) :
    Prop :=
  g.gComponentIDCounter = seen.length ∧ seen.Nodup ∧
    ∀ T, g.static_ComponentID T = if T ∈ seen then some (seen.indexOf T) else none

/-- The component types of `main`. -/
inductive MainComponent where
  | ComponentA
  | ComponentB
deriving DecidableEq, Repr

/-- Facts about the pool table and the handle table that hold in every state reached from the
empty registry: they have the same length, the row of a component type that has a pool has the
1024 entries `Assign` resizes it to, and the row of one that has none is empty. -/
structure Scene.TablesInv (s : Scene) : Prop where
  lens : s.m_ComponentPools.length = s.m_EntityComponents.length
  full : ∀ (t : Nat) (p : ComponentPool), s.m_ComponentPools[t]? = some (some p) →
    ∃ row, s.m_EntityComponents[t]? = some row ∧ row.length = 1024
  hollow : ∀ t : Nat, s.m_ComponentPools[t]? = some none → s.m_EntityComponents[t]? = some []

/-- The scene after `n` calls of `CreateEntity` on an empty scene: `n` live slots with version
0 and no component. -/
def sceneFresh (n : Nat) : Scene :=
  { Scene.empty with
    m_Entities := (List.range n).map (fun i => ⟨⟨i % UInt32Size, 0⟩, 0⟩) }

/-- Facts about stored indices that hold in every state reached from the empty registry by
calls on valid ids: a slot stores its own position (as a 32-bit number) or the tombstone, and
the free-slot list holds 32-bit numbers. -/
structure Scene.SlotIndexInv (s : Scene) : Prop where
  own : ∀ (i : Nat) (d : EntityDesc), s.m_Entities[i]? = some d →
    d.ID.Index = i % 4294967296 ∨ d.ID.Index = 4294967295
  small : ∀ j ∈ s.m_FreeEntityIndecies, j < 4294967296

/-- The range-for loop `for (; it != last; ++it) { id = *it; body(id); }` in which the loop body
changes the scene (`body id s` is the scene after the body has run on `s`, or the fault of a
call in it); `last` is the `end()` taken once before the loop, and `operator*` and
`operator++` read the scene as it is when they run. At most `fuel` tests of the loop
condition. The result is the ids visited and the scene at the end. -/
def SceneView.forLoopWith (body : EntityID → Scene → Except Fault Scene) (last : Iterator) :
    Nat → Scene → Iterator → Except Fault (List EntityID × Scene)
  | 0, _, _ => .error .OutOfFuel
  | fuel + 1, s, it =>
    if it.ne last then
      match it.deref s with
      | .error e => .error e
      | .ok id =>
        match body id s with
        | .error e => .error e
        | .ok s' =>
          match it.inc s' with
          | .error e => .error e
          | .ok it' =>
            match SceneView.forLoopWith body last fuel s' it' with
            | .error e => .error e
            | .ok (rest, s'') => .ok (id :: rest, s'')
    else .ok ([], s)

/-- The loop `for (auto id : view) { body(id); }`: `begin()` and `end()` are taken once, on the
scene before the loop. -/
def SceneView.traverseWith (body : EntityID → Scene → Except Fault Scene) (s : Scene)
    (v : SceneView) (fuel : Nat) : Except Fault (List EntityID × Scene) :=
  match v.begin s with
  | .error e => .error e
  | .ok first => SceneView.forLoopWith body (v.end_ s) fuel s first

/-- The scene after `CreateEntity` and `Assign<0>` on the created id `{0, 0}`. -/
def sceneOneComponent : Scene :=
  match Scene.empty.run [.CreateEntity, .Assign 0 4 ⟨0, 0⟩] with
  | .ok s => s
  | .error _ => Scene.empty

/-- Calls on valid ids only: E1 = `{0, 0}` is created, component 0 is assigned to it, and it is
destroyed; its slot is not recycled. -/
def destroyedOps : List Op :=
  [.CreateEntity, .Assign 0 4 ⟨0, 0⟩, .DestroyEntity ⟨0, 0⟩]

/-- The scene after `destroyedOps`: slot 0 is tombstoned and on the free-slot list. -/
def sceneDestroyed : Scene :=
  match Scene.empty.run destroyedOps with
  | .ok s => s
  | .error _ => Scene.empty

/-! ## The recycling increment of `CreateEntity` -/

/-- Modelled from the spec: `Scene::CreateEntity` with the amount it adds to the stored version
of a slot it recycles left open, as `bump`. The spec words the recycling in two ways. Spec 4.1:
"pop an index and increment that slot's stored version", which is `bump = 1` and is
`Scene.CreateEntity`. Spec 3 and 8: "`version` is a generation counter incremented each time
that slot is recycled" and "E4 reuses E1's index with version+1", one increment for a whole
destroy/recycle cycle; the sources hold one increment, the `Version += 1` of `DestroyEntity`
(`ECS.h:247`), so in this reading `CreateEntity` returns the version it finds stored, which is
`bump = 0`. Everything else is as in `Scene.CreateEntity`. -/
def Scene.CreateEntityBump (bump : Nat) (s : Scene) : Except Fault (EntityID × Scene) :=
  match s.m_FreeEntityIndecies.getLast? with
  | some j =>
    match s.m_Entities[j]? with
    | none => .error .OutOfBounds
    | some d =>
      let id : EntityID := { Index := j, Version := (d.ID.Version + bump) % UInt32Size }
      .ok (id, { s with
        m_Entities := s.m_Entities.set j { ID := id, Masks := 0 }
        m_FreeEntityIndecies := s.m_FreeEntityIndecies.dropLast })
  | none =>
    let id : EntityID := { Index := s.m_Entities.length % UInt32Size, Version := 0 }
    .ok (id, { s with m_Entities := s.m_Entities ++ [{ ID := id, Masks := 0 }] })

/-- The scene after one call, with `CreateEntity` read as `Scene.CreateEntityBump bump`. -/
def Scene.stepBump (bump : Nat) (s : Scene) : Op → Except Fault Scene
  | .CreateEntity =>
    match s.CreateEntityBump bump with
    | .error e => .error e
    | .ok (_, s') => .ok s'
  | .DestroyEntity _ID => s.step (.DestroyEntity _ID)
  | .Assign _ComponentID sizeofT _EntityID => s.step (.Assign _ComponentID sizeofT _EntityID)
  | .Remove _ComponentID _EntityID => s.step (.Remove _ComponentID _EntityID)

/-- The scene after a sequence of calls, the first call first, with `CreateEntity` read as
`Scene.CreateEntityBump bump`. -/
def Scene.runBump (bump : Nat) : Scene → List Op → Except Fault Scene
  | s, [] => .ok s
  | s, op :: ops =>
    match s.stepBump bump op with
    | .error e => .error e
    | .ok s' => Scene.runBump bump s' ops

/-- The scene after a sequence of calls each of which is applied to an id valid at the time of
the call and returns normally, with `CreateEntity` read as `Scene.CreateEntityBump bump`;
`none` otherwise. -/
def Scene.runValidBump (bump : Nat) : Scene → List Op → Option Scene
  | s, [] => some s
  | s, op :: ops =>
    if s.onValidId op then
      match s.stepBump bump op with
      | .error _ => none
      | .ok s' => Scene.runValidBump bump s' ops
    else none

/-- The calls `DestroyEntity({i, v}); CreateEntity();` repeated `n` times, each `DestroyEntity`
on the id the `CreateEntity` before it returned when that is `Scene.CreateEntityBump bump`. -/
def recycleOpsBump (bump i : Nat) : Nat → Nat → List Op
  | 0, _ => []
  | n + 1, v =>
    .DestroyEntity ⟨i, v⟩ :: .CreateEntity :: recycleOpsBump bump i n ((v + 1 + bump) % UInt32Size)

/-! ## Basic facts about the operations -/

theorem validId_iff (s : Scene) (E : EntityID) :
    s.validId E = true ↔ ∃ d, s.m_Entities[E.Index]? = some d ∧ d.ID = E := by
  unfold Scene.validId Scene.IsEntityValid
  cases hd : s.m_Entities[E.Index]? with
  | none => simp
  | some d =>
    obtain ⟨⟨i, v⟩, m⟩ := d
    obtain ⟨j, w⟩ := E
    by_cases h1 : i = j <;> by_cases h2 : v = w <;> simp [EntityID.eq, h1, h2]

theorem isEntityValid_true_iff (s : Scene) (E : EntityID) :
    s.IsEntityValid E = .ok true ↔ s.validId E = true := by
  unfold Scene.validId
  cases h : s.IsEntityValid E with
  | error e => simp
  | ok b => cases b <;> simp

theorem destroyEntity_eq (s : Scene) (_ID : EntityID) (d : EntityDesc)
    (hd : s.m_Entities[_ID.Index]? = some d) :
    s.DestroyEntity _ID = .ok { s with
      m_Entities := s.m_Entities.set _ID.Index
        { ID := { Index := 4294967295, Version := (d.ID.Version + 1) % 4294967296 }, Masks := 0 }
      m_FreeEntityIndecies := s.m_FreeEntityIndecies ++ [_ID.Index] } := by
  simp [Scene.DestroyEntity, hd, InvalidIndex, UInt32Size]

theorem createEntity_recycle_eq (s : Scene) (j : Nat) (d : EntityDesc)
    (hj : s.m_FreeEntityIndecies.getLast? = some j) (hd : s.m_Entities[j]? = some d) :
    s.CreateEntity = .ok ({ Index := j, Version := (d.ID.Version + 1) % 4294967296 },
      { s with
        m_Entities := s.m_Entities.set j
          { ID := { Index := j, Version := (d.ID.Version + 1) % 4294967296 }, Masks := 0 }
        m_FreeEntityIndecies := s.m_FreeEntityIndecies.dropLast }) := by
  simp [Scene.CreateEntity, hj, hd, UInt32Size]

theorem createEntity_append_eq (s : Scene) (hj : s.m_FreeEntityIndecies = []) :
    s.CreateEntity = .ok ({ Index := s.m_Entities.length % 4294967296, Version := 0 },
      { s with
        m_Entities := s.m_Entities ++
          [{ ID := { Index := s.m_Entities.length % 4294967296, Version := 0 }, Masks := 0 }] }) := by
  simp [Scene.CreateEntity, hj, UInt32Size]

theorem get_of_mask_zero (s : Scene) (T : Nat) (id : EntityID) (d : EntityDesc) (hT : T < 32)
    (hd : s.m_Entities[id.Index]? = some d) (hm : d.Masks = 0) : s.Get T id = .ok none := by
  simp [Scene.Get, hd, hm, bitsetTest, MaskBits, hT]

theorem testBit_set_bit (m p q : Nat) :
    (m ||| (1 <<< p)).testBit q = (m.testBit q || decide (p = q)) := by
  simp [Nat.testBit_or, Nat.one_shiftLeft, Nat.testBit_two_pow]

theorem testBit_reset_bit (m p q : Nat) :
    (m ^^^ (m &&& (1 <<< p))).testBit q = (m.testBit q && !decide (p = q)) := by
  simp only [Nat.testBit_xor, Nat.testBit_and, Nat.one_shiftLeft, Nat.testBit_two_pow]
  cases m.testBit q <;> cases decide (p = q) <;> rfl

theorem remove_valid_eq (s : Scene) (A : Nat) (E : EntityID) (d : EntityDesc) (hA : A < 32)
    (hd : s.m_Entities[E.Index]? = some d) (hE : d.ID = E) :
    s.Remove A E = .ok { asserted := false, scene := { s with
      m_Entities := s.m_Entities.set E.Index
        { d with Masks := d.Masks ^^^ (d.Masks &&& (1 <<< A)) } } } := by
  have hv : s.IsEntityValid E = .ok true :=
    (isEntityValid_true_iff s E).mpr ((validId_iff s E).mpr ⟨d, hd, hE⟩)
  simp [Scene.Remove, hv, hd, bitsetReset, MaskBits, hA]

theorem remove_invalid_eq (s : Scene) (A : Nat) (E : EntityID)
    (hv : s.IsEntityValid E = .ok false) :
    s.Remove A E = .ok { asserted := true, scene := s } := by
  simp [Scene.Remove, hv]

theorem assign_ok (s s' : Scene) (cid sz : Nat) (E : EntityID)
    (h : s.Assign cid sz E = .ok s') :
    ∃ d pool pools₂ comps₂ row, s.m_Entities[E.Index]? = some d ∧ cid < 32 ∧
      s.ensurePool cid sz = .ok (pool, pools₂, comps₂) ∧
      comps₂[cid]? = some row ∧ E.Index < row.length ∧
      s' = { s with
        m_Entities := s.m_Entities.set E.Index { d with Masks := d.Masks ||| (1 <<< cid) }
        m_ComponentPools := pools₂
        m_EntityComponents := comps₂.set cid (row.set E.Index (some ⟨E.Index⟩)) } := by
  unfold Scene.Assign at h
  split at h
  · cases h
  · rename_i pool pools₂ comps₂ hens
    simp only [] at h
    split at h
    · cases h
    · rename_i d hd
      split at h
      · cases h
      · rename_i m hm
        split at h
        · cases h
        · rename_i row hrow
          split at h
          · rename_i hlt
            unfold bitsetSet at hm
            split at hm
            · rename_i hc
              cases hm
              cases h
              exact ⟨d, pool, pools₂, comps₂, row, hd, hc, hens, hrow, hlt, rfl⟩
            · cases hm
          · cases h

theorem assign_entities (s s' : Scene) (cid sz : Nat) (E : EntityID)
    (h : s.Assign cid sz E = .ok s') :
    ∃ d, s.m_Entities[E.Index]? = some d ∧ cid < 32 ∧
      s'.m_Entities = s.m_Entities.set E.Index { d with Masks := d.Masks ||| (1 <<< cid) } ∧
      s'.m_FreeEntityIndecies = s.m_FreeEntityIndecies := by
  obtain ⟨d, pool, pools₂, comps₂, row, hd, hc, _, _, _, rfl⟩ := assign_ok s s' cid sz E h
  exact ⟨d, hd, hc, rfl, rfl⟩

theorem destroyEntity_ok (s s' : Scene) (_ID : EntityID) (h : s.DestroyEntity _ID = .ok s') :
    ∃ d, s.m_Entities[_ID.Index]? = some d ∧ s' = { s with
      m_Entities := s.m_Entities.set _ID.Index
        { ID := { Index := 4294967295, Version := (d.ID.Version + 1) % 4294967296 }, Masks := 0 }
      m_FreeEntityIndecies := s.m_FreeEntityIndecies ++ [_ID.Index] } := by
  cases hd : s.m_Entities[_ID.Index]? with
  | none => simp [Scene.DestroyEntity, hd] at h
  | some d =>
    rw [destroyEntity_eq s _ID d hd] at h
    cases h
    exact ⟨d, rfl, rfl⟩

theorem createEntity_recycle_get (s : Scene) (T j : Nat) (hT : T < 32)
    (hj : s.m_FreeEntityIndecies.getLast? = some j) (hlt : j < s.m_Entities.length) :
    ∃ id s', s.CreateEntity = .ok (id, s') ∧ id.Index = j ∧ s'.Get T id = .ok none := by
  refine ⟨_, _, createEntity_recycle_eq s j _ hj (List.getElem?_eq_getElem hlt), rfl, ?_⟩
  exact get_of_mask_zero _ T _ _ hT (List.getElem?_set_self hlt) rfl

/-! ## Traversal of a view -/

theorem mask_subset_iff (m x : Nat) :
    m = m &&& x ↔ ∀ q, m.testBit q = true → x.testBit q = true := by
  constructor
  · intro h q hq
    rw [h, Nat.testBit_and] at hq
    simp only [Bool.and_eq_true] at hq
    exact hq.2
  · intro h
    apply Nat.eq_of_testBit_eq
    intro q
    rw [Nat.testBit_and]
    cases hq : m.testBit q with
    | false => rfl
    | true => simp [h q hq]

theorem setAll_spec (ids : List Nat) (hids : ∀ t ∈ ids, t < 32) (m : Nat) :
    ∃ m', SceneView.setAll m ids = .ok m' ∧
      ∀ q, m'.testBit q = (m.testBit q || decide (q ∈ ids)) := by
  induction ids generalizing m with
  | nil => exact ⟨m, rfl, by simp⟩
  | cons t ts ih =>
    have ht : t < 32 := hids t (List.mem_cons_self t ts)
    obtain ⟨m', hm', hbits⟩ := ih (fun u hu => hids u (List.mem_cons_of_mem t hu))
      (m ||| (1 <<< t))
    refine ⟨m', ?_, ?_⟩
    · simp [SceneView.setAll, bitsetSet, MaskBits, ht, hm']
    · intro q
      rw [hbits q, testBit_set_bit]
      by_cases hq : t = q
      · subst hq
        simp
      · have hq' : ¬ q = t := fun h => hq h.symm
        simp [hq, hq']

/-- The test of `IsValidIndex` on a descriptor, for the mask of a view over `ids`. -/
theorem selected_iff (ids : List Nat) (m : Nat) (d : EntityDesc)
    (hm : ∀ q, m.testBit q = decide (q ∈ ids)) :
    (d.ID.Index != InvalidIndex && (m == 0 || m == (m &&& d.Masks))) =
      (decide (d.ID.Index ≠ 4294967295) && ids.all (fun t => d.Masks.testBit t)) := by
  have hsub : (m = 0 ∨ m = m &&& d.Masks) ↔ ∀ t ∈ ids, d.Masks.testBit t = true := by
    constructor
    · intro h t ht
      rcases h with h | h
      · have := hm t
        rw [h] at this
        simp [ht] at this
      · exact (mask_subset_iff m d.Masks).mp h t (by simp [hm t, ht])
    · intro h
      right
      apply (mask_subset_iff m d.Masks).mpr
      intro q hq
      rw [hm q] at hq
      exact h q (of_decide_eq_true hq)
  by_cases hall : ∀ t ∈ ids, d.Masks.testBit t = true
  · have h1 : ids.all (fun t => d.Masks.testBit t) = true := List.all_eq_true.mpr hall
    have h2 : (m == 0 || m == (m &&& d.Masks)) = true := by
      rcases hsub.mpr hall with h | h
      · simp [h]
      · rw [← h]; simp
    rw [h1, h2]
    by_cases hi : d.ID.Index = 4294967295 <;> simp [InvalidIndex, hi]
  · have h1 : ids.all (fun t => d.Masks.testBit t) = false := by
      rw [Bool.eq_false_iff]
      intro h
      exact hall (List.all_eq_true.mp h)
    have h2 : (m == 0 || m == (m &&& d.Masks)) = false := by
      rw [Bool.eq_false_iff]
      intro h
      apply hall
      apply hsub.mp
      simpa using h
    rw [h1, h2]
    simp

theorem beginLoop_spec (s : Scene) (v : SceneView) (p : EntityDesc → Bool)
    (hp : ∀ d, (d.ID.Index == InvalidIndex ||
      (v.m_ComponentMask != 0 && v.m_ComponentMask != (d.Masks &&& v.m_ComponentMask))) = !p d) :
    ∀ fuel idx, idx ≤ s.m_Entities.length → s.m_Entities.length - idx < fuel →
      ∃ j, SceneView.beginLoop s v fuel idx = .ok j ∧ idx ≤ j ∧ j ≤ s.m_Entities.length ∧
        (s.m_Entities.drop idx).filter p = (s.m_Entities.drop j).filter p ∧
        ∀ d, s.m_Entities[j]? = some d → p d = true := by
  intro fuel
  induction fuel with
  | zero => intro idx _ h; omega
  | succ fuel ih =>
    intro idx hle hfuel
    by_cases hlt : idx < s.m_Entities.length
    · have hd : s.m_Entities[idx]? = some s.m_Entities[idx] := List.getElem?_eq_getElem hlt
      cases hpd : p s.m_Entities[idx] with
      | false =>
        have hc := hp s.m_Entities[idx]
        rw [hpd] at hc
        obtain ⟨j, hj, h1, h2, h3, h4⟩ := ih (idx + 1) hlt (by omega)
        refine ⟨j, ?_, by omega, h2, ?_, h4⟩
        · simp only [SceneView.beginLoop, hlt, hd, if_true]
          rw [if_pos (by simpa using hc)]
          exact hj
        · rw [List.drop_eq_getElem_cons hlt, List.filter_cons_of_neg (by simp [hpd])]
          exact h3
      | true =>
        have hc := hp s.m_Entities[idx]
        rw [hpd] at hc
        refine ⟨idx, ?_, le_refl _, hle, rfl, ?_⟩
        · simp only [SceneView.beginLoop, hlt, hd, if_true]
          rw [if_neg (by simpa using hc)]
        · intro d hd'
          rw [hd] at hd'
          cases hd'
          exact hpd
    · refine ⟨idx, ?_, le_refl _, hle, rfl, ?_⟩
      · simp [SceneView.beginLoop, hlt]
      · intro d hd'
        exact absurd (List.getElem?_eq_some_iff.mp hd').1 hlt

theorem incLoop_spec (s : Scene) (p : EntityDesc → Bool) (mask : ComponentMask)
    (hp : ∀ d, (d.ID.Index != InvalidIndex && (mask == 0 || mask == (mask &&& d.Masks))) = p d) :
    ∀ fuel idx, idx + 1 ≤ s.m_Entities.length → s.m_Entities.length - (idx + 1) < fuel →
      ∃ j, Iterator.incLoop s fuel { m_Index := idx, m_ComponentMask := mask }
          = .ok { m_Index := j, m_ComponentMask := mask } ∧
        idx + 1 ≤ j ∧ j ≤ s.m_Entities.length ∧
        (s.m_Entities.drop (idx + 1)).filter p = (s.m_Entities.drop j).filter p ∧
        ∀ d, s.m_Entities[j]? = some d → p d = true := by
  intro fuel
  induction fuel with
  | zero => intro idx _ h; omega
  | succ fuel ih =>
    intro idx hle hfuel
    by_cases hlt : idx + 1 < s.m_Entities.length
    · have hd : s.m_Entities[idx + 1]? = some s.m_Entities[idx + 1] :=
        List.getElem?_eq_getElem hlt
      cases hpd : p s.m_Entities[idx + 1] with
      | false =>
        obtain ⟨j, hj, h1, h2, h3, h4⟩ := ih (idx + 1) hlt (by omega)
        refine ⟨j, ?_, by omega, h2, ?_, h4⟩
        · simp only [Iterator.incLoop, hlt, if_true, Iterator.IsValidIndex, hd, hp, hpd]
          exact hj
        · rw [List.drop_eq_getElem_cons hlt, List.filter_cons_of_neg (by simp [hpd])]
          exact h3
      | true =>
        refine ⟨idx + 1, ?_, le_refl _, hle, rfl, ?_⟩
        · simp only [Iterator.incLoop, hlt, if_true, Iterator.IsValidIndex, hd, hp, hpd]
        · intro d hd'
          rw [hd] at hd'
          cases hd'
          exact hpd
    · refine ⟨idx + 1, ?_, le_refl _, hle, rfl, ?_⟩
      · simp [Iterator.incLoop, hlt]
      · intro d hd'
        exact absurd (List.getElem?_eq_some_iff.mp hd').1 hlt

theorem forLoop_spec (s : Scene) (p : EntityDesc → Bool) (mask : ComponentMask)
    (hp : ∀ d, (d.ID.Index != InvalidIndex && (mask == 0 || mask == (mask &&& d.Masks))) = p d) :
    ∀ fuel idx, idx ≤ s.m_Entities.length → s.m_Entities.length - idx < fuel →
      (∀ d, s.m_Entities[idx]? = some d → p d = true) →
      SceneView.forLoop s { m_Index := s.m_Entities.length, m_ComponentMask := mask } fuel
          { m_Index := idx, m_ComponentMask := mask }
        = .ok (((s.m_Entities.drop idx).filter p).map (fun d => d.ID)) := by
  intro fuel
  induction fuel with
  | zero => intro idx _ h; omega
  | succ fuel ih =>
    intro idx hle hfuel hsel
    by_cases hlt : idx < s.m_Entities.length
    · have hd : s.m_Entities[idx]? = some s.m_Entities[idx] := List.getElem?_eq_getElem hlt
      obtain ⟨j, hj, h1, h2, h3, h4⟩ :=
        incLoop_spec s p mask hp (s.m_Entities.length + 1) idx hlt (by omega)
      have hne : Iterator.ne { m_Index := idx, m_ComponentMask := mask }
          { m_Index := s.m_Entities.length, m_ComponentMask := mask } = true := by
        simp [Iterator.ne]
        omega
      have hrest := ih j h2 (by omega) h4
      simp only [SceneView.forLoop, hne, if_true, Iterator.deref, hd, Iterator.inc, hj, hrest]
      rw [List.drop_eq_getElem_cons hlt, List.filter_cons_of_pos (hsel _ hd), h3]
      rfl
    · have hidx : idx = s.m_Entities.length := by omega
      subst hidx
      simp [SceneView.forLoop, Iterator.ne]

theorem traverse_spec (s : Scene) (v : SceneView) (p : EntityDesc → Bool)
    (hp : ∀ d, (d.ID.Index != InvalidIndex &&
      (v.m_ComponentMask == 0 || v.m_ComponentMask == (v.m_ComponentMask &&& d.Masks))) = p d) :
    v.traverse s = .ok ((s.m_Entities.filter p).map (fun d => d.ID)) := by
  have hp' : ∀ d, (d.ID.Index == InvalidIndex ||
      (v.m_ComponentMask != 0 && v.m_ComponentMask != (d.Masks &&& v.m_ComponentMask))) = !p d := by
    intro d
    rw [← hp d, Nat.and_comm d.Masks v.m_ComponentMask]
    simp only [bne]
    generalize (d.ID.Index == InvalidIndex) = a
    generalize (v.m_ComponentMask == 0) = b
    generalize (v.m_ComponentMask == (v.m_ComponentMask &&& d.Masks)) = c
    cases a <;> cases b <;> cases c <;> rfl
  obtain ⟨j, hj, _, h2, h3, h4⟩ :=
    beginLoop_spec s v p hp' (s.m_Entities.length + 1) 0 (Nat.zero_le _) (by omega)
  simp only [SceneView.traverse, SceneView.begin, hj, SceneView.end_]
  rw [forLoop_spec s p v.m_ComponentMask hp (s.m_Entities.length + 1) j h2 (by omega) h4, ← h3]
  rfl

/-! ## Mask bits and the handle table -/

theorem length_vecResize {α : Type} (v : List α) (n : Nat) (a : α) :
    (vecResize v n a).length = n := by
  simp [vecResize]
  omega

theorem getElem?_vecResize_old {α : Type} (v : List α) (n t : Nat) (a : α)
    (ht : t < v.length) (hn : t < n) : (vecResize v n a)[t]? = v[t]? := by
  unfold vecResize
  rw [List.getElem?_append_left (by simp; omega), List.getElem?_take_of_lt hn]

theorem getElem?_vecResize_new {α : Type} (v : List α) (n t : Nat) (a : α)
    (ht : v.length ≤ t) (hn : t < n) : (vecResize v n a)[t]? = some a := by
  unfold vecResize
  have hlen : (List.take n v).length = v.length := by simp; omega
  rw [List.getElem?_append_right (by omega), hlen, List.getElem?_replicate]
  simp
  omega

theorem ensurePool_ok (s : Scene) (cid sz : Nat) (pool : ComponentPool)
    (P₂ : List (Option ComponentPool)) (C₂ : List (List (Option Handle)))
    (hR : s.m_ComponentPools.length = s.m_EntityComponents.length)
    (h : s.ensurePool cid sz = .ok (pool, P₂, C₂)) :
    P₂.length = C₂.length ∧ P₂[cid]? = some (some pool) ∧
      ∀ (t : Nat) (p : ComponentPool), s.m_ComponentPools[t]? = some (some p) →
        P₂[t]? = some (some p) ∧ C₂[t]? = s.m_EntityComponents[t]? := by
  unfold Scene.ensurePool at h
  by_cases hge : cid ≥ s.m_ComponentPools.length
  · simp only [hge, if_true] at h
    have hnew : (vecResize s.m_ComponentPools (cid + 1) none)[cid]? = some none :=
      getElem?_vecResize_new _ _ _ _ hge (by omega)
    have hrow : (vecResize s.m_EntityComponents (cid + 1) [])[cid]? = some [] :=
      getElem?_vecResize_new _ _ _ _ (by omega) (by omega)
    simp only [hnew, hrow] at h
    cases h
    refine ⟨by simp [length_vecResize], by simp [length_vecResize], ?_⟩
    intro t p htp
    have ht : t < s.m_ComponentPools.length := (List.getElem?_eq_some_iff.mp htp).1
    have hne : cid ≠ t := by omega
    rw [List.getElem?_set_ne hne, List.getElem?_set_ne hne,
      getElem?_vecResize_old _ _ _ _ ht (by omega),
      getElem?_vecResize_old _ _ _ _ (by omega) (by omega)]
    exact ⟨htp, rfl⟩
  · have hlt : cid < s.m_ComponentPools.length := by omega
    simp only [hge, if_false] at h
    have hd : s.m_ComponentPools[cid]? = some s.m_ComponentPools[cid] :=
      List.getElem?_eq_getElem hlt
    cases hp : s.m_ComponentPools[cid] with
    | some p₀ =>
      rw [hd, hp] at h
      simp only [] at h
      cases h
      exact ⟨hR, by rw [hd, hp], fun t p htp => ⟨htp, rfl⟩⟩
    | none =>
      rw [hd, hp] at h
      simp only [] at h
      have hrow : s.m_EntityComponents[cid]? = some s.m_EntityComponents[cid] :=
        List.getElem?_eq_getElem (by omega)
      rw [hrow] at h
      simp only [] at h
      cases h
      refine ⟨by simp [hR], by simp [hlt], ?_⟩
      intro t p htp
      have hne : cid ≠ t := by
        intro hc
        subst hc
        rw [hd, hp] at htp
        cases htp
      rw [List.getElem?_set_ne hne, List.getElem?_set_ne hne]
      exact ⟨htp, rfl⟩

theorem createEntity_ok (s s' : Scene) (id : EntityID) (h : s.CreateEntity = .ok (id, s')) :
    (s.m_FreeEntityIndecies = [] ∧ id = ⟨s.m_Entities.length % 4294967296, 0⟩ ∧
      s' = { s with m_Entities := s.m_Entities ++ [{ ID := id, Masks := 0 }] }) ∨
    (∃ j d, s.m_FreeEntityIndecies.getLast? = some j ∧ s.m_Entities[j]? = some d ∧
      id = ⟨j, (d.ID.Version + 1) % 4294967296⟩ ∧
      s' = { s with
        m_Entities := s.m_Entities.set j { ID := id, Masks := 0 }
        m_FreeEntityIndecies := s.m_FreeEntityIndecies.dropLast }) := by
  cases hj : s.m_FreeEntityIndecies.getLast? with
  | none =>
    have hnil : s.m_FreeEntityIndecies = [] := List.getLast?_eq_none_iff.mp hj
    rw [createEntity_append_eq s hnil] at h
    cases h
    exact Or.inl ⟨hnil, rfl, rfl⟩
  | some j =>
    cases hd : s.m_Entities[j]? with
    | none => simp [Scene.CreateEntity, hj, hd] at h
    | some d =>
      rw [createEntity_recycle_eq s j d hj hd] at h
      cases h
      exact Or.inr ⟨j, d, rfl, hd, rfl, rfl⟩

theorem remove_ok (s : Scene) (cid : Nat) (E : EntityID) (r : RemoveResult)
    (h : s.Remove cid E = .ok r) :
    (r = { asserted := true, scene := s } ∧ s.validId E = false) ∨
    (∃ d, s.m_Entities[E.Index]? = some d ∧ d.ID = E ∧ cid < 32 ∧
      r = { asserted := false, scene := { s with
        m_Entities := s.m_Entities.set E.Index
          { d with Masks := d.Masks ^^^ (d.Masks &&& (1 <<< cid)) } } }) := by
  cases hv : s.IsEntityValid E with
  | error e => simp [Scene.Remove, hv] at h
  | ok b =>
    cases b with
    | false =>
      rw [remove_invalid_eq s cid E hv] at h
      cases h
      exact Or.inl ⟨rfl, by simp [Scene.validId, hv]⟩
    | true =>
      obtain ⟨d, hd, hid⟩ := (validId_iff s E).mp ((isEntityValid_true_iff s E).mp hv)
      by_cases hc : cid < 32
      · rw [remove_valid_eq s cid E d hc hd hid] at h
        cases h
        exact Or.inr ⟨d, hd, hid, hc, rfl⟩
      · simp [Scene.Remove, hv, hd, bitsetReset, MaskBits, hc] at h

theorem maskHandleInv_of_fewer_bits (s s' : Scene)
    (hP : s'.m_ComponentPools = s.m_ComponentPools)
    (hC : s'.m_EntityComponents = s.m_EntityComponents)
    (hsub : ∀ (i : Nat) (d' : EntityDesc) (t : Nat), s'.m_Entities[i]? = some d' →
      d'.Masks.testBit t = true → ∃ d, s.m_Entities[i]? = some d ∧ d.Masks.testBit t = true)
    (hinv : s.MaskHandleInv) : s'.MaskHandleInv := by
  refine ⟨by rw [hP, hC]; exact hinv.1, ?_⟩
  intro i d' t hd' hbit
  obtain ⟨d, hd, hb⟩ := hsub i d' t hd' hbit
  rw [hP, hC]
  exact hinv.2 i d t hd hb

theorem fewer_bits_set_zero (es : List EntityDesc) (j : Nat) (id : EntityID) :
    ∀ (i : Nat) (d' : EntityDesc) (t : Nat), (es.set j ⟨id, 0⟩)[i]? = some d' →
      d'.Masks.testBit t = true → ∃ d, es[i]? = some d ∧ d.Masks.testBit t = true := by
  intro i d' t hd' hbit
  by_cases hij : j = i
  · subst hij
    rw [List.getElem?_set_self'] at hd'
    cases hes : es[j]? with
    | none => simp [hes] at hd'
    | some d =>
      simp [hes] at hd'
      subst hd'
      simp at hbit
  · rw [List.getElem?_set_ne hij] at hd'
    exact ⟨d', hd', hbit⟩

theorem maskHandleInv_step (s s' : Scene) (op : Op) (hstep : s.step op = .ok s')
    (hinv : s.MaskHandleInv) : s'.MaskHandleInv := by
  cases op with
  | CreateEntity =>
    simp only [Scene.step] at hstep
    cases hc : s.CreateEntity with
    | error e => simp [hc] at hstep
    | ok r =>
      obtain ⟨id, s₁⟩ := r
      simp only [hc] at hstep
      cases hstep
      rcases createEntity_ok s s' id hc with ⟨_, _, rfl⟩ | ⟨j, d, _, _, _, rfl⟩
      · refine maskHandleInv_of_fewer_bits s _ rfl rfl ?_ hinv
        intro i d' t hd' hbit
        by_cases hi : i < s.m_Entities.length
        · rw [List.getElem?_append_left hi] at hd'
          exact ⟨d', hd', hbit⟩
        · rw [List.getElem?_append_right (by omega)] at hd'
          cases hk : i - s.m_Entities.length with
          | zero =>
            simp [hk] at hd'
            subst hd'
            simp at hbit
          | succ k => simp [hk] at hd'
      · exact maskHandleInv_of_fewer_bits s _ rfl rfl (fewer_bits_set_zero _ _ _) hinv
  | DestroyEntity E =>
    obtain ⟨d, _, rfl⟩ := destroyEntity_ok s s' E hstep
    exact maskHandleInv_of_fewer_bits s _ rfl rfl (fewer_bits_set_zero _ _ _) hinv
  | Remove cid E =>
    simp only [Scene.step] at hstep
    cases hr : s.Remove cid E with
    | error e => simp [hr] at hstep
    | ok r =>
      simp only [hr] at hstep
      cases hstep
      rcases remove_ok s cid E r hr with ⟨rfl, _⟩ | ⟨d, hd, _, _, rfl⟩
      · exact hinv
      · refine maskHandleInv_of_fewer_bits s _ rfl rfl ?_ hinv
        intro i d' t hd' hbit
        by_cases hij : E.Index = i
        · subst hij
          rw [List.getElem?_set_self (List.getElem?_eq_some_iff.mp hd).1] at hd'
          cases hd'
          simp only [testBit_reset_bit, Bool.and_eq_true] at hbit
          exact ⟨d, hd, hbit.1⟩
        · rw [List.getElem?_set_ne hij] at hd'
          exact ⟨d', hd', hbit⟩
  | Assign cid sz E =>
    obtain ⟨d, pool, P₂, C₂, row, hd, hc, hens, hrow, hlt, rfl⟩ := assign_ok s s' cid sz E hstep
    obtain ⟨hlen, hpool, hkeep⟩ := ensurePool_ok s cid sz pool P₂ C₂ hinv.1 hens
    have hcid : cid < C₂.length := (List.getElem?_eq_some_iff.mp hrow).1
    have hEi : E.Index < s.m_Entities.length := (List.getElem?_eq_some_iff.mp hd).1
    refine ⟨by simpa using hlen, ?_⟩
    intro i d' t hd' hbit
    simp only at hd' ⊢
    by_cases hnew : i = E.Index ∧ t = cid
    · obtain ⟨rfl, rfl⟩ := hnew
      exact ⟨pool, row.set E.Index (some ⟨E.Index⟩), ⟨E.Index⟩, hpool,
        by simp [hcid], by simp [hlt]⟩
    · have hold : ∃ d₀, s.m_Entities[i]? = some d₀ ∧ d₀.Masks.testBit t = true := by
        by_cases hij : E.Index = i
        · subst hij
          rw [List.getElem?_set_self hEi] at hd'
          cases hd'
          simp only [testBit_set_bit, Bool.or_eq_true, decide_eq_true_eq] at hbit
          rcases hbit with hb | hb
          · exact ⟨d, hd, hb⟩
          · exact absurd ⟨rfl, hb.symm⟩ hnew
        · rw [List.getElem?_set_ne hij] at hd'
          exact ⟨d', hd', hbit⟩
      obtain ⟨d₀, hd₀, hb₀⟩ := hold
      obtain ⟨p, row₀, h₀, hp, hr₀, hh₀⟩ := hinv.2 i d₀ t hd₀ hb₀
      obtain ⟨hp₂, hc₂⟩ := hkeep t p hp
      by_cases htc : cid = t
      · subst htc
        have hrr : row = row₀ := by
          rw [hc₂, hr₀] at hrow
          cases hrow
          rfl
        subst hrr
        have hne : E.Index ≠ i := fun hc' => hnew ⟨hc'.symm, rfl⟩
        exact ⟨p, row.set E.Index (some ⟨E.Index⟩), h₀, hp₂, by simp [hcid],
          by rw [List.getElem?_set_ne hne]; exact hh₀⟩
      · exact ⟨p, row₀, h₀, hp₂, by rw [List.getElem?_set_ne htc, hc₂]; exact hr₀, hh₀⟩

theorem maskHandleInv_run (ops : List Op) :
    ∀ (s s' : Scene), s.run ops = .ok s' → s.MaskHandleInv → s'.MaskHandleInv := by
  induction ops with
  | nil =>
    intro s s' h hinv
    simp only [Scene.run] at h
    cases h
    exact hinv
  | cons op ops ih =>
    intro s s' h hinv
    simp only [Scene.run] at h
    cases hs : s.step op with
    | error e => simp [hs] at h
    | ok s₁ =>
      simp only [hs] at h
      exact ih s₁ s' h (maskHandleInv_step s s₁ op hs hinv)

theorem maskHandleInv_empty : Scene.empty.MaskHandleInv := by
  refine ⟨rfl, ?_⟩
  intro i d t hd
  simp [Scene.empty] at hd

theorem get_some_iff_bit (s : Scene) (t : Nat) (id : EntityID) (d : EntityDesc)
    (hinv : s.MaskHandleInv) (hd : s.m_Entities[id.Index]? = some d) (ht : t < 32) :
    (∃ h, s.Get t id = .ok (some h)) ↔ d.Masks.testBit t = true := by
  cases hb : d.Masks.testBit t with
  | false => simp [Scene.Get, hd, bitsetTest, MaskBits, ht, hb]
  | true =>
    obtain ⟨p, row, h, _, hrow, hh⟩ := hinv.2 id.Index d t hd hb
    simp [Scene.Get, hd, bitsetTest, MaskBits, ht, hb, hrow, hh]

/-! ## Versions along a run -/

theorem step_version (s s' : Scene) (op : Op) (hstep : s.step op = .ok s') :
    ∀ (i : Nat) (d : EntityDesc), s.m_Entities[i]? = some d →
      ∃ d', s'.m_Entities[i]? = some d' ∧
        (d'.ID.Version = d.ID.Version ∨ d'.ID.Version = (d.ID.Version + 1) % 4294967296) := by
  intro i d hd
  have hi : i < s.m_Entities.length := (List.getElem?_eq_some_iff.mp hd).1
  cases op with
  | CreateEntity =>
    simp only [Scene.step] at hstep
    cases hc : s.CreateEntity with
    | error e => simp [hc] at hstep
    | ok r =>
      obtain ⟨id, s₁⟩ := r
      simp only [hc] at hstep
      cases hstep
      rcases createEntity_ok s s' id hc with ⟨_, _, rfl⟩ | ⟨j, d₀, _, hd₀, rfl, rfl⟩
      · exact ⟨d, by simp [List.getElem?_append_left hi, hd], Or.inl rfl⟩
      · by_cases hij : j = i
        · subst hij
          rw [hd] at hd₀
          cases hd₀
          exact ⟨_, List.getElem?_set_self hi, Or.inr rfl⟩
        · exact ⟨d, by rw [List.getElem?_set_ne hij]; exact hd, Or.inl rfl⟩
  | DestroyEntity E =>
    obtain ⟨d₀, hd₀, rfl⟩ := destroyEntity_ok s s' E hstep
    by_cases hij : E.Index = i
    · subst hij
      rw [hd] at hd₀
      cases hd₀
      exact ⟨_, List.getElem?_set_self hi, Or.inr rfl⟩
    · exact ⟨d, by rw [List.getElem?_set_ne hij]; exact hd, Or.inl rfl⟩
  | Remove cid E =>
    simp only [Scene.step] at hstep
    cases hr : s.Remove cid E with
    | error e => simp [hr] at hstep
    | ok r =>
      simp only [hr] at hstep
      cases hstep
      rcases remove_ok s cid E r hr with ⟨rfl, _⟩ | ⟨d₀, hd₀, _, _, rfl⟩
      · exact ⟨d, hd, Or.inl rfl⟩
      · by_cases hij : E.Index = i
        · subst hij
          rw [hd] at hd₀
          cases hd₀
          exact ⟨_, List.getElem?_set_self hi, Or.inl rfl⟩
        · exact ⟨d, by rw [List.getElem?_set_ne hij]; exact hd, Or.inl rfl⟩
  | Assign cid sz E =>
    obtain ⟨d₀, hd₀, _, hent, _⟩ := assign_entities s s' cid sz E hstep
    rw [hent]
    by_cases hij : E.Index = i
    · subst hij
      rw [hd] at hd₀
      cases hd₀
      exact ⟨_, List.getElem?_set_self hi, Or.inl rfl⟩
    · exact ⟨d, by rw [List.getElem?_set_ne hij]; exact hd, Or.inl rfl⟩

theorem run_version (ops : List Op) :
    ∀ (s s' : Scene), s.run ops = .ok s' →
      ∀ (i : Nat) (d : EntityDesc), s.m_Entities[i]? = some d →
        ∃ d' k, k ≤ ops.length ∧ s'.m_Entities[i]? = some d' ∧
          d'.ID.Version % 4294967296 = (d.ID.Version + k) % 4294967296 := by
  induction ops with
  | nil =>
    intro s s' h i d hd
    simp only [Scene.run] at h
    cases h
    exact ⟨d, 0, le_refl _, hd, rfl⟩
  | cons op ops ih =>
    intro s s' h i d hd
    simp only [Scene.run] at h
    cases hs : s.step op with
    | error e => simp [hs] at h
    | ok s₁ =>
      simp only [hs] at h
      obtain ⟨d₁, hd₁, hv⟩ := step_version s s₁ op hs i d hd
      obtain ⟨d', k, hk, hd', hv'⟩ := ih s₁ s' h i d₁ hd₁
      rcases hv with hv | hv
      · exact ⟨d', k, by simp; omega, hd', by rw [hv', hv]⟩
      · refine ⟨d', k + 1, by simp; omega, hd', ?_⟩
        rw [hv', hv]
        omega

theorem runValid_run (ops : List Op) :
    ∀ (s s' : Scene), s.runValid ops = some s' → s.run ops = .ok s' := by
  induction ops with
  | nil =>
    intro s s' h
    simp only [Scene.runValid] at h
    cases h
    rfl
  | cons op ops ih =>
    intro s s' h
    simp only [Scene.runValid] at h
    split at h
    · cases hs : s.step op with
      | error e => simp [hs] at h
      | ok s₁ =>
        simp only [hs] at h
        simp only [Scene.run, hs]
        exact ih s₁ s' h
    · cases h

/-! ## The free-slot list along a run on valid ids -/

theorem ensurePool_rows (s : Scene) (cid sz : Nat) (pool : ComponentPool)
    (P₂ : List (Option ComponentPool)) (C₂ : List (List (Option Handle)))
    (hrows : ∀ row ∈ s.m_EntityComponents, row.length ≤ 1024)
    (h : s.ensurePool cid sz = .ok (pool, P₂, C₂)) :
    ∀ row ∈ C₂, row.length ≤ 1024 := by
  have hres : ∀ n, ∀ row ∈ vecResize s.m_EntityComponents n [], row.length ≤ 1024 := by
    intro n row hrow
    unfold vecResize at hrow
    rcases List.mem_append.mp hrow with hm | hm
    · exact hrows row (List.mem_of_mem_take hm)
    · rw [(List.mem_replicate.mp hm).2]
      simp
  have hsome : ∀ C₁ : List (List (Option Handle)), (∀ row ∈ C₁, row.length ≤ 1024) →
      ∀ row₀, ∀ row ∈ C₁.set cid (vecResize row₀ 1024 none), row.length ≤ 1024 := by
    intro C₁ hC₁ row₀ row hrow
    rcases List.mem_or_eq_of_mem_set hrow with hm | hm
    · exact hC₁ row hm
    · rw [hm, length_vecResize]
  unfold Scene.ensurePool at h
  simp only [] at h
  split at h
  · cases h
  · cases h
    split
    · exact hres _
    · exact hrows
  · split at h
    · cases h
    · cases h
      split
      · exact hsome _ (hres _) _
      · exact hsome _ hrows _

theorem wellFormed_empty : Scene.empty.WellFormed := by
  refine ⟨?_, ?_, ?_, ?_⟩
  · intro row hrow
    simp [Scene.empty] at hrow
  · intro i d hd
    simp [Scene.empty] at hd
  · intro j hj
    simp [Scene.empty] at hj
  · intro j _
    simp [Scene.empty]

theorem wellFormed_step (s s' : Scene) (op : Op) (hwf : s.WellFormed)
    (hvalid : s.onValidId op = true) (hstep : s.step op = .ok s') : s'.WellFormed := by
  cases op with
  | CreateEntity =>
    simp only [Scene.step] at hstep
    cases hc : s.CreateEntity with
    | error e => simp [hc] at hstep
    | ok r =>
      obtain ⟨id, s₁⟩ := r
      simp only [hc] at hstep
      cases hstep
      rcases createEntity_ok s s' id hc with ⟨hnil, _, rfl⟩ | ⟨j₀, d₀, hj₀, hd₀, _, rfl⟩
      · refine ⟨hwf.rows, ?_, ?_, hwf.once⟩
        · intro i d hd hi
          simp only at hd
          by_cases hlt : i < s.m_Entities.length
          · rw [List.getElem?_append_left hlt] at hd
            exact hwf.high i d hd hi
          · rw [List.getElem?_append_right (by omega)] at hd
            cases hk : i - s.m_Entities.length with
            | zero =>
              simp [hk] at hd
              rw [← hd]
            | succ k => simp [hk] at hd
        · intro j hj
          simp only [hnil] at hj
          cases hj
      · obtain ⟨ys, hys⟩ := List.getLast?_eq_some_iff.mp hj₀
        have hdrop : s.m_FreeEntityIndecies.dropLast = ys := by rw [hys]; simp
        refine ⟨hwf.rows, ?_, ?_, ?_⟩
        · intro i d hd hi
          simp only at hd
          by_cases hij : j₀ = i
          · subst hij
            rw [List.getElem?_set_self (List.getElem?_eq_some_iff.mp hd₀).1] at hd
            cases hd
            rfl
          · rw [List.getElem?_set_ne hij] at hd
            exact hwf.high i d hd hi
        · intro j hj hjs d hd
          simp only [hdrop] at hj
          simp only at hd
          have hjfree : j ∈ s.m_FreeEntityIndecies := by rw [hys]; simp [hj]
          have hne : j₀ ≠ j := by
            intro hc'
            subst hc'
            have h1 := hwf.once j₀ hjs
            rw [hys, List.count_append, List.count_singleton_self] at h1
            have h2 : 1 ≤ List.count j₀ ys := List.one_le_count_iff.mpr hj
            omega
          rw [List.getElem?_set_ne hne] at hd
          exact hwf.tomb j hjfree hjs d hd
        · intro j hjs
          simp only [hdrop]
          have h1 := hwf.once j hjs
          rw [hys, List.count_append] at h1
          omega
  | DestroyEntity E =>
    obtain ⟨d₀, hd₀, rfl⟩ := destroyEntity_ok s s' E hstep
    simp only [Scene.onValidId] at hvalid
    obtain ⟨d₁, hd₁, hid⟩ := (validId_iff s E).mp hvalid
    rw [hd₀] at hd₁
    cases hd₁
    have hlt : E.Index < s.m_Entities.length := (List.getElem?_eq_some_iff.mp hd₀).1
    refine ⟨hwf.rows, ?_, ?_, ?_⟩
    · intro i d hd hi
      simp only at hd
      by_cases hij : E.Index = i
      · rw [hij, List.getElem?_set_self (hij ▸ hlt)] at hd
        cases hd
        rfl
      · rw [List.getElem?_set_ne hij] at hd
        exact hwf.high i d hd hi
    · intro j hj hjs d hd
      simp only at hd hj
      by_cases hij : E.Index = j
      · rw [hij, List.getElem?_set_self (hij ▸ hlt)] at hd
        cases hd
        rfl
      · rw [List.getElem?_set_ne hij] at hd
        rcases List.mem_append.mp hj with hm | hm
        · exact hwf.tomb j hm hjs d hd
        · simp at hm
          exact absurd hm.symm hij
    · intro j hjs
      simp only [List.count_append, List.count_singleton]
      have h1 := hwf.once j hjs
      by_cases hij : E.Index = j
      · have hnot : j ∉ s.m_FreeEntityIndecies := by
          intro hm
          have h2 := hwf.tomb j hm hjs d₀ (hij ▸ hd₀)
          rw [hid, hij] at h2
          exact hjs h2
        rw [List.count_eq_zero_of_not_mem hnot]
        simp [hij]
      · have : (E.Index == j) = false := by simp [hij]
        simp [this]
        exact h1
  | Remove cid E =>
    simp only [Scene.step] at hstep
    cases hr : s.Remove cid E with
    | error e => simp [hr] at hstep
    | ok r =>
      simp only [hr] at hstep
      cases hstep
      rcases remove_ok s cid E r hr with ⟨rfl, _⟩ | ⟨d₀, hd₀, _, _, rfl⟩
      · exact hwf
      · have hlt : E.Index < s.m_Entities.length := (List.getElem?_eq_some_iff.mp hd₀).1
        refine ⟨hwf.rows, ?_, ?_, hwf.once⟩
        · intro i d hd hi
          simp only at hd
          by_cases hij : E.Index = i
          · rw [hij, List.getElem?_set_self (hij ▸ hlt)] at hd
            cases hd
            have h0 := hwf.high E.Index d₀ hd₀ (hij ▸ hi)
            simp [h0]
          · rw [List.getElem?_set_ne hij] at hd
            exact hwf.high i d hd hi
        · intro j hj hjs d hd
          simp only at hd hj
          by_cases hij : E.Index = j
          · rw [hij, List.getElem?_set_self (hij ▸ hlt)] at hd
            cases hd
            exact hwf.tomb j hj hjs d₀ (hij ▸ hd₀)
          · rw [List.getElem?_set_ne hij] at hd
            exact hwf.tomb j hj hjs d hd
  | Assign cid sz E =>
    obtain ⟨d₀, pool, P₂, C₂, row, hd₀, _, hens, hrow, hlt', rfl⟩ :=
      assign_ok s s' cid sz E hstep
    have hlt : E.Index < s.m_Entities.length := (List.getElem?_eq_some_iff.mp hd₀).1
    have hrows₂ := ensurePool_rows s cid sz pool P₂ C₂ hwf.rows hens
    have hrowlen : row.length ≤ 1024 := hrows₂ row (List.getElem?_mem hrow)
    refine ⟨?_, ?_, ?_, hwf.once⟩
    · intro row' hrow'
      simp only at hrow'
      rcases List.mem_or_eq_of_mem_set hrow' with hm | hm
      · exact hrows₂ row' hm
      · rw [hm, List.length_set]
        exact hrowlen
    · intro i d hd hi
      simp only at hd
      have hij : E.Index ≠ i := by omega
      rw [List.getElem?_set_ne hij] at hd
      exact hwf.high i d hd hi
    · intro j hj hjs d hd
      simp only at hd hj
      by_cases hij : E.Index = j
      · rw [hij, List.getElem?_set_self (hij ▸ hlt)] at hd
        cases hd
        exact hwf.tomb j hj hjs d₀ (hij ▸ hd₀)
      · rw [List.getElem?_set_ne hij] at hd
        exact hwf.tomb j hj hjs d hd

/-! ## The mask along a run on valid ids -/

theorem touch_eq_true_iff (E : EntityID) (T : Nat) (b : Bool) (op : Op) :
    Op.touch E T b op = true ↔
      (∃ sz, op = .Assign T sz E) ∨
        (b = true ∧ op ≠ .Remove T E ∧ op ≠ .DestroyEntity E) := by
  cases op with
  | CreateEntity => simp [Op.touch]
  | DestroyEntity E' =>
    by_cases h : E' = E <;> simp [Op.touch, h]
  | Assign T' sz E' =>
    by_cases h : T' = T ∧ E' = E
    · obtain ⟨rfl, rfl⟩ := h
      simp [Op.touch]
    · have h' : ¬ ∃ sz', Op.Assign T' sz E' = Op.Assign T sz' E := by
        rintro ⟨sz', hc⟩
        cases hc
        exact h ⟨rfl, rfl⟩
      simp only [Op.touch, h, if_false, h', false_or]
      simp
  | Remove T' E' =>
    by_cases h : T' = T ∧ E' = E
    · obtain ⟨rfl, rfl⟩ := h
      simp [Op.touch]
    · have h' : Op.Remove T' E' ≠ Op.Remove T E := by
        intro hc
        cases hc
        exact h ⟨rfl, rfl⟩
      simp [Op.touch, h, h']

theorem standing_snoc (E : EntityID) (T : Nat) (ops : List Op) (op : Op) :
    Op.standing E T (ops ++ [op]) = Op.touch E T (Op.standing E T ops) op := by
  simp [Op.standing, List.foldl_append]

theorem standing_iff (E : EntityID) (T : Nat) (ops : List Op) :
    Op.standing E T ops = true ↔
      ∃ pre sz post, ops = pre ++ .Assign T sz E :: post ∧
        ∀ op ∈ post, op ≠ .Remove T E ∧ op ≠ .DestroyEntity E := by
  induction ops using List.reverseRecOn with
  | nil =>
    constructor
    · intro h
      cases h
    · rintro ⟨pre, sz, post, h, _⟩
      cases pre <;> cases h
  | append_singleton ops op ih =>
    rw [standing_snoc, touch_eq_true_iff, ih]
    constructor
    · rintro (⟨sz, rfl⟩ | ⟨⟨pre, sz, post, rfl, hpost⟩, h1, h2⟩)
      · exact ⟨ops, sz, [], rfl, by simp⟩
      · refine ⟨pre, sz, post ++ [op], by simp, ?_⟩
        intro x hx
        rcases List.mem_append.mp hx with hm | hm
        · exact hpost x hm
        · simp at hm
          subst hm
          exact ⟨h1, h2⟩
    · rintro ⟨pre, sz, post, h, hpost⟩
      rcases List.eq_nil_or_concat post with rfl | ⟨post', x, rfl⟩
      · left
        have := List.append_inj' h (by simp)
        exact ⟨sz, by simpa using this.2⟩
      · right
        rw [List.concat_eq_append] at h hpost
        have hsplit : ops ++ [op] = (pre ++ Op.Assign T sz E :: post') ++ [x] := by
          rw [h]
          simp
        have := List.append_inj' hsplit (by simp)
        have hx : op = x := by simpa using this.2
        subst hx
        refine ⟨⟨pre, sz, post', this.1, fun y hy => hpost y (by simp [hy])⟩, ?_⟩
        exact hpost op (by simp)

theorem holdsBit_set (s s' : Scene) (i : Nat) (d₁ : EntityDesc) (E : EntityID) (T : Nat)
    (hlt : i < s.m_Entities.length) (hent : s'.m_Entities = s.m_Entities.set i d₁) :
    s'.holdsBit E T ↔
      if E.Index = i then d₁.ID = E ∧ d₁.Masks.testBit T = true else s.holdsBit E T := by
  unfold Scene.holdsBit
  rw [hent]
  by_cases hi : E.Index = i
  · rw [if_pos hi, hi, List.getElem?_set_self hlt]
    constructor
    · rintro ⟨d, hd, h1, h2⟩
      cases hd
      exact ⟨h1, h2⟩
    · rintro ⟨h1, h2⟩
      exact ⟨d₁, rfl, h1, h2⟩
  · rw [if_neg hi, List.getElem?_set_ne (Ne.symm hi)]

theorem holdsBit_unique (s : Scene) (E E' : EntityID) (T : Nat) (d : EntityDesc)
    (hd : s.m_Entities[E'.Index]? = some d) (hid : d.ID = E') (hi : E.Index = E'.Index) :
    s.holdsBit E T ↔ E = E' ∧ d.Masks.testBit T = true := by
  unfold Scene.holdsBit
  rw [hi, hd]
  constructor
  · rintro ⟨d', hd', h1, h2⟩
    cases hd'
    exact ⟨h1.symm.trans hid, h2⟩
  · rintro ⟨h1, h2⟩
    exact ⟨d, rfl, hid.trans h1.symm, h2⟩

theorem standing_step (s s' : Scene) (ops : List Op) (op : Op) (hwf : s.WellFormed)
    (hst : ∀ E T, Op.standing E T ops = true ↔ s.holdsBit E T)
    (hvalid : s.onValidId op = true) (hstep : s.step op = .ok s') :
    ∀ E T, Op.standing E T (ops ++ [op]) = true ↔ s'.holdsBit E T := by
  intro E T
  rw [standing_snoc]
  cases op with
  | CreateEntity =>
    simp only [Op.touch]
    rw [hst]
    simp only [Scene.step] at hstep
    cases hc : s.CreateEntity with
    | error e => simp [hc] at hstep
    | ok r =>
      obtain ⟨id, s₁⟩ := r
      simp only [hc] at hstep
      cases hstep
      rcases createEntity_ok s s' id hc with ⟨_, _, rfl⟩ | ⟨j₀, d₀, hj₀, hd₀, _, rfl⟩
      · unfold Scene.holdsBit
        simp only
        by_cases hlt : E.Index < s.m_Entities.length
        · rw [List.getElem?_append_left hlt]
        · rw [List.getElem?_append_right (by omega), List.getElem?_eq_none (by omega)]
          constructor
          · rintro ⟨d, hd, _⟩
            cases hd
          · rintro ⟨d, hd, _, hb⟩
            cases hk : E.Index - s.m_Entities.length with
            | zero =>
              simp [hk] at hd
              rw [← hd] at hb
              simp at hb
            | succ k => simp [hk] at hd
      · have hlt : j₀ < s.m_Entities.length := (List.getElem?_eq_some_iff.mp hd₀).1
        rw [holdsBit_set s { s with
          m_Entities := s.m_Entities.set j₀ ⟨id, 0⟩
          m_FreeEntityIndecies := s.m_FreeEntityIndecies.dropLast } j₀ ⟨id, 0⟩ E T hlt rfl]
        by_cases hi : E.Index = j₀
        · rw [if_pos hi]
          constructor
          · rintro ⟨d, hd, hid, hb⟩
            rw [hi, hd₀] at hd
            cases hd
            by_cases hs : j₀ = 4294967295
            · have h0 := hwf.high j₀ d₀ hd₀ (by omega)
              rw [h0] at hb
              simp at hb
            · have h1 := hwf.tomb j₀ (List.mem_of_getLast?_eq_some hj₀) hs d₀ hd₀
              rw [hid, hi] at h1
              exact absurd h1 hs
          · rintro ⟨_, hb⟩
            simp at hb
        · rw [if_neg hi]
  | DestroyEntity E₀ =>
    obtain ⟨d₀, hd₀, rfl⟩ := destroyEntity_ok s s' E₀ hstep
    simp only [Scene.onValidId] at hvalid
    obtain ⟨d₁, hd₁, hid⟩ := (validId_iff s E₀).mp hvalid
    rw [hd₀] at hd₁
    cases hd₁
    have hlt : E₀.Index < s.m_Entities.length := (List.getElem?_eq_some_iff.mp hd₀).1
    rw [holdsBit_set s { s with
      m_Entities := s.m_Entities.set E₀.Index
        ⟨⟨4294967295, (d₀.ID.Version + 1) % 4294967296⟩, 0⟩
      m_FreeEntityIndecies := s.m_FreeEntityIndecies ++ [E₀.Index] } E₀.Index
      ⟨⟨4294967295, (d₀.ID.Version + 1) % 4294967296⟩, 0⟩ E T hlt rfl]
    simp only [Op.touch]
    by_cases hi : E.Index = E₀.Index
    · rw [if_pos hi]
      have hfalse : ¬ ((⟨4294967295, (d₀.ID.Version + 1) % 4294967296⟩ : EntityID) = E ∧
          Nat.testBit 0 T = true) := by simp
      by_cases hE : E₀ = E
      · simp [hE]
      · rw [if_neg hE, hst, holdsBit_unique s E E₀ T d₀ hd₀ hid hi]
        constructor
        · rintro ⟨h1, _⟩
          exact absurd h1.symm hE
        · intro h
          exact absurd h hfalse
    · have hE : E₀ ≠ E := fun hc => hi (by rw [hc])
      rw [if_neg hi, if_neg hE, hst]
  | Remove T₀ E₀ =>
    simp only [Scene.step] at hstep
    cases hr : s.Remove T₀ E₀ with
    | error e => simp [hr] at hstep
    | ok r =>
      simp only [hr] at hstep
      cases hstep
      simp only [Scene.onValidId] at hvalid
      rcases remove_ok s T₀ E₀ r hr with ⟨_, hinv⟩ | ⟨d₀, hd₀, hid, _, rfl⟩
      · rw [hvalid] at hinv
        cases hinv
      · have hlt : E₀.Index < s.m_Entities.length := (List.getElem?_eq_some_iff.mp hd₀).1
        rw [holdsBit_set s { s with
          m_Entities := s.m_Entities.set E₀.Index
            { d₀ with Masks := d₀.Masks ^^^ (d₀.Masks &&& (1 <<< T₀)) } } E₀.Index
          { d₀ with Masks := d₀.Masks ^^^ (d₀.Masks &&& (1 <<< T₀)) } E T hlt rfl]
        simp only [Op.touch, testBit_reset_bit, Bool.and_eq_true, Bool.not_eq_true',
          decide_eq_false_iff_not]
        by_cases hi : E.Index = E₀.Index
        · rw [if_pos hi]
          by_cases hc : T₀ = T ∧ E₀ = E
          · rw [if_pos hc]
            constructor
            · intro h
              cases h
            · rintro ⟨_, _, h3⟩
              exact absurd hc.1 h3
          · rw [if_neg hc, hst, holdsBit_unique s E E₀ T d₀ hd₀ hid hi]
            constructor
            · rintro ⟨h1, h2⟩
              exact ⟨hid.trans h1.symm, h2, fun h3 => hc ⟨h3, h1.symm⟩⟩
            · rintro ⟨h1, h2, _⟩
              exact ⟨h1.symm.trans hid, h2⟩
        · have hE : ¬ (T₀ = T ∧ E₀ = E) := fun hc => hi (by rw [hc.2])
          rw [if_neg hi, if_neg hE, hst]
  | Assign T₀ sz E₀ =>
    obtain ⟨d₀, hd₀, _, hent, _⟩ := assign_entities s s' T₀ sz E₀ hstep
    simp only [Scene.onValidId] at hvalid
    obtain ⟨d₁, hd₁, hid⟩ := (validId_iff s E₀).mp hvalid
    rw [hd₀] at hd₁
    cases hd₁
    have hlt : E₀.Index < s.m_Entities.length := (List.getElem?_eq_some_iff.mp hd₀).1
    rw [holdsBit_set s s' E₀.Index _ E T hlt hent]
    simp only [Op.touch, testBit_set_bit, Bool.or_eq_true, decide_eq_true_eq]
    by_cases hi : E.Index = E₀.Index
    · rw [if_pos hi]
      by_cases hc : T₀ = T ∧ E₀ = E
      · rw [if_pos hc]
        constructor
        · intro _
          exact ⟨hid.trans hc.2, Or.inr hc.1⟩
        · intro _
          rfl
      · rw [if_neg hc, hst, holdsBit_unique s E E₀ T d₀ hd₀ hid hi]
        constructor
        · rintro ⟨h1, h2⟩
          exact ⟨hid.trans h1.symm, Or.inl h2⟩
        · rintro ⟨h1, h2⟩
          have hE : E₀ = E := hid.symm.trans h1
          rcases h2 with h2 | h2
          · exact ⟨hE.symm, h2⟩
          · exact absurd ⟨h2, hE⟩ hc
    · have hE : ¬ (T₀ = T ∧ E₀ = E) := fun hc => hi (by rw [hc.2])
      rw [if_neg hi, if_neg hE, hst]

theorem runValid_snoc (ops : List Op) (op : Op) :
    ∀ (s s' : Scene), s.runValid (ops ++ [op]) = some s' ↔
      ∃ s₁, s.runValid ops = some s₁ ∧ s₁.onValidId op = true ∧ s₁.step op = .ok s' := by
  induction ops with
  | nil =>
    intro s s'
    simp only [List.nil_append, Scene.runValid]
    by_cases hv : s.onValidId op = true
    · cases hs : s.step op with
      | error e => simp [hv, hs]
      | ok s₂ => simp [hv, hs]
    · simp [hv]
  | cons op₀ ops ih =>
    intro s s'
    simp only [List.cons_append, Scene.runValid]
    by_cases hv : s.onValidId op₀ = true
    · cases hs : s.step op₀ with
      | error e => simp [hv]
      | ok s₂ =>
        simp only [hv, if_true]
        exact ih s₂ s'
    · simp [hv]

theorem runValid_inv (ops : List Op) :
    ∀ s, Scene.empty.runValid ops = some s →
      s.WellFormed ∧ ∀ E T, Op.standing E T ops = true ↔ s.holdsBit E T := by
  induction ops using List.reverseRecOn with
  | nil =>
    intro s h
    simp only [Scene.runValid] at h
    cases h
    refine ⟨wellFormed_empty, ?_⟩
    intro E T
    simp [Op.standing, Scene.holdsBit, Scene.empty]
  | append_singleton ops op ih =>
    intro s h
    obtain ⟨s₁, h₁, hv, hs⟩ := (runValid_snoc ops op Scene.empty s).mp h
    obtain ⟨hwf, hst⟩ := ih s₁ h₁
    exact ⟨wellFormed_step s₁ s op hwf hv hs, standing_step s₁ s ops op hwf hst hv hs⟩

/-! ## The recycling increment of `CreateEntity` -/

theorem createEntityBump_one (s : Scene) : s.CreateEntityBump 1 = s.CreateEntity := rfl

theorem stepBump_one (s : Scene) (op : Op) : s.stepBump 1 op = s.step op := by
  cases op <;> rfl

theorem runBump_one (ops : List Op) : ∀ s : Scene, s.runBump 1 ops = s.run ops := by
  induction ops with
  | nil => intro s; rfl
  | cons op ops ih =>
    intro s
    simp only [Scene.runBump, Scene.run, stepBump_one]
    cases s.step op with
    | error e => rfl
    | ok s₁ => exact ih s₁

theorem runValidBump_one (ops : List Op) :
    ∀ s : Scene, s.runValidBump 1 ops = s.runValid ops := by
  induction ops with
  | nil => intro s; rfl
  | cons op ops ih =>
    intro s
    simp only [Scene.runValidBump, Scene.runValid, stepBump_one]
    cases s.step op with
    | error e => rfl
    | ok s₁ => simp only [ih s₁]

theorem createEntityBump_recycle_eq (bump : Nat) (s : Scene) (j : Nat) (d : EntityDesc)
    (hj : s.m_FreeEntityIndecies.getLast? = some j) (hd : s.m_Entities[j]? = some d) :
    s.CreateEntityBump bump
      = .ok ({ Index := j, Version := (d.ID.Version + bump) % 4294967296 },
      { s with
        m_Entities := s.m_Entities.set j
          { ID := { Index := j, Version := (d.ID.Version + bump) % 4294967296 }, Masks := 0 }
        m_FreeEntityIndecies := s.m_FreeEntityIndecies.dropLast }) := by
  simp [Scene.CreateEntityBump, hj, hd, UInt32Size]

theorem createEntityBump_append_eq (bump : Nat) (s : Scene)
    (hj : s.m_FreeEntityIndecies = []) :
    s.CreateEntityBump bump
      = .ok ({ Index := s.m_Entities.length % 4294967296, Version := 0 },
      { s with
        m_Entities := s.m_Entities ++
          [{ ID := { Index := s.m_Entities.length % 4294967296, Version := 0 }, Masks := 0 }] }) := by
  simp [Scene.CreateEntityBump, hj, UInt32Size]

theorem createEntityBump_ok (bump : Nat) (s s' : Scene) (id : EntityID)
    (h : s.CreateEntityBump bump = .ok (id, s')) :
    (s.m_FreeEntityIndecies = [] ∧ id = ⟨s.m_Entities.length % 4294967296, 0⟩ ∧
      s' = { s with m_Entities := s.m_Entities ++ [{ ID := id, Masks := 0 }] }) ∨
    (∃ j d, s.m_FreeEntityIndecies.getLast? = some j ∧ s.m_Entities[j]? = some d ∧
      id = ⟨j, (d.ID.Version + bump) % 4294967296⟩ ∧
      s' = { s with
        m_Entities := s.m_Entities.set j { ID := id, Masks := 0 }
        m_FreeEntityIndecies := s.m_FreeEntityIndecies.dropLast }) := by
  cases hj : s.m_FreeEntityIndecies.getLast? with
  | none =>
    have hnil : s.m_FreeEntityIndecies = [] := List.getLast?_eq_none_iff.mp hj
    rw [createEntityBump_append_eq bump s hnil] at h
    cases h
    exact Or.inl ⟨hnil, rfl, rfl⟩
  | some j =>
    cases hd : s.m_Entities[j]? with
    | none => simp [Scene.CreateEntityBump, hj, hd] at h
    | some d =>
      rw [createEntityBump_recycle_eq bump s j d hj hd] at h
      cases h
      exact Or.inr ⟨j, d, rfl, hd, rfl, rfl⟩

/-- A destroy/recycle cycle on a valid id: `DestroyEntity` leaves `(v + 1) mod 2^32` in the
slot, tombstoned, and the `CreateEntity` that follows pops the slot and returns its index with
the stored version advanced by `bump`. -/
theorem recycle_bump (bump : Nat) (s : Scene) (E : EntityID)
    (hE : s.IsEntityValid E = .ok true) :
    ∃ s₁ s₂, s.DestroyEntity E = .ok s₁ ∧
      s₁.m_Entities[E.Index]? = some ⟨⟨4294967295, (E.Version + 1) % 4294967296⟩, 0⟩ ∧
      s₁.CreateEntityBump bump
        = .ok (⟨E.Index, ((E.Version + 1) % 4294967296 + bump) % 4294967296⟩, s₂) ∧
      s₂.m_Entities[E.Index]?
        = some ⟨⟨E.Index, ((E.Version + 1) % 4294967296 + bump) % 4294967296⟩, 0⟩ := by
  obtain ⟨d, hd, hid⟩ := (validId_iff s E).mp ((isEntityValid_true_iff s E).mp hE)
  have hlt : E.Index < s.m_Entities.length := (List.getElem?_eq_some_iff.mp hd).1
  have hv : d.ID.Version = E.Version := by rw [hid]
  have h1 := destroyEntity_eq s E d hd
  rw [hv] at h1
  have h2 := createEntityBump_recycle_eq bump
    { s with
      m_Entities := s.m_Entities.set E.Index
        { ID := { Index := 4294967295, Version := (E.Version + 1) % 4294967296 }, Masks := 0 }
      m_FreeEntityIndecies := s.m_FreeEntityIndecies ++ [E.Index] }
    E.Index ⟨⟨4294967295, (E.Version + 1) % 4294967296⟩, 0⟩ (by simp) (by simp [hlt])
  exact ⟨_, _, h1, by simp [hlt], h2, by simp [hlt]⟩

theorem stepBump_version (bump : Nat) (hb : bump ≤ 1) (s s' : Scene) (op : Op)
    (hstep : s.stepBump bump op = .ok s') :
    ∀ (i : Nat) (d : EntityDesc), s.m_Entities[i]? = some d →
      ∃ d', s'.m_Entities[i]? = some d' ∧
        (d'.ID.Version % 4294967296 = d.ID.Version % 4294967296 ∨
          d'.ID.Version % 4294967296 = (d.ID.Version + 1) % 4294967296) := by
  intro i d hd
  have hi : i < s.m_Entities.length := (List.getElem?_eq_some_iff.mp hd).1
  have hof : ∀ op₁, s.step op₁ = .ok s' →
      ∃ d', s'.m_Entities[i]? = some d' ∧
        (d'.ID.Version % 4294967296 = d.ID.Version % 4294967296 ∨
          d'.ID.Version % 4294967296 = (d.ID.Version + 1) % 4294967296) := by
    intro op₁ h₁
    obtain ⟨d', hd', hv⟩ := step_version s s' op₁ h₁ i d hd
    refine ⟨d', hd', ?_⟩
    rcases hv with hv | hv
    · exact Or.inl (by rw [hv])
    · exact Or.inr (by rw [hv]; omega)
  cases op with
  | CreateEntity =>
    simp only [Scene.stepBump] at hstep
    cases hc : s.CreateEntityBump bump with
    | error e => simp [hc] at hstep
    | ok r =>
      obtain ⟨id, s₁⟩ := r
      simp only [hc] at hstep
      cases hstep
      rcases createEntityBump_ok bump s s' id hc with ⟨_, _, rfl⟩ | ⟨j, d₀, _, hd₀, rfl, rfl⟩
      · exact ⟨d, by simp [List.getElem?_append_left hi, hd], Or.inl rfl⟩
      · by_cases hij : j = i
        · subst hij
          rw [hd] at hd₀
          cases hd₀
          refine ⟨_, List.getElem?_set_self hi, ?_⟩
          show (d.ID.Version + bump) % 4294967296 % 4294967296 = _ ∨
            (d.ID.Version + bump) % 4294967296 % 4294967296 = _
          rcases Nat.le_one_iff_eq_zero_or_eq_one.mp hb with h0 | h1
          · exact Or.inl (by rw [h0]; omega)
          · exact Or.inr (by rw [h1]; omega)
        · exact ⟨d, by rw [List.getElem?_set_ne hij]; exact hd, Or.inl rfl⟩
  | DestroyEntity E => exact hof (.DestroyEntity E) hstep
  | Remove cid E => exact hof (.Remove cid E) hstep
  | Assign cid sz E => exact hof (.Assign cid sz E) hstep

theorem runBump_version (bump : Nat) (hb : bump ≤ 1) (ops : List Op) :
    ∀ (s s' : Scene), s.runBump bump ops = .ok s' →
      ∀ (i : Nat) (d : EntityDesc), s.m_Entities[i]? = some d →
        ∃ d' k, k ≤ ops.length ∧ s'.m_Entities[i]? = some d' ∧
          d'.ID.Version % 4294967296 = (d.ID.Version + k) % 4294967296 := by
  induction ops with
  | nil =>
    intro s s' h i d hd
    simp only [Scene.runBump] at h
    cases h
    exact ⟨d, 0, le_refl _, hd, rfl⟩
  | cons op ops ih =>
    intro s s' h i d hd
    simp only [Scene.runBump] at h
    cases hs : s.stepBump bump op with
    | error e => simp [hs] at h
    | ok s₁ =>
      simp only [hs] at h
      obtain ⟨d₁, hd₁, hv⟩ := stepBump_version bump hb s s₁ op hs i d hd
      obtain ⟨d', k, hk, hd', hv'⟩ := ih s₁ s' h i d₁ hd₁
      rcases hv with hv | hv
      · exact ⟨d', k, by simp; omega, hd', by rw [hv']; omega⟩
      · refine ⟨d', k + 1, by simp; omega, hd', ?_⟩
        rw [hv']
        omega

theorem recycleBump_once (bump v : Nat) (ops : List Op) :
    (sceneSingle v).runValidBump bump (.DestroyEntity ⟨0, v⟩ :: .CreateEntity :: ops)
      = (sceneSingle ((v + 1 + bump) % 4294967296)).runValidBump bump ops := by
  have hv : (sceneSingle v).validId ⟨0, v⟩ = true :=
    (validId_iff _ _).mpr ⟨⟨⟨0, v⟩, 0⟩, rfl, rfl⟩
  have hd : (sceneSingle v).stepBump bump (.DestroyEntity ⟨0, v⟩)
      = .ok { Scene.empty with
          m_Entities := [⟨⟨4294967295, (v + 1) % 4294967296⟩, 0⟩]
          m_FreeEntityIndecies := [0] } := rfl
  have hc : Scene.stepBump bump { Scene.empty with
          m_Entities := [⟨⟨4294967295, (v + 1) % 4294967296⟩, 0⟩]
          m_FreeEntityIndecies := [0] } .CreateEntity
      = .ok (sceneSingle (((v + 1) % 4294967296 + bump) % 4294967296)) := rfl
  have hmod : ((v + 1) % 4294967296 + bump) % 4294967296 = (v + 1 + bump) % 4294967296 := by
    omega
  rw [Scene.runValidBump]
  simp only [Scene.onValidId, hv, if_true, hd]
  rw [Scene.runValidBump]
  simp only [Scene.onValidId, if_true, hc, hmod]

theorem recycleOpsBump_zero_runValid (n : Nat) :
    ∀ v, (sceneSingle v).runValidBump 0 (recycleOpsBump 0 0 n v)
      = some (sceneSingle (if n = 0 then v else (v + n) % 4294967296)) := by
  induction n with
  | zero =>
    intro v
    rfl
  | succ n ih =>
    intro v
    rw [recycleOpsBump, UInt32Size, recycleBump_once, ih]
    congr 2
    by_cases hn : n = 0
    · subst hn
      simp
    · simp only [hn, if_false, Nat.succ_ne_zero]
      omega

theorem recycleOpsBump_one_runValid (n : Nat) :
    ∀ v, (sceneSingle v).runValidBump 1 (recycleOpsBump 1 0 n v)
      = some (sceneSingle (if n = 0 then v else (v + 2 * n) % 4294967296)) := by
  induction n with
  | zero =>
    intro v
    rfl
  | succ n ih =>
    intro v
    rw [recycleOpsBump, UInt32Size, recycleBump_once, ih]
    congr 2
    by_cases hn : n = 0
    · subst hn
      simp
    · simp only [hn, if_false, Nat.succ_ne_zero]
      omega

theorem recycleOpsBump_head (bump i n v : Nat) (hn : n ≠ 0) :
    (recycleOpsBump bump i n v).head? = some (.DestroyEntity ⟨i, v⟩) := by
  cases n with
  | zero => exact absurd rfl hn
  | succ n => rfl

/-! ## Tombstoned slots along a run on valid ids -/

theorem tombstone_mask_step (s s' : Scene) (op : Op) (hwf : s.WellFormed)
    (hvalid : s.onValidId op = true) (hstep : s.step op = .ok s')
    (hinv : ∀ (i : Nat) (d : EntityDesc), s.m_Entities[i]? = some d →
      d.ID.Index = 4294967295 → d.Masks = 0) :
    ∀ (i : Nat) (d : EntityDesc), s'.m_Entities[i]? = some d →
      d.ID.Index = 4294967295 → d.Masks = 0 := by
  intro i d hd htomb
  cases op with
  | CreateEntity =>
    simp only [Scene.step] at hstep
    cases hc : s.CreateEntity with
    | error e => simp [hc] at hstep
    | ok r =>
      obtain ⟨id, s₁⟩ := r
      simp only [hc] at hstep
      cases hstep
      rcases createEntity_ok s s' id hc with ⟨_, _, rfl⟩ | ⟨j, d₀, _, hd₀, _, rfl⟩
      · by_cases hi : i < s.m_Entities.length
        · rw [List.getElem?_append_left hi] at hd
          exact hinv i d hd htomb
        · have hi' : s.m_Entities.length ≤ i := Nat.le_of_not_lt hi
          rw [List.getElem?_append_right hi'] at hd
          cases hk : i - s.m_Entities.length with
          | zero =>
            rw [hk] at hd
            simp only [List.getElem?_cons_zero, Option.some.injEq] at hd
            rw [← hd]
          | succ k =>
            rw [hk] at hd
            simp at hd
      · have hj : j < s.m_Entities.length := (List.getElem?_eq_some_iff.mp hd₀).1
        by_cases hij : j = i
        · subst hij
          rw [List.getElem?_set_self hj] at hd
          cases hd
          rfl
        · rw [List.getElem?_set_ne hij] at hd
          exact hinv i d hd htomb
  | DestroyEntity E =>
    obtain ⟨d₀, hd₀, rfl⟩ := destroyEntity_ok s s' E hstep
    have hj : E.Index < s.m_Entities.length := (List.getElem?_eq_some_iff.mp hd₀).1
    by_cases hij : E.Index = i
    · subst hij
      rw [List.getElem?_set_self hj] at hd
      cases hd
      rfl
    · rw [List.getElem?_set_ne hij] at hd
      exact hinv i d hd htomb
  | Remove cid E =>
    simp only [Scene.step] at hstep
    cases hr : s.Remove cid E with
    | error e => simp [hr] at hstep
    | ok r =>
      simp only [hr] at hstep
      cases hstep
      rcases remove_ok s cid E r hr with ⟨rfl, _⟩ | ⟨d₀, hd₀, _, _, rfl⟩
      · exact hinv i d hd htomb
      · have hj : E.Index < s.m_Entities.length := (List.getElem?_eq_some_iff.mp hd₀).1
        by_cases hij : E.Index = i
        · subst hij
          rw [List.getElem?_set_self hj] at hd
          cases hd
          have h0 : d₀.Masks = 0 := hinv E.Index d₀ hd₀ htomb
          show d₀.Masks ^^^ (d₀.Masks &&& (1 <<< cid)) = 0
          rw [h0]
          simp
        · rw [List.getElem?_set_ne hij] at hd
          exact hinv i d hd htomb
  | Assign cid sz E =>
    obtain ⟨d₀, pool, P₂, C₂, row, hd₀, _, hens, hrow, hlt, rfl⟩ :=
      assign_ok s s' cid sz E hstep
    have hj : E.Index < s.m_Entities.length := (List.getElem?_eq_some_iff.mp hd₀).1
    have hrowlen : row.length ≤ 1024 :=
      ensurePool_rows s cid sz pool P₂ C₂ hwf.rows hens row (List.getElem?_mem hrow)
    have hE : d₀.ID = E := by
      obtain ⟨d₁, hd₁, hid⟩ := (validId_iff s E).mp hvalid
      rw [hd₀] at hd₁
      cases hd₁
      exact hid
    by_cases hij : E.Index = i
    · subst hij
      rw [List.getElem?_set_self hj] at hd
      cases hd
      have : d₀.ID.Index = E.Index := by rw [hE]
      simp only at htomb
      omega
    · rw [List.getElem?_set_ne hij] at hd
      exact hinv i d hd htomb

theorem tombstone_mask_runValid (ops : List Op) :
    ∀ s, Scene.empty.runValid ops = some s →
      ∀ (i : Nat) (d : EntityDesc), s.m_Entities[i]? = some d →
        d.ID.Index = 4294967295 → d.Masks = 0 := by
  induction ops using List.reverseRecOn with
  | nil =>
    intro s h i d hd
    simp only [Scene.runValid] at h
    cases h
    simp [Scene.empty] at hd
  | append_singleton ops op ih =>
    intro s h
    obtain ⟨s₁, h₁, hv, hs⟩ := (runValid_snoc ops op Scene.empty s).mp h
    exact tombstone_mask_step s₁ s op (runValid_inv ops s₁ h₁).1 hv hs (ih s₁ h₁)

/-! ## Claims -/

/-- C10: for an id whose `Index` is inside the descriptor sequence, `DestroyEntity` returns
normally; afterwards the slot stores `Index = 0xFFFFFFFF`, `Version = (v + 1) mod 2^32` for the
version `v` stored before, and a mask with no bit set; the free-slot list is the old one with
`Index` appended; the sequence keeps its length and every other slot is as before. -/
theorem DestroyEntity_frame (s : Scene) (_ID : EntityID)
    (h : _ID.Index < s.m_Entities.length) :
    ∃ d s', s.m_Entities[_ID.Index]? = some d ∧ s.DestroyEntity _ID = .ok s' ∧
      s'.m_Entities[_ID.Index]? =
        some { ID := { Index := 4294967295, Version := (d.ID.Version + 1) % 4294967296 },
               Masks := 0 } ∧
      (∀ d' t, s'.m_Entities[_ID.Index]? = some d' → d'.Masks.testBit t = false) ∧
      s'.m_FreeEntityIndecies = s.m_FreeEntityIndecies ++ [_ID.Index] ∧
      s'.m_Entities.length = s.m_Entities.length ∧
      ∀ j, j ≠ _ID.Index → s'.m_Entities[j]? = s.m_Entities[j]? := by
  refine ⟨s.m_Entities[_ID.Index], _, List.getElem?_eq_getElem h,
    destroyEntity_eq s _ID _ (List.getElem?_eq_getElem h), ?_, ?_, rfl, ?_, ?_⟩
  · simp [h]
  · intro d' t hd'
    simp only [List.getElem?_set_self h] at hd'
    cases hd'
    simp
  · simp
  · intro j hj
    simp [List.getElem?_set_ne (Ne.symm hj)]

/-- Witness of C10: destroying `{0, 7}` in `sceneTwoSlots`. -/
theorem DestroyEntity_frame_witness :
    ∃ d s', sceneTwoSlots.m_Entities[0]? = some d ∧
      sceneTwoSlots.DestroyEntity ⟨0, 7⟩ = .ok s' ∧
      s'.m_Entities[0]? =
        some { ID := { Index := 4294967295, Version := (d.ID.Version + 1) % 4294967296 },
               Masks := 0 } ∧
      (∀ d' t, s'.m_Entities[0]? = some d' → d'.Masks.testBit t = false) ∧
      s'.m_FreeEntityIndecies = sceneTwoSlots.m_FreeEntityIndecies ++ [0] ∧
      s'.m_Entities.length = sceneTwoSlots.m_Entities.length ∧
      ∀ j, j ≠ 0 → s'.m_Entities[j]? = sceneTwoSlots.m_Entities[j]? :=
  DestroyEntity_frame sceneTwoSlots ⟨0, 7⟩ (by decide)

/-- C5: for an id whose `Index` is inside the descriptor sequence, `Remove<T>` takes the
`assert(false)` branch exactly when `IsEntityValid` returns false, and on that branch the scene
(descriptors, masks, free-slot list, pools and handle table) is the one before the call. -/
theorem Remove_assert_iff_invalid (s : Scene) (T : Nat) (id : EntityID)
    (h : id.Index < s.m_Entities.length) :
    ((∃ r, s.Remove T id = .ok r ∧ r.asserted = true) ↔ s.IsEntityValid id = .ok false) ∧
      ∀ r, s.Remove T id = .ok r → r.asserted = true → r.scene = s := by
  have hd : s.m_Entities[id.Index]? = some s.m_Entities[id.Index] := List.getElem?_eq_getElem h
  cases hv : s.IsEntityValid id with
  | error e => simp [Scene.IsEntityValid, hd] at hv
  | ok b =>
    cases b with
    | false =>
      rw [remove_invalid_eq s T id hv]
      refine ⟨⟨fun _ => rfl, fun _ => ⟨_, rfl, rfl⟩⟩, ?_⟩
      intro r hr _
      cases hr
      rfl
    | true =>
      have hrem : ∀ r, s.Remove T id = .ok r → r.asserted = false := by
        intro r hr
        simp only [Scene.Remove, hv, hd] at hr
        cases hb : bitsetReset s.m_Entities[id.Index].Masks T with
        | error e => simp [hb] at hr
        | ok m =>
          simp only [hb] at hr
          cases hr
          rfl
      refine ⟨⟨?_, fun hc => by cases hc⟩, ?_⟩
      · rintro ⟨r, hr, ha⟩
        rw [hrem r hr] at ha
        cases ha
      · intro r hr ha
        rw [hrem r hr] at ha
        cases ha

/-- Witness of C5: `Remove<0>` through the stale id `{0, 6}` in `sceneTwoSlots`. -/
theorem Remove_assert_iff_invalid_witness :
    ((∃ r, sceneTwoSlots.Remove 0 ⟨0, 6⟩ = .ok r ∧ r.asserted = true) ↔
        sceneTwoSlots.IsEntityValid ⟨0, 6⟩ = .ok false) ∧
      ∀ r, sceneTwoSlots.Remove 0 ⟨0, 6⟩ = .ok r → r.asserted = true → r.scene = sceneTwoSlots :=
  Remove_assert_iff_invalid sceneTwoSlots 0 ⟨0, 6⟩ (by decide)

/-- C4: for a valid id `E` and a component id `A < 32`, `Remove<A>(E)` returns normally without
asserting; afterwards `Get<A>(E)` is `nullptr`, `IsEntityValid(E)` is true, and `Get<U>(E)` is
what it was before for every component id `U ≠ A`. -/
theorem Remove_then_Get (s : Scene) (A : Nat) (E : EntityID) (hA : A < 32)
    (hE : s.IsEntityValid E = .ok true) :
    ∃ s', s.Remove A E = .ok { asserted := false, scene := s' } ∧
      s'.Get A E = .ok none ∧ s'.IsEntityValid E = .ok true ∧
      ∀ U, U ≠ A → s'.Get U E = s.Get U E := by
  obtain ⟨d, hd, hid⟩ := (validId_iff s E).mp ((isEntityValid_true_iff s E).mp hE)
  have hlt : E.Index < s.m_Entities.length := (List.getElem?_eq_some_iff.mp hd).1
  refine ⟨_, remove_valid_eq s A E d hA hd hid, ?_, ?_, ?_⟩
  · simp [Scene.Get, hlt, bitsetTest, MaskBits, hA, testBit_reset_bit]
  · apply (isEntityValid_true_iff _ E).mpr
    apply (validId_iff _ E).mpr
    exact ⟨{ d with Masks := d.Masks ^^^ (d.Masks &&& (1 <<< A)) }, by simp [hlt], hid⟩
  · intro U hU
    simp only [Scene.Get, hd, List.getElem?_set_self hlt, bitsetTest]
    by_cases hU32 : U < MaskBits
    · have hbit : (d.Masks ^^^ (d.Masks &&& (1 <<< A))).testBit U = d.Masks.testBit U := by
        rw [testBit_reset_bit]
        simp [Ne.symm hU]
      simp [hU32, hbit]
    · simp [hU32]

/-- Witness of C4: `Remove<0>({0, 7})` in `sceneTwoSlots`. -/
theorem Remove_then_Get_witness :
    ∃ s', sceneTwoSlots.Remove 0 ⟨0, 7⟩ = .ok { asserted := false, scene := s' } ∧
      s'.Get 0 ⟨0, 7⟩ = .ok none ∧ s'.IsEntityValid ⟨0, 7⟩ = .ok true ∧
      ∀ U, U ≠ 0 → s'.Get U ⟨0, 7⟩ = sceneTwoSlots.Get U ⟨0, 7⟩ :=
  Remove_then_Get sceneTwoSlots 0 ⟨0, 7⟩ (by decide) rfl

/-- C6: the EntityID `CreateEntity` returns carries no component, for every component id
`T < 32`. (1) With an empty free-slot list and fewer than `2^32` slots, the id names the
appended slot and `Get<T>` of it is `nullptr`. (2) With a free-slot list whose last index `j` is
inside the descriptor sequence, the id has index `j` and `Get<T>` of it is `nullptr`, whatever
mask the slot had. (3) After `DestroyEntity(E)` and then `Assign<T>` through the stale `E`,
`CreateEntity` returns an id with `E`'s index for which `Get<T>` is `nullptr`. -/
theorem CreateEntity_carries_no_component (s : Scene) (T : Nat) (hT : T < 32) :
    (s.m_FreeEntityIndecies = [] → s.m_Entities.length < 4294967296 →
      ∃ id s', s.CreateEntity = .ok (id, s') ∧ id.Index = s.m_Entities.length ∧
        s'.Get T id = .ok none) ∧
    (∀ j, s.m_FreeEntityIndecies.getLast? = some j → j < s.m_Entities.length →
      ∃ id s', s.CreateEntity = .ok (id, s') ∧ id.Index = j ∧ s'.Get T id = .ok none) ∧
    (∀ E sz s₁ s₂, s.DestroyEntity E = .ok s₁ → s₁.Assign T sz E = .ok s₂ →
      ∃ id s₃, s₂.CreateEntity = .ok (id, s₃) ∧ id.Index = E.Index ∧
        s₃.Get T id = .ok none) := by
  refine ⟨?_, ?_, ?_⟩
  · intro hfree hlen
    refine ⟨_, _, createEntity_append_eq s hfree, Nat.mod_eq_of_lt hlen, ?_⟩
    refine get_of_mask_zero _ T _ ⟨⟨s.m_Entities.length % 4294967296, 0⟩, 0⟩ hT ?_ rfl
    simp [Nat.mod_eq_of_lt hlen]
  · intro j hj hlt
    exact createEntity_recycle_get s T j hT hj hlt
  · intro E sz s₁ s₂ hdes hass
    obtain ⟨d, hd, rfl⟩ := destroyEntity_ok s s₁ E hdes
    obtain ⟨d₁, _, _, hent, hfree⟩ := assign_entities _ s₂ T sz E hass
    have hlt : E.Index < s.m_Entities.length := (List.getElem?_eq_some_iff.mp hd).1
    apply createEntity_recycle_get s₂ T E.Index hT
    · rw [hfree]
      simp
    · rw [hent]
      simpa using hlt

/-- Witness of C6: component id 0 in `sceneTwoSlots`, whose slot 0 holds component 0. -/
theorem CreateEntity_carries_no_component_witness :
    (sceneTwoSlots.m_FreeEntityIndecies = [] → sceneTwoSlots.m_Entities.length < 4294967296 →
      ∃ id s', sceneTwoSlots.CreateEntity = .ok (id, s') ∧
        id.Index = sceneTwoSlots.m_Entities.length ∧ s'.Get 0 id = .ok none) ∧
    (∀ j, sceneTwoSlots.m_FreeEntityIndecies.getLast? = some j →
      j < sceneTwoSlots.m_Entities.length →
      ∃ id s', sceneTwoSlots.CreateEntity = .ok (id, s') ∧ id.Index = j ∧
        s'.Get 0 id = .ok none) ∧
    (∀ E sz s₁ s₂, sceneTwoSlots.DestroyEntity E = .ok s₁ → s₁.Assign 0 sz E = .ok s₂ →
      ∃ id s₃, s₂.CreateEntity = .ok (id, s₃) ∧ id.Index = E.Index ∧
        s₃.Get 0 id = .ok none) :=
  CreateEntity_carries_no_component sceneTwoSlots 0 (by decide)

/-- Counterexample to C2: in `sceneSingle 4294967295` the id E = `{0, 0xFFFFFFFF}` is valid.
`DestroyEntity(E)` executes `Version += 1` on the 32-bit version (`ECS.h:247`), which wraps, and
leaves version 0 in the slot. The `CreateEntity` that follows returns `{0, 0}` when it returns
the version as stored (`Scene.CreateEntityBump 0`) and `{0, 1}` when it increments it once more
(`Scene.CreateEntity`, spec 4.1): in both readings the returned version is not greater than
`0xFFFFFFFF`. With one increment per cycle the scene is reached from the scene after the first
`CreateEntity` by `2^32 - 1` destroy/create pairs on valid ids. -/
theorem Recycle_version_not_greater :
    (sceneSingle 4294967295).IsEntityValid ⟨0, 4294967295⟩ = .ok true ∧
    (match (sceneSingle 4294967295).DestroyEntity ⟨0, 4294967295⟩ with
      | .ok s₁ => some (s₁.m_Entities.map (fun d => d.ID.Version),
          (match s₁.CreateEntityBump 0 with
            | .ok (id, _) => some id
            | .error _ => none),
          (match s₁.CreateEntity with
            | .ok (id, _) => some id
            | .error _ => none))
      | .error _ => none) = some ([0], some ⟨0, 0⟩, some ⟨0, 1⟩) ∧
    ¬ (4294967295 < (0 : Nat)) ∧ ¬ (4294967295 < (1 : Nat)) ∧
    (sceneSingle 0).runValidBump 0 (recycleOpsBump 0 0 4294967295 0)
      = some (sceneSingle 4294967295) := by
  refine ⟨rfl, rfl, by decide, by decide, ?_⟩
  rw [recycleOpsBump_zero_runValid]
  rfl

/-- C2 (amended): for a valid id `E`, `DestroyEntity(E)` followed by `CreateEntity()` returns
normally with an id whose `Index` is `E.Index`; `DestroyEntity` leaves `(E.Version + 1) mod
2^32` in the slot and `CreateEntity` returns that version advanced by `bump` modulo `2^32`,
where `bump` is 0 if it returns the version as stored and 1 if it increments it once more
(spec 4.1); the returned version is greater than `E.Version` exactly when the 32-bit version
has not wrapped, `E.Version + 1 + bump < 2^32`; `IsEntityValid(E)` is false afterwards. -/
theorem Recycle_reuses_index (bump : Nat) (hb : bump ≤ 1) (s : Scene) (E : EntityID)
    (hE : s.IsEntityValid E = .ok true) :
    ∃ s₁ d₁ id s₂, s.DestroyEntity E = .ok s₁ ∧
      s₁.m_Entities[E.Index]? = some d₁ ∧
      d₁.ID.Version = (E.Version + 1) % 4294967296 ∧
      s₁.CreateEntityBump bump = .ok (id, s₂) ∧
      id.Index = E.Index ∧ id.Version = (d₁.ID.Version + bump) % 4294967296 ∧
      (E.Version < id.Version ↔ E.Version + 1 + bump < 4294967296) ∧
      s₂.IsEntityValid E = .ok false := by
  obtain ⟨s₁, s₂, h1, hd₁, h2, hd₂⟩ := recycle_bump bump s E hE
  refine ⟨s₁, _, _, s₂, h1, hd₁, rfl, h2, rfl, rfl, ?_, ?_⟩
  · show E.Version < ((E.Version + 1) % 4294967296 + bump) % 4294967296 ↔ _
    omega
  · have hne : ((E.Version + 1) % 4294967296 + bump) % 4294967296 ≠ E.Version := by omega
    have hne' : (E.Version + 1 + bump) % 4294967296 ≠ E.Version := by omega
    simp [Scene.IsEntityValid, hd₂, EntityID.eq, hne, hne']

/-- Witness of C2 (amended): the id `{0, 7}` of `sceneTwoSlots`, with `CreateEntity` returning
the version as stored. -/
theorem Recycle_reuses_index_witness :
    ∃ s₁ d₁ id s₂, sceneTwoSlots.DestroyEntity ⟨0, 7⟩ = .ok s₁ ∧
      s₁.m_Entities[0]? = some d₁ ∧
      d₁.ID.Version = (7 + 1) % 4294967296 ∧
      s₁.CreateEntityBump 0 = .ok (id, s₂) ∧
      id.Index = 0 ∧ id.Version = (d₁.ID.Version + 0) % 4294967296 ∧
      (7 < id.Version ↔ 7 + 1 + 0 < 4294967296) ∧
      s₂.IsEntityValid ⟨0, 7⟩ = .ok false :=
  Recycle_reuses_index 0 (by decide) sceneTwoSlots ⟨0, 7⟩ rfl

/-- C1: for component ids `ids`, all `< 32`, `View<ids...>()` is constructed and the range-for
traversal (`begin()`, `operator++` until the iterator equals `end()`) returns normally and
yields the stored EntityIDs of exactly the slots whose stored `Index` is not `0xFFFFFFFF` and
whose mask has every bit of `ids`, once each, in ascending slot order. -/
theorem View_yields_matching_slots (s : Scene) (ids : List Nat) (hids : ∀ t ∈ ids, t < 32) :
    ∃ v, Scene.View ids = .ok v ∧
      v.traverse s = .ok ((s.m_Entities.filter (fun d =>
        decide (d.ID.Index ≠ 4294967295) && ids.all (fun t => d.Masks.testBit t))).map
          (fun d => d.ID)) := by
  obtain ⟨m, hm, hbits⟩ := setAll_spec ids hids 0
  refine ⟨{ m_ComponentMask := m }, by simp [Scene.View, hm], ?_⟩
  apply traverse_spec
  intro d
  exact selected_iff ids m d (fun q => by simpa using hbits q)

/-- Witness of C1: `View<ComponentB>()` over the scene of `main`. -/
theorem View_yields_matching_slots_witness :
    ∃ v, Scene.View [1] = .ok v ∧
      v.traverse sceneMain = .ok ((sceneMain.m_Entities.filter (fun d =>
        decide (d.ID.Index ≠ 4294967295) && [1].all (fun t => d.Masks.testBit t))).map
          (fun d => d.ID)) :=
  View_yields_matching_slots sceneMain [1] (by decide)

set_option maxRecDepth 20000 in
/-- The scenario of the spec, run on the code: E1, E2, E3 created, {A, B} on E1, {B} on E3;
`View<B>` visits E1, E3 and `View<A, B>` visits E1. -/
theorem main_scenario_views :
    SceneView.traverse sceneMain ⟨2⟩ = .ok [⟨0, 0⟩, ⟨2, 0⟩] ∧
    SceneView.traverse sceneMain ⟨3⟩ = .ok [⟨0, 0⟩] ∧
    Scene.View [1] = .ok ⟨2⟩ ∧ Scene.View [0, 1] = .ok ⟨3⟩ := by
  refine ⟨rfl, rfl, rfl, rfl⟩

/-- C8: `View<>()` has the empty mask, and its traversal returns normally and yields the stored
EntityIDs of exactly the slots whose stored `Index` is not `0xFFFFFFFF`, whatever their
masks, in slot order. -/
theorem View_empty_yields_live_slots (s : Scene) :
    ∃ v, Scene.View [] = .ok v ∧ v.m_ComponentMask = 0 ∧
      v.traverse s = .ok ((s.m_Entities.filter (fun d =>
        decide (d.ID.Index ≠ 4294967295))).map (fun d => d.ID)) := by
  refine ⟨{ m_ComponentMask := 0 }, rfl, rfl, ?_⟩
  apply traverse_spec
  intro d
  by_cases hi : d.ID.Index = 4294967295 <;> simp [InvalidIndex, hi]

set_option maxRecDepth 20000 in
/-- Counterexample to C9: after `CreateEntity`, `Assign<0>` and `Remove<0>` on the created id
`{0, 0}`, mask bit 0 of slot 0 is clear while the handle-table entry (0, 0) still holds the
handle `Assign` recorded. -/
theorem Remove_leaves_handle :
    (match Scene.empty.run [.CreateEntity, .Assign 0 4 ⟨0, 0⟩, .Remove 0 ⟨0, 0⟩] with
      | .ok s => some (s.m_Entities[0]?.map (fun d => d.Masks.testBit 0),
          s.m_EntityComponents[0]?.bind (fun row => row[0]?))
      | .error _ => none) = some (some false, some (some ⟨0⟩)) := by
  rfl

/-- C9 (amended): in every state reached from the empty registry by `CreateEntity`,
`DestroyEntity`, `Assign` and `Remove` calls, for every slot `i` (descriptor `d`) and component
id `t`: if mask bit `t` of the slot is set then the handle-table entry for `(t, i)` exists and
is not `nullptr`; for an id with index `i` and `t < 32`, `Get<t>` returns a handle exactly when
the bit is set; `Remove<t>` on the valid id of the slot (`t < 32`) returns normally without the
assertion, leaves the handle table as it was and leaves mask bit `t` clear; `DestroyEntity` on
an id with index `i` returns normally, leaves the handle table as it was and leaves every mask
bit of the slot clear. So the converse for the table fails: a handle recorded for `(t, i)` is
still there after the bit has been cleared. -/
theorem Mask_bit_implies_handle (ops : List Op) (s : Scene)
    (hrun : Scene.empty.run ops = .ok s) (i : Nat) (d : EntityDesc) (t : Nat)
    (hd : s.m_Entities[i]? = some d) :
    (d.Masks.testBit t = true →
      ∃ row h, s.m_EntityComponents[t]? = some row ∧ row[i]? = some (some h)) ∧
    (t < 32 → ∀ v, ((∃ h, s.Get t ⟨i, v⟩ = .ok (some h)) ↔ d.Masks.testBit t = true)) ∧
    (t < 32 → d.ID.Index = i → ∃ r d', s.Remove t d.ID = .ok r ∧ r.asserted = false ∧
      r.scene.m_EntityComponents = s.m_EntityComponents ∧
      r.scene.m_Entities[i]? = some d' ∧ d'.Masks.testBit t = false) ∧
    (∀ v, ∃ s' d', s.DestroyEntity ⟨i, v⟩ = .ok s' ∧
      s'.m_EntityComponents = s.m_EntityComponents ∧
      s'.m_Entities[i]? = some d' ∧ ∀ u, d'.Masks.testBit u = false) := by
  have hinv : s.MaskHandleInv := maskHandleInv_run ops Scene.empty s hrun maskHandleInv_empty
  have hlt : i < s.m_Entities.length := (List.getElem?_eq_some_iff.mp hd).1
  refine ⟨?_, ?_, ?_, ?_⟩
  · intro hbit
    obtain ⟨_, row, h, _, hrow, hh⟩ := hinv.2 i d t hd hbit
    exact ⟨row, h, hrow, hh⟩
  · intro ht v
    exact get_some_iff_bit s t ⟨i, v⟩ d hinv hd ht
  · intro ht hidx
    have hd' : s.m_Entities[d.ID.Index]? = some d := by rw [hidx]; exact hd
    refine ⟨_, { d with Masks := d.Masks ^^^ (d.Masks &&& (1 <<< t)) },
      remove_valid_eq s t d.ID d ht hd' rfl, rfl, rfl, ?_, ?_⟩
    · show (s.m_Entities.set d.ID.Index _)[i]? = _
      rw [hidx]
      exact List.getElem?_set_self hlt
    · show (d.Masks ^^^ (d.Masks &&& (1 <<< t))).testBit t = false
      rw [testBit_reset_bit]
      simp
  · intro v
    refine ⟨_, ⟨⟨4294967295, (d.ID.Version + 1) % 4294967296⟩, 0⟩,
      destroyEntity_eq s ⟨i, v⟩ d hd, rfl, ?_, ?_⟩
    · show (s.m_Entities.set i _)[i]? = _
      exact List.getElem?_set_self hlt
    · intro u
      simp

set_option maxRecDepth 20000 in
/-- Witness of C9 (amended): slot 0 of the scene of `main`, component id 1. -/
theorem Mask_bit_implies_handle_witness :
    (Nat.testBit 3 1 = true →
      ∃ row h, sceneMain.m_EntityComponents[1]? = some row ∧ row[0]? = some (some h)) ∧
    (1 < 32 → ∀ v, ((∃ h, sceneMain.Get 1 ⟨0, v⟩ = .ok (some h)) ↔ Nat.testBit 3 1 = true)) ∧
    (1 < 32 → 0 = 0 → ∃ r d', sceneMain.Remove 1 ⟨0, 0⟩ = .ok r ∧ r.asserted = false ∧
      r.scene.m_EntityComponents = sceneMain.m_EntityComponents ∧
      r.scene.m_Entities[0]? = some d' ∧ d'.Masks.testBit 1 = false) ∧
    (∀ v, ∃ s' d', sceneMain.DestroyEntity ⟨0, v⟩ = .ok s' ∧
      s'.m_EntityComponents = sceneMain.m_EntityComponents ∧
      s'.m_Entities[0]? = some d' ∧ ∀ u, d'.Masks.testBit u = false) :=
  Mask_bit_implies_handle mainOps sceneMain rfl 0 ⟨⟨0, 0⟩, 3⟩ 1 rfl

/-- Counterexample to C7: in `sceneSingle 0` the id `{0, 0}` is valid. A sequence that starts
with `DestroyEntity({0, 0})` and goes on with `CreateEntity` and further destroy/create pairs
on the slot, every call on an id valid at that time, ends in `sceneSingle 0` again, where
`{0, 0}` is valid: the 32-bit version has wrapped. This takes `2^32` pairs when `CreateEntity`
returns the version as stored (`Scene.CreateEntityBump 0`, one `Version += 1` per pair, that of
`DestroyEntity`, `ECS.h:247`) and `2^31` pairs when it increments once more
(`Scene.CreateEntity`, spec 4.1). -/
theorem Destroyed_id_valid_again :
    (sceneSingle 0).IsEntityValid ⟨0, 0⟩ = .ok true ∧
    (recycleOpsBump 0 0 4294967296 0).head? = some (.DestroyEntity ⟨0, 0⟩) ∧
    (sceneSingle 0).runValidBump 0 (recycleOpsBump 0 0 4294967296 0) = some (sceneSingle 0) ∧
    (recycleOpsBump 1 0 2147483648 0).head? = some (.DestroyEntity ⟨0, 0⟩) ∧
    (sceneSingle 0).runValid (recycleOpsBump 1 0 2147483648 0) = some (sceneSingle 0) := by
  refine ⟨rfl, recycleOpsBump_head 0 0 4294967296 0 (by decide), ?_,
    recycleOpsBump_head 1 0 2147483648 0 (by decide), ?_⟩
  · rw [recycleOpsBump_zero_runValid]
    rfl
  · rw [← runValidBump_one, recycleOpsBump_one_runValid]
    rfl

/-- C7 (amended): once `DestroyEntity(E)` has been applied to a valid id `E`,
`IsEntityValid(E)` is false in every state reached afterwards by fewer than `2^32 - 1` calls of
`CreateEntity`, `DestroyEntity`, `Assign` and `Remove` that return normally (on valid ids or
not): every call advances the slot's version by at most one, modulo `2^32`. This holds whether
`CreateEntity` returns the version of a recycled slot as stored (`bump = 0`) or increments it
once more (`bump = 1`, spec 4.1). -/
theorem Destroyed_id_invalid_until_wrap (bump : Nat) (hb : bump ≤ 1) (s : Scene)
    (E : EntityID) (hE : s.IsEntityValid E = .ok true) :
    ∃ s₁, s.DestroyEntity E = .ok s₁ ∧
      ∀ ops s₂, ops.length < 4294967295 → s₁.runBump bump ops = .ok s₂ →
        s₂.IsEntityValid E = .ok false := by
  obtain ⟨d, hd, hid⟩ := (validId_iff s E).mp ((isEntityValid_true_iff s E).mp hE)
  have hlt : E.Index < s.m_Entities.length := (List.getElem?_eq_some_iff.mp hd).1
  refine ⟨_, destroyEntity_eq s E d hd, ?_⟩
  intro ops s₂ hlen hrun
  obtain ⟨d', k, hk, hd', hv⟩ := runBump_version bump hb ops _ s₂ hrun E.Index
    ⟨⟨4294967295, (d.ID.Version + 1) % 4294967296⟩, 0⟩ (by simp [hlt])
  have hne : d'.ID.Version ≠ E.Version := by
    intro hc
    rw [hc, hid] at hv
    simp only at hv
    omega
  simp [Scene.IsEntityValid, hd', EntityID.eq, hne]

/-- Witness of C7 (amended): the id `{0, 7}` of `sceneTwoSlots`, with `CreateEntity` as in
spec 4.1. -/
theorem Destroyed_id_invalid_until_wrap_witness :
    ∃ s₁, sceneTwoSlots.DestroyEntity ⟨0, 7⟩ = .ok s₁ ∧
      ∀ ops s₂, ops.length < 4294967295 → s₁.runBump 1 ops = .ok s₂ →
        s₂.IsEntityValid ⟨0, 7⟩ = .ok false :=
  Destroyed_id_invalid_until_wrap 1 (by decide) sceneTwoSlots ⟨0, 7⟩ rfl

set_option maxRecDepth 20000 in
/-- Counterexample to C3: the first `CreateEntity` returns E1 = `{0, 0}`; `staleOps` applies
every call to an id valid at that time and contains no `Assign<0>(E1)`; in the resulting state
`Get<0>(E1)` returns the handle of the component assigned to `{0, 2}`, E1's successor in the
slot. -/
theorem Get_through_stale_id :
    (match Scene.empty.CreateEntity with
      | .ok (id, _) => some id
      | .error _ => none) = some ⟨0, 0⟩ ∧
    (match Scene.empty.runValid staleOps with
      | some s => some (s.Get 0 ⟨0, 0⟩, s.IsEntityValid ⟨0, 0⟩)
      | none => none) = some (.ok (some ⟨0⟩), .ok false) ∧
    ∀ sz, Op.Assign 0 sz ⟨0, 0⟩ ∉ staleOps := by
  refine ⟨rfl, rfl, ?_⟩
  intro sz
  simp [staleOps]

/-- C3 (amended): for every sequence of `CreateEntity` / `DestroyEntity` / `Assign` / `Remove`
calls from the empty registry in which every call is applied to an id valid at the time of the
call and returns normally, for every component id `T < 32` and every id `E` whose slot, in the
resulting state, stores `E` itself, or is tombstoned (stored `Index` `0xFFFFFFFF`: destroyed
and not recycled since), or has mask bit `T` clear: `Get<T>(E)` returns normally, and its
result is not `nullptr` if and only if an `Assign<T>(E)` occurs in the sequence with no
`Remove<T>(E)` and no `DestroyEntity(E)` after it. Only an `E` whose slot has been recycled for
another id that has component `T` is left out. -/
theorem Get_iff_assign_standing (ops : List Op) (s : Scene)
    (hrun : Scene.empty.runValid ops = some s) (E : EntityID) (T : Nat) (hT : T < 32)
    (d : EntityDesc) (hd : s.m_Entities[E.Index]? = some d)
    (hE : d.ID = E ∨ d.ID.Index = 4294967295 ∨ d.Masks.testBit T = false) :
    ∃ r, s.Get T E = .ok r ∧
      (r ≠ none ↔ ∃ pre sz post, ops = pre ++ .Assign T sz E :: post ∧
        ∀ op ∈ post, op ≠ .Remove T E ∧ op ≠ .DestroyEntity E) := by
  obtain ⟨_, hst⟩ := runValid_inv ops s hrun
  have hinv : s.MaskHandleInv :=
    maskHandleInv_run ops Scene.empty s (runValid_run ops _ _ hrun) maskHandleInv_empty
  rw [← standing_iff, hst]
  cases hb : d.Masks.testBit T with
  | true =>
    have hid : d.ID = E := by
      rcases hE with hE | hE | hE
      · exact hE
      · have h0 : d.Masks = 0 := tombstone_mask_runValid ops s hrun E.Index d hd hE
        rw [h0] at hb
        simp at hb
      · rw [hb] at hE
        cases hE
    obtain ⟨h, hh⟩ := (get_some_iff_bit s T E d hinv hd hT).mpr hb
    refine ⟨some h, hh, ?_⟩
    constructor
    · intro _
      exact ⟨d, hd, hid, hb⟩
    · intro _ hc
      cases hc
  | false =>
    refine ⟨none, by simp [Scene.Get, hd, bitsetTest, MaskBits, hT, hb], ?_⟩
    constructor
    · intro hc
      exact absurd rfl hc
    · rintro ⟨d', hd', _, hb'⟩
      rw [hd] at hd'
      cases hd'
      rw [hb] at hb'
      cases hb'

set_option maxRecDepth 20000 in
/-- Witness of C3 (amended): `destroyedOps` and E1 = `{0, 0}`, whose slot is tombstoned in the
resulting state: `Assign<0>(E1)` occurs, `DestroyEntity(E1)` occurs after it, and `Get<0>(E1)`
is `nullptr`. -/
theorem Get_iff_assign_standing_witness :
    ∃ r, sceneDestroyed.Get 0 ⟨0, 0⟩ = .ok r ∧
      (r ≠ none ↔ ∃ pre sz post, destroyedOps = pre ++ .Assign 0 sz ⟨0, 0⟩ :: post ∧
        ∀ op ∈ post, op ≠ .Remove 0 ⟨0, 0⟩ ∧ op ≠ .DestroyEntity ⟨0, 0⟩) :=
  Get_iff_assign_standing destroyedOps sceneDestroyed rfl ⟨0, 0⟩ 0 (by decide)
    ⟨⟨4294967295, 1⟩, 0⟩ rfl (Or.inr (Or.inl rfl))

/-- C11: if `IsEntityValid` returns true for `a` and for `b` and they have the same `Index`,
then `a` and `b` are the same id: `operator==` is true and `operator!=` is false on them. -/
theorem Valid_ids_same_index_equal (s : Scene) (a b : EntityID)
    (ha : s.IsEntityValid a = .ok true) (hb : s.IsEntityValid b = .ok true)
    (hi : a.Index = b.Index) :
    a = b ∧ a.eq b = true ∧ a.ne b = false := by
  obtain ⟨da, hda, hida⟩ := (validId_iff s a).mp ((isEntityValid_true_iff s a).mp ha)
  obtain ⟨db, hdb, hidb⟩ := (validId_iff s b).mp ((isEntityValid_true_iff s b).mp hb)
  rw [hi, hdb] at hda
  cases hda
  have hab : a = b := hida.symm.trans hidb
  subst hab
  simp [EntityID.eq, EntityID.ne]

/-- Witness of C11: the id `{0, 7}` of `sceneTwoSlots`, taken twice. -/
theorem Valid_ids_same_index_equal_witness :
    (⟨0, 7⟩ : EntityID) = ⟨0, 7⟩ ∧ EntityID.eq ⟨0, 7⟩ ⟨0, 7⟩ = true ∧
      EntityID.ne ⟨0, 7⟩ ⟨0, 7⟩ = false :=
  Valid_ids_same_index_equal sceneTwoSlots ⟨0, 7⟩ ⟨0, 7⟩ rfl rfl rfl

/-- C14: `Get<T>` reads only the `Index` of the id: for two ids `a`, `b` with the same `Index`
and any versions it returns the same result (or the same fault), so a handle `Get<T>` returns
through the slot's current id `a` is returned through any other id `b` of that slot too. With
the index inside the descriptor sequence (descriptor `d`) and `T < 32`, the result through `b`
is decided by the slot's current mask bit and handle-table entry alone: it is `nullptr` when
mask bit `T` of `d` is clear, it is the handle-table entry for `(T, Index)` when the bit is
set, and where every set mask bit has its handle recorded (`MaskHandleInv`, which holds in
every state reached from the empty registry) it is a handle exactly when the bit is set. -/
theorem Get_ignores_version (s : Scene) (T : Nat) (a b : EntityID)
    (hi : a.Index = b.Index) :
    s.Get T a = s.Get T b ∧
    (∀ h, s.IsEntityValid a = .ok true → s.Get T a = .ok (some h) →
      s.Get T b = .ok (some h)) ∧
    (∀ d, s.m_Entities[a.Index]? = some d → T < 32 →
      (d.Masks.testBit T = false → s.Get T b = .ok none) ∧
      (d.Masks.testBit T = true → ∀ (row : List (Option Handle)) (h : Option Handle),
        s.m_EntityComponents[T]? = some row → row[a.Index]? = some h → s.Get T b = .ok h) ∧
      (s.MaskHandleInv → ((∃ h, s.Get T b = .ok (some h)) ↔ d.Masks.testBit T = true))) := by
  have heq : s.Get T a = s.Get T b := by
    unfold Scene.Get
    rw [hi]
  refine ⟨heq, fun h _ hg => heq ▸ hg, ?_⟩
  intro d hd hT
  rw [← heq]
  refine ⟨?_, ?_, ?_⟩
  · intro hb
    simp [Scene.Get, hd, bitsetTest, MaskBits, hT, hb]
  · intro hb row h hrow hh
    simp [Scene.Get, hd, bitsetTest, MaskBits, hT, hb, hrow, hh]
  · intro hinv
    exact get_some_iff_bit s T a d hinv hd hT

/-- Witness of C14: the current id `{0, 7}` and the stale id `{0, 6}` of `sceneTwoSlots`, whose
slot 0 has the mask `5` (bits 0 and 2). -/
theorem Get_ignores_version_witness :
    sceneTwoSlots.Get 0 ⟨0, 7⟩ = sceneTwoSlots.Get 0 ⟨0, 6⟩ ∧
    (∀ h, sceneTwoSlots.IsEntityValid ⟨0, 7⟩ = .ok true →
      sceneTwoSlots.Get 0 ⟨0, 7⟩ = .ok (some h) →
      sceneTwoSlots.Get 0 ⟨0, 6⟩ = .ok (some h)) ∧
    (∀ d, sceneTwoSlots.m_Entities[0]? = some d → 0 < 32 →
      (d.Masks.testBit 0 = false → sceneTwoSlots.Get 0 ⟨0, 6⟩ = .ok none) ∧
      (d.Masks.testBit 0 = true → ∀ (row : List (Option Handle)) (h : Option Handle),
        sceneTwoSlots.m_EntityComponents[0]? = some row → row[0]? = some h →
        sceneTwoSlots.Get 0 ⟨0, 6⟩ = .ok h) ∧
      (sceneTwoSlots.MaskHandleInv →
        ((∃ h, sceneTwoSlots.Get 0 ⟨0, 6⟩ = .ok (some h)) ↔ d.Masks.testBit 0 = true))) :=
  Get_ignores_version sceneTwoSlots 0 ⟨0, 7⟩ ⟨0, 6⟩ rfl

/-- C15: if slot `i` holds the valid id `L`, then `DestroyEntity` through any id `stale` with
`stale.Index = i` and `stale ≠ L` returns normally; afterwards `IsEntityValid(L)` is false,
the slot's mask is empty, `Get<T>(L)` is `nullptr` for every component id `T < 32`, and `i`
is the last entry of the free-slot list. -/
theorem DestroyEntity_through_stale_id (s : Scene) (L stale : EntityID)
    (hL : s.IsEntityValid L = .ok true) (hi : stale.Index = L.Index) (_hne : stale ≠ L) :
    ∃ s' d', s.DestroyEntity stale = .ok s' ∧ s'.IsEntityValid L = .ok false ∧
      s'.m_Entities[L.Index]? = some d' ∧ d'.Masks = 0 ∧
      (∀ T, T < 32 → s'.Get T L = .ok none) ∧
      s'.m_FreeEntityIndecies.getLast? = some L.Index ∧
      L.Index ∈ s'.m_FreeEntityIndecies := by
  obtain ⟨d, hd, hid⟩ := (validId_iff s L).mp ((isEntityValid_true_iff s L).mp hL)
  have hlt : L.Index < s.m_Entities.length := (List.getElem?_eq_some_iff.mp hd).1
  have hd' : s.m_Entities[stale.Index]? = some d := by rw [hi]; exact hd
  have hne : (d.ID.Version + 1) % 4294967296 ≠ L.Version := by
    rw [hid]
    omega
  refine ⟨_, ⟨⟨4294967295, (d.ID.Version + 1) % 4294967296⟩, 0⟩,
    destroyEntity_eq s stale d hd', ?_, ?_, rfl, ?_, ?_, ?_⟩
  · simp [Scene.IsEntityValid, hi, hlt, EntityID.eq, hne]
  · simp [hi, hlt]
  · intro T hT
    exact get_of_mask_zero _ T L ⟨⟨4294967295, (d.ID.Version + 1) % 4294967296⟩, 0⟩ hT
      (by simp [hi, hlt]) rfl
  · simp [hi]
  · simp [hi]

/-- Witness of C15: slot 0 of `sceneTwoSlots` holds `{0, 7}`; the stale id is `{0, 6}`. -/
theorem DestroyEntity_through_stale_id_witness :
    ∃ s' d', sceneTwoSlots.DestroyEntity ⟨0, 6⟩ = .ok s' ∧
      s'.IsEntityValid ⟨0, 7⟩ = .ok false ∧
      s'.m_Entities[0]? = some d' ∧ d'.Masks = 0 ∧
      (∀ T, T < 32 → s'.Get T ⟨0, 7⟩ = .ok none) ∧
      s'.m_FreeEntityIndecies.getLast? = some 0 ∧
      0 ∈ s'.m_FreeEntityIndecies :=
  DestroyEntity_through_stale_id sceneTwoSlots ⟨0, 7⟩ ⟨0, 6⟩ rfl rfl (by decide)

/-! ## Termination of the traversal -/

theorem beginCond_eq_not (mask : ComponentMask) (d : EntityDesc) :
    (d.ID.Index == InvalidIndex || (mask != 0 && mask != (d.Masks &&& mask))) =
      !(d.ID.Index != InvalidIndex && (mask == 0 || mask == (mask &&& d.Masks))) := by
  rw [Nat.and_comm d.Masks mask]
  simp only [bne]
  generalize (d.ID.Index == InvalidIndex) = a
  generalize (mask == 0) = b
  generalize (mask == (mask &&& d.Masks)) = c
  cases a <;> cases b <;> cases c <;> rfl

theorem inc_spec (s : Scene) (it : Iterator) (hlt : it.m_Index < s.m_Entities.length) :
    ∃ j, it.inc s = .ok { m_Index := j, m_ComponentMask := it.m_ComponentMask } ∧
      it.m_Index < j ∧ j ≤ s.m_Entities.length := by
  obtain ⟨j, hj, h1, h2, _, _⟩ := incLoop_spec s
    (fun d => d.ID.Index != InvalidIndex &&
      (it.m_ComponentMask == 0 || it.m_ComponentMask == (it.m_ComponentMask &&& d.Masks)))
    it.m_ComponentMask (fun _ => rfl) (s.m_Entities.length + 1) it.m_Index hlt (by omega)
  exact ⟨j, hj, by omega, h2⟩

theorem incTimes_reaches_end (s : Scene) (mask : ComponentMask) :
    ∀ n idx, s.m_Entities.length - idx ≤ n → idx ≤ s.m_Entities.length →
      ∃ k, k ≤ n ∧ Iterator.incTimes s k { m_Index := idx, m_ComponentMask := mask }
        = .ok { m_Index := s.m_Entities.length, m_ComponentMask := mask } := by
  intro n
  induction n with
  | zero =>
    intro idx hn hle
    have : idx = s.m_Entities.length := by omega
    subst this
    exact ⟨0, le_refl _, rfl⟩
  | succ n ih =>
    intro idx hn hle
    by_cases hlt : idx < s.m_Entities.length
    · obtain ⟨j, hj, h1, h2⟩ := inc_spec s { m_Index := idx, m_ComponentMask := mask } hlt
      obtain ⟨k, hk, hrest⟩ := ih j (by simp only at h1; omega) h2
      refine ⟨k + 1, by omega, ?_⟩
      simp only [Iterator.incTimes, hj]
      exact hrest
    · have : idx = s.m_Entities.length := by omega
      subst this
      exact ⟨0, Nat.zero_le _, rfl⟩

/-- C17: in a scene with `n` descriptors, for every target mask: `begin()` returns an iterator
with index `<= n`; from it, at most `n` applications of `operator++` give the iterator equal
to `end()`; `operator++` on any iterator with index `< n` returns an iterator with a strictly
larger index that is still `<= n`; and the range-for traversal returns. The loops of `begin`
and `operator++` are run with a bound of `n + 1` rounds and never use it up. -/
theorem Traversal_terminates (s : Scene) (v : SceneView) :
    (∃ first, v.begin s = .ok first ∧ first.m_Index ≤ s.m_Entities.length ∧
      ∃ k last, k ≤ s.m_Entities.length ∧ Iterator.incTimes s k first = .ok last ∧
        last.eq (v.end_ s) = true) ∧
    (∀ it : Iterator, it.m_Index < s.m_Entities.length →
      ∃ it', it.inc s = .ok it' ∧ it.m_Index < it'.m_Index ∧
        it'.m_Index ≤ s.m_Entities.length) ∧
    (∃ ids, v.traverse s = .ok ids ∧ ids.length ≤ s.m_Entities.length) := by
  refine ⟨?_, ?_, ?_⟩
  · obtain ⟨j, hj, _, h2, _, _⟩ := beginLoop_spec s v
      (fun d => d.ID.Index != InvalidIndex &&
        (v.m_ComponentMask == 0 || v.m_ComponentMask == (v.m_ComponentMask &&& d.Masks)))
      (fun d => beginCond_eq_not v.m_ComponentMask d)
      (s.m_Entities.length + 1) 0 (Nat.zero_le _) (by omega)
    obtain ⟨k, hk, hreach⟩ :=
      incTimes_reaches_end s v.m_ComponentMask (s.m_Entities.length) j (by omega) h2
    refine ⟨{ m_Index := j, m_ComponentMask := v.m_ComponentMask }, ?_, h2, k, _, hk, hreach, ?_⟩
    · simp [SceneView.begin, hj]
    · simp [Iterator.eq, SceneView.end_]
  · intro it hlt
    obtain ⟨j, hj, h1, h2⟩ := inc_spec s it hlt
    exact ⟨_, hj, h1, h2⟩
  · refine ⟨_, traverse_spec s v _ (fun _ => rfl), ?_⟩
    rw [List.length_map]
    exact List.length_filter_le _ _

set_option maxRecDepth 20000 in
/-- Witness of C17: `View<ComponentB>()` over the scene of `main`. -/
theorem Traversal_terminates_witness :
    (∃ first, SceneView.begin sceneMain ⟨2⟩ = .ok first ∧
      first.m_Index ≤ sceneMain.m_Entities.length ∧
      ∃ k last, k ≤ sceneMain.m_Entities.length ∧
        Iterator.incTimes sceneMain k first = .ok last ∧
        last.eq (SceneView.end_ sceneMain ⟨2⟩) = true) ∧
    (∀ it : Iterator, it.m_Index < sceneMain.m_Entities.length →
      ∃ it', it.inc sceneMain = .ok it' ∧ it.m_Index < it'.m_Index ∧
        it'.m_Index ≤ sceneMain.m_Entities.length) ∧
    (∃ ids, SceneView.traverse sceneMain ⟨2⟩ = .ok ids ∧
      ids.length ≤ sceneMain.m_Entities.length) :=
  Traversal_terminates sceneMain ⟨2⟩

/-! ## Component ids -/

theorem firstUseFrom_cons {τ : Type} [DecidableEq τ] (seen : List τ) (T : τ) (rest : List τ) :
    firstUseFrom seen (T :: rest)
      = firstUseFrom (if T ∈ seen then seen else seen ++ [T]) rest := rfl

theorem firstUseFrom_prefix {τ : Type} [DecidableEq τ] (types : List τ) :
    ∀ seen, ∃ more, firstUseFrom seen types = seen ++ more := by
  induction types with
  | nil => exact fun seen => ⟨[], by simp [firstUseFrom]⟩
  | cons T rest ih =>
    intro seen
    rw [firstUseFrom_cons]
    by_cases hT : T ∈ seen
    · rw [if_pos hT]
      exact ih seen
    · rw [if_neg hT]
      obtain ⟨more, hmore⟩ := ih (seen ++ [T])
      exact ⟨[T] ++ more, by rw [hmore, List.append_assoc]⟩

theorem firstUseFrom_nodup {τ : Type} [DecidableEq τ] (types : List τ) :
    ∀ seen, seen.Nodup → (firstUseFrom seen types).Nodup := by
  induction types with
  | nil => exact fun seen h => by simpa [firstUseFrom] using h
  | cons T rest ih =>
    intro seen hnd
    rw [firstUseFrom_cons]
    by_cases hT : T ∈ seen
    · rw [if_pos hT]
      exact ih seen hnd
    · rw [if_neg hT]
      apply ih
      rw [List.nodup_append]
      refine ⟨hnd, List.nodup_singleton T, ?_⟩
      intro a ha hb
      simp at hb
      subst hb
      exact hT ha

theorem firstUseFrom_mem {τ : Type} [DecidableEq τ] (types : List τ) :
    ∀ seen T, T ∈ firstUseFrom seen types ↔ T ∈ seen ∨ T ∈ types := by
  induction types with
  | nil => exact fun seen T => by simp [firstUseFrom]
  | cons U rest ih =>
    intro seen T
    rw [firstUseFrom_cons, ih]
    by_cases hU : U ∈ seen
    · rw [if_pos hU]
      constructor
      · rintro (h | h)
        · exact Or.inl h
        · exact Or.inr (List.mem_cons_of_mem U h)
      · rintro (h | h)
        · exact Or.inl h
        · rcases List.mem_cons.mp h with rfl | h
          · exact Or.inl hU
          · exact Or.inr h
    · rw [if_neg hU]
      simp only [List.mem_append, List.mem_singleton, List.mem_cons]
      tauto

theorem represents_initial {τ : Type} [DecidableEq τ] :
    (ComponentIDs.initial : ComponentIDs τ).Represents [] := by
  refine ⟨rfl, List.nodup_nil, ?_⟩
  intro T
  simp [ComponentIDs.initial]

theorem getID_seen {τ : Type} [DecidableEq τ] (s : Scene) (T : τ) (g : ComponentIDs τ)
    (seen : List τ) (hrep : g.Represents seen) (hT : T ∈ seen) :
    s.GetID T g = (seen.indexOf T, g) := by
  unfold Scene.GetID
  rw [hrep.2.2 T, if_pos hT]

theorem getID_new {τ : Type} [DecidableEq τ] (s : Scene) (T : τ) (g : ComponentIDs τ)
    (seen : List τ) (hrep : g.Represents seen) (hT : T ∉ seen)
    (hlen : seen.length + 1 < 18446744073709551616) :
    (s.GetID T g).1 = seen.length ∧ (s.GetID T g).2.Represents (seen ++ [T]) := by
  unfold Scene.GetID
  rw [hrep.2.2 T, if_neg hT]
  refine ⟨hrep.1, ?_, ?_, ?_⟩
  · simp only [SizeTSize, hrep.1, List.length_append, List.length_singleton]
    exact Nat.mod_eq_of_lt hlen
  · rw [List.nodup_append]
    refine ⟨hrep.2.1, List.nodup_singleton T, ?_⟩
    intro a ha hb
    simp at hb
    subst hb
    exact hT ha
  · intro U
    simp only
    by_cases hUT : U = T
    · subst hUT
      rw [if_pos rfl, if_pos (by simp), hrep.1, List.indexOf_append_of_not_mem hT]
      simp
    · rw [if_neg hUT, hrep.2.2 U]
      by_cases hU : U ∈ seen
      · rw [if_pos hU, if_pos (by simp [hU]), List.indexOf_append_of_mem hU]
      · rw [if_neg hU, if_neg (by simp [hU, hUT])]

theorem getIDCalls_spec {τ : Type} [DecidableEq τ] (calls : List (Scene × τ)) :
    ∀ (g : ComponentIDs τ) (seen : List τ), g.Represents seen →
      seen.length + calls.length < 18446744073709551616 →
      getIDCalls g calls = (calls.map Prod.snd).map
        (fun T => (firstUseFrom seen (calls.map Prod.snd)).indexOf T) := by
  induction calls with
  | nil => exact fun g seen _ _ => rfl
  | cons c rest ih =>
    obtain ⟨s, T⟩ := c
    intro g seen hrep hlen
    simp only [List.length_cons] at hlen
    simp only [getIDCalls, List.map_cons, firstUseFrom_cons]
    by_cases hT : T ∈ seen
    · rw [getID_seen s T g seen hrep hT, if_pos hT]
      simp only
      rw [ih g seen hrep (by omega)]
      obtain ⟨more, hmore⟩ := firstUseFrom_prefix (rest.map Prod.snd) seen
      rw [hmore, List.indexOf_append_of_mem hT]
    · obtain ⟨hid, hrep'⟩ := getID_new s T g seen hrep hT (by omega)
      rw [if_neg hT, hid, ih _ (seen ++ [T]) hrep' (by simp; omega)]
      obtain ⟨more, hmore⟩ := firstUseFrom_prefix (rest.map Prod.snd) (seen ++ [T])
      rw [hmore, List.indexOf_append_of_mem (by simp), List.indexOf_append_of_not_mem hT]
      simp
/-- C18: with the counter starting at 0 and no static initialised, for every sequence of fewer
than `2^64` calls `scene.GetID<T>()` on any scenes and any component types: one id is returned
per call; a call for the type at position `k` (counted from 0) of the distinct types in
first-use order returns `k`; two calls return the same id exactly when their types are the
same; every `k` below the number of distinct types is returned by some call; and the ids do not
depend on the scenes the calls are made on. -/
theorem GetID_ids_dense_and_stable {τ : Type} [DecidableEq τ] (calls : List (Scene × τ))
    (hlen : calls.length < 18446744073709551616) :
    (getIDCalls ComponentIDs.initial calls).length = calls.length ∧
    (∀ (i : Nat) (T : τ), (calls.map Prod.snd)[i]? = some T →
      ∃ k : Nat, (firstUseOrder (calls.map Prod.snd))[k]? = some T ∧
        (getIDCalls ComponentIDs.initial calls)[i]? = some k) ∧
    (firstUseOrder (calls.map Prod.snd)).Nodup ∧
    (∀ (i j : Nat) (Ti Tj : τ) (a b : Nat), (calls.map Prod.snd)[i]? = some Ti → (calls.map Prod.snd)[j]? = some Tj →
      (getIDCalls ComponentIDs.initial calls)[i]? = some a →
      (getIDCalls ComponentIDs.initial calls)[j]? = some b → (Ti = Tj ↔ a = b)) ∧
    (∀ k : Nat, k < (firstUseOrder (calls.map Prod.snd)).length →
      ∃ i : Nat, (getIDCalls ComponentIDs.initial calls)[i]? = some k) ∧
    (∀ calls' : List (Scene × τ), calls'.map Prod.snd = calls.map Prod.snd →
      getIDCalls ComponentIDs.initial calls' = getIDCalls ComponentIDs.initial calls) := by
  have hspec := getIDCalls_spec calls ComponentIDs.initial [] represents_initial
    (by simpa using hlen)
  have hF : firstUseFrom [] (calls.map Prod.snd) = firstUseOrder (calls.map Prod.snd) := rfl
  rw [hF] at hspec
  have hnd : (firstUseOrder (calls.map Prod.snd)).Nodup :=
    firstUseFrom_nodup _ [] List.nodup_nil
  have hmem : ∀ (i : Nat) (T : τ), (calls.map Prod.snd)[i]? = some T →
      T ∈ firstUseOrder (calls.map Prod.snd) := by
    intro i T hT
    exact (firstUseFrom_mem _ [] T).mpr (Or.inr (List.getElem?_mem hT))
  have hid : ∀ (i : Nat) (T : τ), (calls.map Prod.snd)[i]? = some T →
      (getIDCalls ComponentIDs.initial calls)[i]?
        = some ((firstUseOrder (calls.map Prod.snd)).indexOf T) := by
    intro i T hT
    rw [hspec, List.getElem?_map, hT]
    rfl
  refine ⟨by rw [hspec]; simp, ?_, hnd, ?_, ?_, ?_⟩
  · intro i T hT
    exact ⟨_, List.getElem?_indexOf (hmem i T hT), hid i T hT⟩
  · intro i j Ti Tj a b hTi hTj ha hb
    rw [hid i Ti hTi] at ha
    rw [hid j Tj hTj] at hb
    cases ha
    cases hb
    exact (List.indexOf_inj (hmem i Ti hTi) (hmem j Tj hTj)).symm
  · intro k hk
    have hT : (firstUseOrder (calls.map Prod.snd))[k] ∈ calls.map Prod.snd := by
      have := (firstUseFrom_mem (calls.map Prod.snd) []
        (firstUseOrder (calls.map Prod.snd))[k]).mp (List.getElem_mem hk)
      simpa using this
    obtain ⟨i, hi⟩ := List.mem_iff_getElem?.mp hT
    refine ⟨i, ?_⟩
    rw [hid i _ hi, List.indexOf_getElem hnd k hk]
  · intro calls' hsame
    have hlen' : calls'.length < 18446744073709551616 := by
      have := congrArg List.length hsame
      simp only [List.length_map] at this
      omega
    rw [getIDCalls_spec calls' ComponentIDs.initial [] represents_initial
      (by simpa using hlen'), hsame, hF, hspec]

/-- Witness of C18: `GetID<ComponentA>` on an empty scene, `GetID<ComponentB>` on the scene of
`main`, `GetID<ComponentA>` on `sceneTwoSlots`. -/
theorem GetID_ids_dense_and_stable_witness :
    getIDCalls ComponentIDs.initial
      [(Scene.empty, MainComponent.ComponentA), (sceneMain, MainComponent.ComponentB),
        (sceneTwoSlots, MainComponent.ComponentA)] = [0, 1, 0] ∧
    (getIDCalls ComponentIDs.initial
      [(Scene.empty, MainComponent.ComponentA), (sceneMain, MainComponent.ComponentB),
        (sceneTwoSlots, MainComponent.ComponentA)]).length = 3 :=
  ⟨rfl, (GetID_ids_dense_and_stable
    [(Scene.empty, MainComponent.ComponentA), (sceneMain, MainComponent.ComponentB),
      (sceneTwoSlots, MainComponent.ComponentA)] (by decide)).1⟩

/-! ## The handle table along a run -/

theorem getElem?_vecResize_beyond {α : Type} (v : List α) (n t : Nat) (a : α) (hn : n ≤ t) :
    (vecResize v n a)[t]? = none :=
  List.getElem?_eq_none (by rw [length_vecResize]; exact hn)

theorem ensurePool_inv (s : Scene) (cid sz : Nat) (hinv : s.TablesInv) :
    ∃ pool P₂ C₂ row, s.ensurePool cid sz = .ok (pool, P₂, C₂) ∧
      C₂[cid]? = some row ∧ row.length = 1024 ∧ P₂[cid]? = some (some pool) ∧
      P₂.length = C₂.length ∧
      (∀ (t : Nat) (p : ComponentPool), P₂[t]? = some (some p) →
        ∃ row', C₂[t]? = some row' ∧ row'.length = 1024) ∧
      (∀ t : Nat, P₂[t]? = some none → C₂[t]? = some []) ∧
      (∀ (t : Nat) (row₀ : List (Option Handle)), s.m_EntityComponents[t]? = some row₀ →
        ∃ row₂, C₂[t]? = some row₂ ∧ ∀ (j : Nat) x, row₀[j]? = some x → row₂[j]? = some x) := by
  have hlens := hinv.lens
  unfold Scene.ensurePool
  by_cases hge : cid ≥ s.m_ComponentPools.length
  · simp only [hge, if_true]
    have hnewP : (vecResize s.m_ComponentPools (cid + 1) none)[cid]? = some none :=
      getElem?_vecResize_new _ _ _ _ hge (by omega)
    have hnewC : (vecResize s.m_EntityComponents (cid + 1) [])[cid]? = some [] :=
      getElem?_vecResize_new _ _ _ _ (by omega) (by omega)
    simp only [hnewP, hnewC]
    have hcidP : cid < (vecResize s.m_ComponentPools (cid + 1) none).length := by
      rw [length_vecResize]; omega
    have hcidC : cid < (vecResize s.m_EntityComponents (cid + 1)
        ([] : List (Option Handle))).length := by
      rw [length_vecResize]; omega
    have hold : ∀ t : Nat, t ≠ cid →
        ((vecResize s.m_ComponentPools (cid + 1) none).set cid (some ⟨sz⟩))[t]? =
          (if t < s.m_ComponentPools.length then s.m_ComponentPools[t]?
            else if t < cid then some none else none) ∧
        ((vecResize s.m_EntityComponents (cid + 1) []).set cid
            (vecResize ([] : List (Option Handle)) 1024 none))[t]? =
          (if t < s.m_ComponentPools.length then s.m_EntityComponents[t]?
            else if t < cid then some [] else none) := by
      intro t ht
      rw [List.getElem?_set_ne (Ne.symm ht), List.getElem?_set_ne (Ne.symm ht)]
      by_cases h1 : t < s.m_ComponentPools.length
      · rw [if_pos h1, if_pos h1, getElem?_vecResize_old _ _ _ _ h1 (by omega),
          getElem?_vecResize_old _ _ _ _ (by omega) (by omega)]
        exact ⟨rfl, rfl⟩
      · rw [if_neg h1, if_neg h1]
        by_cases h2 : t < cid
        · rw [if_pos h2, if_pos h2, getElem?_vecResize_new _ _ _ _ (by omega) (by omega),
            getElem?_vecResize_new _ _ _ _ (by omega) (by omega)]
          exact ⟨rfl, rfl⟩
        · rw [if_neg h2, if_neg h2, getElem?_vecResize_beyond _ _ _ _ (by omega),
            getElem?_vecResize_beyond _ _ _ _ (by omega)]
          exact ⟨rfl, rfl⟩
    refine ⟨_, _, _, vecResize [] 1024 none, rfl, ?_, length_vecResize _ _ _, ?_, ?_, ?_, ?_, ?_⟩
    · rw [List.getElem?_set_self hcidC]
    · rw [List.getElem?_set_self hcidP]
    · simp [length_vecResize]
    · intro t p htp
      by_cases ht : t = cid
      · subst ht
        exact ⟨_, List.getElem?_set_self hcidC, length_vecResize _ _ _⟩
      · obtain ⟨hP, hC⟩ := hold t ht
        rw [hP] at htp
        rw [hC]
        by_cases h1 : t < s.m_ComponentPools.length
        · rw [if_pos h1] at htp ⊢
          exact hinv.full t p htp
        · rw [if_neg h1] at htp
          split at htp <;> cases htp
    · intro t htp
      by_cases ht : t = cid
      · subst ht
        rw [List.getElem?_set_self hcidP] at htp
        cases htp
      · obtain ⟨hP, hC⟩ := hold t ht
        rw [hP] at htp
        rw [hC]
        by_cases h1 : t < s.m_ComponentPools.length
        · rw [if_pos h1] at htp ⊢
          exact hinv.hollow t htp
        · rw [if_neg h1] at htp ⊢
          by_cases h2 : t < cid
          · rw [if_pos h2]
          · rw [if_neg h2] at htp
            cases htp
    · intro t row₀ hrow₀
      have ht : t < s.m_EntityComponents.length := (List.getElem?_eq_some_iff.mp hrow₀).1
      obtain ⟨_, hC⟩ := hold t (by omega)
      rw [if_pos (by omega)] at hC
      exact ⟨row₀, by rw [hC, hrow₀], fun _ _ h => h⟩
  · have hlt : cid < s.m_ComponentPools.length := by omega
    simp only [hge, if_false]
    have hd : s.m_ComponentPools[cid]? = some s.m_ComponentPools[cid] :=
      List.getElem?_eq_getElem hlt
    cases hp : s.m_ComponentPools[cid] with
    | some p₀ =>
      rw [hp] at hd
      rw [hd]
      obtain ⟨row, hrow, hlen⟩ := hinv.full cid p₀ hd
      exact ⟨p₀, _, _, row, rfl, hrow, hlen, hd, hlens, hinv.full, hinv.hollow,
        fun t row₀ h => ⟨row₀, h, fun _ _ h' => h'⟩⟩
    | none =>
      rw [hp] at hd
      rw [hd]
      have hrow := hinv.hollow cid hd
      simp only [hrow]
      have hcidC : cid < s.m_EntityComponents.length := by omega
      refine ⟨_, _, _, vecResize [] 1024 none, rfl, List.getElem?_set_self hcidC,
        length_vecResize _ _ _, List.getElem?_set_self hlt, by simp [hlens], ?_, ?_, ?_⟩
      · intro t p htp
        by_cases ht : t = cid
        · subst ht
          exact ⟨_, List.getElem?_set_self hcidC, length_vecResize _ _ _⟩
        · rw [List.getElem?_set_ne (Ne.symm ht)] at htp ⊢
          exact hinv.full t p htp
      · intro t htp
        by_cases ht : t = cid
        · subst ht
          rw [List.getElem?_set_self hlt] at htp
          cases htp
        · rw [List.getElem?_set_ne (Ne.symm ht)] at htp ⊢
          exact hinv.hollow t htp
      · intro t row₀ hrow₀
        by_cases ht : t = cid
        · subst ht
          rw [hrow] at hrow₀
          cases hrow₀
          exact ⟨_, List.getElem?_set_self hcidC, fun j x h => by simp at h⟩
        · exact ⟨row₀, by rw [List.getElem?_set_ne (Ne.symm ht)]; exact hrow₀,
            fun _ _ h => h⟩
theorem assign_of_tablesInv (s : Scene) (T sz : Nat) (id : EntityID) (d : EntityDesc)
    (hinv : s.TablesInv) (hT : T < 32) (hd : s.m_Entities[id.Index]? = some d) :
    ∃ pool P₂ C₂ row, s.ensurePool T sz = .ok (pool, P₂, C₂) ∧ C₂[T]? = some row ∧
      row.length = 1024 ∧
      s.Assign T sz id =
        if id.Index < 1024 then
          .ok { s with
            m_Entities := s.m_Entities.set id.Index { d with Masks := d.Masks ||| (1 <<< T) }
            m_ComponentPools := P₂
            m_EntityComponents := C₂.set T (row.set id.Index (some ⟨id.Index⟩)) }
        else .error .OutOfBounds := by
  obtain ⟨pool, P₂, C₂, row, hens, hrow, hlen, _⟩ := ensurePool_inv s T sz hinv
  refine ⟨pool, P₂, C₂, row, hens, hrow, hlen, ?_⟩
  simp only [Scene.Assign, hens, hd, bitsetSet, MaskBits, hT, if_true, hrow, hlen,
    ComponentPool.Get]

theorem tablesInv_assign (s s' : Scene) (T sz : Nat) (id : EntityID) (hinv : s.TablesInv)
    (h : s.Assign T sz id = .ok s') :
    s'.TablesInv ∧ id.Index < 1024 ∧
      (∃ row', s'.m_EntityComponents[T]? = some row' ∧
        row'[id.Index]? = some (some ⟨id.Index⟩)) ∧
      ∀ (t : Nat) (row₀ : List (Option Handle)), s.m_EntityComponents[t]? = some row₀ →
        ∃ row₂, s'.m_EntityComponents[t]? = some row₂ ∧
          ∀ (j : Nat) x, (t, j) ≠ (T, id.Index) → row₀[j]? = some x → row₂[j]? = some x := by
  obtain ⟨d, pool, P₂, C₂, row, hd, hT, hens, hrow, hlt, rfl⟩ := assign_ok s s' T sz id h
  obtain ⟨pool', P₂', C₂', row', hens', hrow', hlen', hpool', hlens', hfull', hhollow', hkeep'⟩ :=
    ensurePool_inv s T sz hinv
  rw [hens] at hens'
  cases hens'
  rw [hrow] at hrow'
  cases hrow'
  have hTC : T < C₂.length := (List.getElem?_eq_some_iff.mp hrow).1
  refine ⟨⟨?_, ?_, ?_⟩, by omega, ?_, ?_⟩
  · simpa using hlens'
  · intro t p htp
    simp only at htp ⊢
    by_cases ht : t = T
    · subst ht
      exact ⟨_, List.getElem?_set_self hTC, by simp [hlen']⟩
    · rw [List.getElem?_set_ne (Ne.symm ht)]
      exact hfull' t p htp
  · intro t htp
    simp only at htp ⊢
    have ht : t ≠ T := by
      intro hc
      subst hc
      rw [hpool'] at htp
      cases htp
    rw [List.getElem?_set_ne (Ne.symm ht)]
    exact hhollow' t htp
  · exact ⟨_, List.getElem?_set_self hTC, List.getElem?_set_self hlt⟩
  · intro t row₀ hrow₀
    obtain ⟨row₂, hrow₂, hent⟩ := hkeep' t row₀ hrow₀
    simp only
    by_cases ht : t = T
    · subst ht
      rw [hrow] at hrow₂
      cases hrow₂
      refine ⟨_, List.getElem?_set_self hTC, ?_⟩
      intro j x hne hx
      have hj : id.Index ≠ j := fun hc => hne (by rw [hc])
      rw [List.getElem?_set_ne hj]
      exact hent j x hx
    · refine ⟨row₂, by rw [List.getElem?_set_ne (Ne.symm ht)]; exact hrow₂, ?_⟩
      intro j x _ hx
      exact hent j x hx

theorem tablesInv_empty : Scene.empty.TablesInv := by
  refine ⟨rfl, ?_, ?_⟩
  · intro t p h
    simp [Scene.empty] at h
  · intro t h
    simp [Scene.empty] at h

theorem tablesInv_step (s s' : Scene) (op : Op) (hinv : s.TablesInv)
    (hstep : s.step op = .ok s') : s'.TablesInv := by
  cases op with
  | CreateEntity =>
    simp only [Scene.step] at hstep
    cases hc : s.CreateEntity with
    | error e => simp [hc] at hstep
    | ok r =>
      obtain ⟨id, s₁⟩ := r
      simp only [hc] at hstep
      cases hstep
      rcases createEntity_ok s s' id hc with ⟨_, _, rfl⟩ | ⟨_, _, _, _, _, rfl⟩
      · exact ⟨hinv.lens, hinv.full, hinv.hollow⟩
      · exact ⟨hinv.lens, hinv.full, hinv.hollow⟩
  | DestroyEntity E =>
    obtain ⟨_, _, rfl⟩ := destroyEntity_ok s s' E hstep
    exact ⟨hinv.lens, hinv.full, hinv.hollow⟩
  | Remove cid E =>
    simp only [Scene.step] at hstep
    cases hr : s.Remove cid E with
    | error e => simp [hr] at hstep
    | ok r =>
      simp only [hr] at hstep
      cases hstep
      rcases remove_ok s cid E r hr with ⟨rfl, _⟩ | ⟨_, _, _, _, rfl⟩
      · exact hinv
      · exact ⟨hinv.lens, hinv.full, hinv.hollow⟩
  | Assign cid sz E => exact (tablesInv_assign s s' cid sz E hinv hstep).1

theorem tablesInv_run (ops : List Op) :
    ∀ (s s' : Scene), s.run ops = .ok s' → s.TablesInv → s'.TablesInv := by
  induction ops with
  | nil =>
    intro s s' h hinv
    simp only [Scene.run] at h
    cases h
    exact hinv
  | cons op ops ih =>
    intro s s' h hinv
    simp only [Scene.run] at h
    cases hs : s.step op with
    | error e => simp [hs] at h
    | ok s₁ =>
      simp only [hs] at h
      exact ih s₁ s' h (tablesInv_step s s₁ op hinv hs)

theorem run_append (ops₁ ops₂ : List Op) :
    ∀ (s s₁ : Scene), s.run ops₁ = .ok s₁ → s.run (ops₁ ++ ops₂) = s₁.run ops₂ := by
  induction ops₁ with
  | nil =>
    intro s s₁ h
    simp only [Scene.run] at h
    cases h
    rfl
  | cons op ops ih =>
    intro s s₁ h
    simp only [Scene.run] at h
    cases hs : s.step op with
    | error e => simp [hs] at h
    | ok s₂ =>
      simp only [hs] at h
      simp only [List.cons_append, Scene.run, hs]
      exact ih s₂ s₁ h

theorem run_creates (n : Nat) :
    Scene.empty.run (List.replicate n .CreateEntity) = .ok (sceneFresh n) := by
  induction n with
  | zero => rfl
  | succ n ih =>
    rw [List.replicate_succ', run_append _ _ _ _ ih]
    simp only [Scene.run, Scene.step]
    rw [createEntity_append_eq (sceneFresh n) rfl]
    simp [sceneFresh, List.range_succ, UInt32Size, Scene.empty]

theorem tablesInv_sceneFresh (n : Nat) : (sceneFresh n).TablesInv :=
  tablesInv_run _ Scene.empty _ (run_creates n) tablesInv_empty

/-- In every state reached from the empty registry, `Assign<T>` (`T < 32`) on an id whose
index is inside the descriptor sequence and at least 1024 indexes the handle-table row outside
its 1024 entries. -/
theorem assign_faults_beyond_row (ops : List Op) (s : Scene)
    (hrun : Scene.empty.run ops = .ok s) (T sz : Nat) (id : EntityID) (hT : T < 32)
    (hi : id.Index < s.m_Entities.length) (hbig : 1024 ≤ id.Index) :
    s.Assign T sz id = .error .OutOfBounds := by
  have hinv := tablesInv_run ops Scene.empty s hrun tablesInv_empty
  obtain ⟨_, _, _, _, _, _, _, hass⟩ :=
    assign_of_tablesInv s T sz id _ hinv hT (List.getElem?_eq_getElem hi)
  rw [hass, if_neg (by omega)]

/-- Counterexample to C13: 1025 calls of `CreateEntity` on an empty scene give
`sceneFresh 1025`, whose descriptor sequence has 1025 slots and in which `{1024, 0}` is valid;
`Assign<0>` on that id resizes the row of component 0 to 1024 entries and then indexes it at
1024, outside the row. -/
theorem Assign_index_1024_outside_row :
    Scene.empty.run (List.replicate 1025 .CreateEntity) = .ok (sceneFresh 1025) ∧
    (sceneFresh 1025).m_Entities.length = 1025 ∧
    (sceneFresh 1025).IsEntityValid ⟨1024, 0⟩ = .ok true ∧
    (sceneFresh 1025).Assign 0 4 ⟨1024, 0⟩ = .error .OutOfBounds := by
  have hlen : (sceneFresh 1025).m_Entities.length = 1025 := by simp [sceneFresh]
  refine ⟨run_creates 1025, hlen, ?_, ?_⟩
  · apply (isEntityValid_true_iff _ _).mpr
    apply (validId_iff _ _).mpr
    refine ⟨⟨⟨1024, 0⟩, 0⟩, ?_, rfl⟩
    simp [sceneFresh, List.getElem?_range, UInt32Size]
  · exact assign_faults_beyond_row _ _ (run_creates 1025) 0 4 ⟨1024, 0⟩ (by decide)
      (by rw [hlen]; decide) (by decide)

/-- C20: in every state reached from the empty registry, for a component id `T < 32` and an id
whose `Index` `i` is inside the descriptor sequence and below the 1024 entries of a handle-table
row, `Assign<T>` returns normally; it sets mask bit `T` of slot `i` and records the handle at
`(T, i)`; the descriptor sequence keeps its length, every slot keeps its stored EntityID and
every mask bit other than `(T, i)`, the free-slot list is unchanged, every handle-table entry
other than `(T, i)` that existed before is unchanged; `IsEntityValid(x)` is the same for every
`x`, and `Get<U>(y)` is the same for every `(U, y.Index) ≠ (T, i)`. -/
theorem Assign_frame (ops : List Op) (s : Scene) (hrun : Scene.empty.run ops = .ok s)
    (T sz : Nat) (id : EntityID) (hT : T < 32) (hi : id.Index < s.m_Entities.length)
    (hrow : id.Index < 1024) :
    ∃ s', s.Assign T sz id = .ok s' ∧
      (∃ d' row', s'.m_Entities[id.Index]? = some d' ∧ d'.Masks.testBit T = true ∧
        s'.m_EntityComponents[T]? = some row' ∧ row'[id.Index]? = some (some ⟨id.Index⟩)) ∧
      s'.m_Entities.length = s.m_Entities.length ∧
      (∀ (j : Nat) (d : EntityDesc), s.m_Entities[j]? = some d →
        ∃ d', s'.m_Entities[j]? = some d' ∧ d'.ID = d.ID ∧
          ∀ U : Nat, (U, j) ≠ (T, id.Index) → d'.Masks.testBit U = d.Masks.testBit U) ∧
      s'.m_FreeEntityIndecies = s.m_FreeEntityIndecies ∧
      (∀ (U : Nat) (row₀ : List (Option Handle)), s.m_EntityComponents[U]? = some row₀ →
        ∃ row₂, s'.m_EntityComponents[U]? = some row₂ ∧
          ∀ (j : Nat) x, (U, j) ≠ (T, id.Index) → row₀[j]? = some x → row₂[j]? = some x) ∧
      (∀ x, s'.IsEntityValid x = s.IsEntityValid x) ∧
      (∀ (U : Nat) (y : EntityID), (U, y.Index) ≠ (T, id.Index) → s'.Get U y = s.Get U y) := by
  have hinv := tablesInv_run ops Scene.empty s hrun tablesInv_empty
  have hmask := maskHandleInv_run ops Scene.empty s hrun maskHandleInv_empty
  have hd : s.m_Entities[id.Index]? = some s.m_Entities[id.Index] := List.getElem?_eq_getElem hi
  obtain ⟨pool, P₂, C₂, row, _, _, _, hass⟩ := assign_of_tablesInv s T sz id _ hinv hT hd
  rw [if_pos hrow] at hass
  obtain ⟨_, _, hnew, hkeep⟩ := tablesInv_assign s _ T sz id hinv hass
  have hents : ∀ (j : Nat) (d : EntityDesc), s.m_Entities[j]? = some d →
      ∃ d', (s.m_Entities.set id.Index
          { s.m_Entities[id.Index] with
            Masks := s.m_Entities[id.Index].Masks ||| (1 <<< T) })[j]? = some d' ∧
        d'.ID = d.ID ∧
        ∀ U : Nat, (U, j) ≠ (T, id.Index) → d'.Masks.testBit U = d.Masks.testBit U := by
    intro j d hj
    by_cases hij : id.Index = j
    · subst hij
      rw [hd] at hj
      cases hj
      refine ⟨_, List.getElem?_set_self hi, rfl, ?_⟩
      intro U hU
      have hne : T ≠ U := fun hc => hU (by rw [hc])
      show (s.m_Entities[id.Index].Masks ||| (1 <<< T)).testBit U = _
      rw [testBit_set_bit]
      simp [hne]
    · exact ⟨d, by rw [List.getElem?_set_ne hij]; exact hj, rfl, fun _ _ => rfl⟩
  refine ⟨_, hass, ?_, by simp, hents, rfl, hkeep, ?_, ?_⟩
  · obtain ⟨row', hrow', hh⟩ := hnew
    refine ⟨_, row', List.getElem?_set_self hi, ?_, hrow', hh⟩
    show (s.m_Entities[id.Index].Masks ||| (1 <<< T)).testBit T = true
    rw [testBit_set_bit]
    simp
  · intro x
    simp only [Scene.IsEntityValid]
    cases hx : s.m_Entities[x.Index]? with
    | none =>
      have : s.m_Entities.length ≤ x.Index := List.getElem?_eq_none_iff.mp hx
      rw [List.getElem?_eq_none (by simpa using this)]
    | some d =>
      obtain ⟨d', hd', hid, _⟩ := hents x.Index d hx
      simp only [hd', hid]
  · intro U y hne
    simp only [Scene.Get]
    cases hy : s.m_Entities[y.Index]? with
    | none =>
      have : s.m_Entities.length ≤ y.Index := List.getElem?_eq_none_iff.mp hy
      rw [List.getElem?_eq_none (by simpa using this)]
    | some d =>
      obtain ⟨d', hd', _, hbits⟩ := hents y.Index d hy
      simp only [hd', bitsetTest]
      by_cases hU : U < MaskBits
      · simp only [hU, if_true, hbits U hne]
        cases hb : d.Masks.testBit U with
        | false => rfl
        | true =>
          obtain ⟨_, row₀, h, _, hrow₀, hh⟩ := hmask.2 y.Index d U hy hb
          obtain ⟨row₂, hrow₂, hsame⟩ := hkeep U row₀ hrow₀
          simp only [hrow₀, hrow₂, hh, hsame y.Index (some h) hne hh]
      · simp only [hU, if_false]

set_option maxRecDepth 20000 in
/-- Witness of C20: `Assign<ComponentA>` on E2 = `{1, 0}` in the scene of `main`. -/
theorem Assign_frame_witness :
    ∃ s', sceneMain.Assign 0 12 ⟨1, 0⟩ = .ok s' ∧
      (∃ d' row', s'.m_Entities[1]? = some d' ∧ d'.Masks.testBit 0 = true ∧
        s'.m_EntityComponents[0]? = some row' ∧ row'[1]? = some (some ⟨1⟩)) ∧
      s'.m_Entities.length = sceneMain.m_Entities.length ∧
      (∀ (j : Nat) (d : EntityDesc), sceneMain.m_Entities[j]? = some d →
        ∃ d', s'.m_Entities[j]? = some d' ∧ d'.ID = d.ID ∧
          ∀ U : Nat, (U, j) ≠ (0, 1) → d'.Masks.testBit U = d.Masks.testBit U) ∧
      s'.m_FreeEntityIndecies = sceneMain.m_FreeEntityIndecies ∧
      (∀ (U : Nat) (row₀ : List (Option Handle)), sceneMain.m_EntityComponents[U]? = some row₀ →
        ∃ row₂, s'.m_EntityComponents[U]? = some row₂ ∧
          ∀ (j : Nat) x, (U, j) ≠ (0, 1) → row₀[j]? = some x → row₂[j]? = some x) ∧
      (∀ x, s'.IsEntityValid x = sceneMain.IsEntityValid x) ∧
      (∀ (U : Nat) (y : EntityID), (U, y.Index) ≠ (0, 1) →
        s'.Get U y = sceneMain.Get U y) :=
  Assign_frame mainOps sceneMain rfl 0 12 ⟨1, 0⟩ (by decide) (by decide) (by decide)

/-! ## Stored indices along a run on valid ids -/

theorem slotIndexInv_set (es : List EntityDesc) (j : Nat) (d₁ : EntityDesc)
    (hown : ∀ (i : Nat) (d : EntityDesc), es[i]? = some d →
      d.ID.Index = i % 4294967296 ∨ d.ID.Index = 4294967295)
    (h₁ : j < es.length → d₁.ID.Index = j % 4294967296 ∨ d₁.ID.Index = 4294967295) :
    ∀ (i : Nat) (d : EntityDesc), (es.set j d₁)[i]? = some d →
      d.ID.Index = i % 4294967296 ∨ d.ID.Index = 4294967295 := by
  intro i d hd
  by_cases hij : j = i
  · subst hij
    have hlt : j < es.length := by
      have := (List.getElem?_eq_some_iff.mp hd).1
      simpa using this
    rw [List.getElem?_set_self hlt] at hd
    cases hd
    exact h₁ hlt
  · rw [List.getElem?_set_ne hij] at hd
    exact hown i d hd

theorem slotIndexInv_empty : Scene.empty.SlotIndexInv := by
  refine ⟨?_, ?_⟩
  · intro i d hd
    simp [Scene.empty] at hd
  · intro j hj
    simp [Scene.empty] at hj

theorem slotIndexInv_step (s s' : Scene) (op : Op) (hinv : s.SlotIndexInv)
    (hvalid : s.onValidId op = true) (hstep : s.step op = .ok s') : s'.SlotIndexInv := by
  cases op with
  | CreateEntity =>
    simp only [Scene.step] at hstep
    cases hc : s.CreateEntity with
    | error e => simp [hc] at hstep
    | ok r =>
      obtain ⟨id, s₁⟩ := r
      simp only [hc] at hstep
      cases hstep
      rcases createEntity_ok s s' id hc with ⟨_, hid, rfl⟩ | ⟨j₀, d₀, hj₀, _, hid, rfl⟩
      · refine ⟨?_, hinv.small⟩
        intro i d hd
        simp only at hd
        by_cases hlt : i < s.m_Entities.length
        · rw [List.getElem?_append_left hlt] at hd
          exact hinv.own i d hd
        · rw [List.getElem?_append_right (by omega)] at hd
          cases hk : i - s.m_Entities.length with
          | zero =>
            simp [hk] at hd
            have hi : i = s.m_Entities.length := by omega
            rw [← hd, hid, hi]
            exact Or.inl rfl
          | succ k => simp [hk] at hd
      · have hsmall : j₀ < 4294967296 := hinv.small j₀ (List.mem_of_getLast?_eq_some hj₀)
        refine ⟨slotIndexInv_set _ j₀ _ hinv.own ?_, ?_⟩
        · intro _
          left
          rw [hid]
          exact (Nat.mod_eq_of_lt hsmall).symm
        · intro j hj
          exact hinv.small j (List.dropLast_subset _ hj)
  | DestroyEntity E =>
    obtain ⟨d₀, hd₀, rfl⟩ := destroyEntity_ok s s' E hstep
    simp only [Scene.onValidId] at hvalid
    obtain ⟨d₁, hd₁, hid⟩ := (validId_iff s E).mp hvalid
    refine ⟨slotIndexInv_set _ E.Index _ hinv.own (fun _ => Or.inr rfl), ?_⟩
    intro j hj
    simp only at hj
    rcases List.mem_append.mp hj with hm | hm
    · exact hinv.small j hm
    · simp at hm
      subst hm
      rcases hinv.own E.Index d₁ hd₁ with h | h
      · rw [hid] at h
        rw [h]
        exact Nat.mod_lt _ (by decide)
      · rw [hid] at h
        rw [h]
        decide
  | Remove cid E =>
    simp only [Scene.step] at hstep
    cases hr : s.Remove cid E with
    | error e => simp [hr] at hstep
    | ok r =>
      simp only [hr] at hstep
      cases hstep
      rcases remove_ok s cid E r hr with ⟨rfl, _⟩ | ⟨d₀, hd₀, _, _, rfl⟩
      · exact hinv
      · exact ⟨slotIndexInv_set _ E.Index _ hinv.own (fun _ => hinv.own E.Index d₀ hd₀),
          hinv.small⟩
  | Assign cid sz E =>
    obtain ⟨d₀, hd₀, _, hent, hfree⟩ := assign_entities s s' cid sz E hstep
    refine ⟨?_, by rw [hfree]; exact hinv.small⟩
    rw [hent]
    exact slotIndexInv_set _ E.Index _ hinv.own (fun _ => hinv.own E.Index d₀ hd₀)

theorem slotIndexInv_runValid (ops : List Op) :
    ∀ (s s' : Scene), s.runValid ops = some s' → s.SlotIndexInv → s'.SlotIndexInv := by
  induction ops with
  | nil =>
    intro s s' h hinv
    simp only [Scene.runValid] at h
    cases h
    exact hinv
  | cons op ops ih =>
    intro s s' h hinv
    simp only [Scene.runValid] at h
    by_cases hv : s.onValidId op = true
    · simp only [hv, if_true] at h
      cases hs : s.step op with
      | error e => simp [hs] at h
      | ok s₁ =>
        simp only [hs] at h
        exact ih s₁ s' h (slotIndexInv_step s s₁ op hinv hv hs)
    · simp [hv] at h

/-- C19: in every state reached from the empty registry by `CreateEntity` / `DestroyEntity` /
`Assign` / `Remove` calls on ids valid at the time of the call, with at most `2^32` slots (the
slots a 32-bit index can name): every slot `i` whose stored `Index` is not `0xFFFFFFFF` stores
`Index = i`; and for component ids `< 32`, `View<ids...>()` is constructed, its traversal
returns, and `IsEntityValid` is true for every EntityID it yields. -/
theorem Yielded_ids_are_valid (ops : List Op) (s : Scene)
    (hrun : Scene.empty.runValid ops = some s) (hlen : s.m_Entities.length ≤ 4294967296) :
    (∀ (i : Nat) (d : EntityDesc), s.m_Entities[i]? = some d →
      d.ID.Index ≠ 4294967295 → d.ID.Index = i) ∧
    (∀ ids : List Nat, (∀ t ∈ ids, t < 32) →
      ∃ v yielded, Scene.View ids = .ok v ∧ v.traverse s = .ok yielded ∧
        ∀ E ∈ yielded, s.IsEntityValid E = .ok true) := by
  have hinv := slotIndexInv_runValid ops Scene.empty s hrun slotIndexInv_empty
  have hown : ∀ (i : Nat) (d : EntityDesc), s.m_Entities[i]? = some d →
      d.ID.Index ≠ 4294967295 → d.ID.Index = i := by
    intro i d hd hne
    have hi : i < s.m_Entities.length := (List.getElem?_eq_some_iff.mp hd).1
    rcases hinv.own i d hd with h | h
    · rw [h]
      exact Nat.mod_eq_of_lt (by omega)
    · exact absurd h hne
  refine ⟨hown, ?_⟩
  intro ids hids
  obtain ⟨m, hm, hbits⟩ := setAll_spec ids hids 0
  refine ⟨{ m_ComponentMask := m }, _, by simp [Scene.View, hm],
    traverse_spec s _ _ (fun d => selected_iff ids m d (fun q => by simpa using hbits q)), ?_⟩
  intro E hE
  obtain ⟨d, hd, rfl⟩ := List.mem_map.mp hE
  obtain ⟨hmem, hsel⟩ := List.mem_filter.mp hd
  obtain ⟨i, hi⟩ := List.mem_iff_getElem?.mp hmem
  have hne : d.ID.Index ≠ 4294967295 := by
    intro hc
    simp [hc] at hsel
  have hidx := hown i d hi hne
  apply (isEntityValid_true_iff _ _).mpr
  apply (validId_iff _ _).mpr
  exact ⟨d, by rw [hidx]; exact hi, rfl⟩

set_option maxRecDepth 20000 in
/-- Witness of C19: the calls of `main`. -/
theorem Yielded_ids_are_valid_witness :
    (∀ (i : Nat) (d : EntityDesc), sceneMain.m_Entities[i]? = some d →
      d.ID.Index ≠ 4294967295 → d.ID.Index = i) ∧
    (∀ ids : List Nat, (∀ t ∈ ids, t < 32) →
      ∃ v yielded, Scene.View ids = .ok v ∧ v.traverse sceneMain = .ok yielded ∧
        ∀ E ∈ yielded, sceneMain.IsEntityValid E = .ok true) :=
  Yielded_ids_are_valid mainOps sceneMain rfl (by decide)

/-- The operator `operator++` returns on every scene and every iterator: its reads through
`IsValidIndex` are guarded by `m_Index < m_Entities.size()` and never leave the sequence. -/
theorem inc_total (s : Scene) (it : Iterator) : ∃ it', it.inc s = .ok it' := by
  by_cases hlt : it.m_Index < s.m_Entities.length
  · obtain ⟨j, hj, _, _⟩ := inc_spec s it hlt
    exact ⟨_, hj⟩
  · refine ⟨{ it with m_Index := it.m_Index + 1 }, ?_⟩
    have hge : ¬ it.m_Index + 1 < s.m_Entities.length := by omega
    simp [Iterator.inc, Iterator.incLoop, hge]

theorem forLoopWith_spec (body : EntityID → Scene → Except Fault Scene) (n : Nat)
    (mask : ComponentMask)
    (hbody : ∀ id s s', body id s = .ok s' → s'.m_Entities.length = s.m_Entities.length) :
    ∀ (fuel : Nat) (s : Scene) (idx : Nat), s.m_Entities.length = n → idx ≤ n →
      n - idx < fuel →
      (∃ r, SceneView.forLoopWith body ⟨n, mask⟩ fuel s ⟨idx, mask⟩ = .ok r) ∨
      (∃ id s₁ e, body id s₁ = .error e ∧
        SceneView.forLoopWith body ⟨n, mask⟩ fuel s ⟨idx, mask⟩ = .error e) := by
  intro fuel
  induction fuel with
  | zero => intro s idx _ _ h; omega
  | succ fuel ih =>
    intro s idx hn hle hfuel
    by_cases hlt : idx < n
    · have hne : Iterator.ne ⟨idx, mask⟩ ⟨n, mask⟩ = true := by
        simp [Iterator.ne]
        omega
      have hd : s.m_Entities[idx]? = some s.m_Entities[idx] :=
        List.getElem?_eq_getElem (by omega)
      simp only [SceneView.forLoopWith, hne, if_true, Iterator.deref, hd]
      cases hb : body s.m_Entities[idx].ID s with
      | error e => exact Or.inr ⟨_, _, e, hb, rfl⟩
      | ok s' =>
        have hn' : s'.m_Entities.length = n := by rw [hbody _ _ _ hb, hn]
        obtain ⟨j, hj, h1, h2⟩ := inc_spec s' ⟨idx, mask⟩ (by simp only; omega)
        simp only [hj]
        rcases ih s' j hn' (by omega) (by simp only at h1; omega) with ⟨r, hr⟩ | ⟨id, s₁, e, he, hr⟩
        · obtain ⟨rest, s''⟩ := r
          simp only [hr]
          exact Or.inl ⟨_, rfl⟩
        · simp only [hr]
          exact Or.inr ⟨id, s₁, e, he, rfl⟩
    · have hidx : idx = n := by omega
      subst hidx
      left
      simp [SceneView.forLoopWith, Iterator.ne]

set_option maxRecDepth 20000 in
/-- Counterexample to C16: `sceneOneComponent` has one slot, which holds component 0. For
`View<0>` (mask 1), `begin()` is at index 0 and `end()`, taken once, at index 1. The loop
dereferences index 0; its body calls `CreateEntity`, which appends slot 1 without component 0;
`operator++` then skips slot 1 and stops at index 2, the new length; 2 is not equal to the
`end()` index 1, so the loop goes on and `operator*` reads index 2 of a sequence of length
2. -/
theorem Traversal_dereferences_past_grown_sequence :
    Scene.empty.run [.CreateEntity, .Assign 0 4 ⟨0, 0⟩] = .ok sceneOneComponent ∧
    Scene.View [0] = .ok ⟨1⟩ ∧
    SceneView.begin sceneOneComponent ⟨1⟩ = .ok ⟨0, 1⟩ ∧
    SceneView.end_ sceneOneComponent ⟨1⟩ = ⟨1, 1⟩ ∧
    Iterator.deref sceneOneComponent ⟨0, 1⟩ = .ok ⟨0, 0⟩ ∧
    (match sceneOneComponent.step .CreateEntity with
      | .ok s₁ => some (s₁.m_Entities.length, Iterator.inc s₁ ⟨0, 1⟩,
          Iterator.ne ⟨2, 1⟩ ⟨1, 1⟩, Iterator.deref s₁ ⟨2, 1⟩)
      | .error _ => none) = some (2, .ok ⟨2, 1⟩, true, .error .OutOfBounds) ∧
    SceneView.traverseWith (fun _ s => s.step .CreateEntity) sceneOneComponent ⟨1⟩ 3
      = .error .OutOfBounds := by
  refine ⟨rfl, rfl, rfl, rfl, rfl, rfl, rfl⟩

/-- C16 (amended): `operator++` returns on every scene and every iterator, so its
`IsValidIndex` reads are inside the descriptor sequence whatever happens between the steps.
For a range-for traversal of a view whose loop body leaves the length of the descriptor
sequence as it is whenever it returns, run with a bound of `n + 1` tests of the loop condition
for a scene with `n` slots: `begin()` returns, and the loop either returns or stops with a
fault the loop body itself returned; no `operator*` and no `operator++` faults. -/
theorem Traversal_reads_in_bounds (body : EntityID → Scene → Except Fault Scene)
    (hbody : ∀ id s s', body id s = .ok s' → s'.m_Entities.length = s.m_Entities.length)
    (s : Scene) (v : SceneView) :
    (∀ (s' : Scene) (it : Iterator), ∃ it', it.inc s' = .ok it') ∧
    (∃ first, v.begin s = .ok first) ∧
    ((∃ r, v.traverseWith body s (s.m_Entities.length + 1) = .ok r) ∨
      (∃ id s₁ e, body id s₁ = .error e ∧
        v.traverseWith body s (s.m_Entities.length + 1) = .error e)) := by
  obtain ⟨j, hj, _, h2, _, _⟩ := beginLoop_spec s v
    (fun d => d.ID.Index != InvalidIndex &&
      (v.m_ComponentMask == 0 || v.m_ComponentMask == (v.m_ComponentMask &&& d.Masks)))
    (fun d => beginCond_eq_not v.m_ComponentMask d)
    (s.m_Entities.length + 1) 0 (Nat.zero_le _) (by omega)
  have hbegin : v.begin s = .ok ⟨j, v.m_ComponentMask⟩ := by simp [SceneView.begin, hj]
  refine ⟨inc_total, ⟨_, hbegin⟩, ?_⟩
  simp only [SceneView.traverseWith, hbegin, SceneView.end_]
  exact forLoopWith_spec body s.m_Entities.length v.m_ComponentMask hbody
    (s.m_Entities.length + 1) s j rfl h2 (by omega)

set_option maxRecDepth 20000 in
/-- Witness of C16 (amended): `View<ComponentB>()` over the scene of `main`, with a loop body
that destroys the entity it is given. -/
theorem Traversal_reads_in_bounds_witness :
    (∀ (s' : Scene) (it : Iterator), ∃ it', it.inc s' = .ok it') ∧
    (∃ first, SceneView.begin sceneMain ⟨2⟩ = .ok first) ∧
    ((∃ r, SceneView.traverseWith (fun id s => s.step (.DestroyEntity id)) sceneMain ⟨2⟩
        (sceneMain.m_Entities.length + 1) = .ok r) ∨
      (∃ id s₁ e, (fun id s => Scene.step s (.DestroyEntity id)) id s₁ = .error e ∧
        SceneView.traverseWith (fun id s => s.step (.DestroyEntity id)) sceneMain ⟨2⟩
          (sceneMain.m_Entities.length + 1) = .error e)) :=
  Traversal_reads_in_bounds (fun id s => s.step (.DestroyEntity id))
    (fun id s s' h => by
      obtain ⟨_, _, rfl⟩ := destroyEntity_ok s s' id h
      simp)
    sceneMain ⟨2⟩

/-- C13 (amended): in every state reached from the empty registry, for a component id `T < 32`
and an id whose `Index` is inside the descriptor sequence and below 1024, the number of entries
`Assign` gives a handle-table row: `Assign<T>(id)` returns normally, the row of `T` has 1024
entries and holds the handle at `id.Index`, and `Get<T>(id)` then returns that handle. -/
theorem Assign_records_handle_within_row (ops : List Op) (s : Scene)
    (hrun : Scene.empty.run ops = .ok s) (T sz : Nat) (id : EntityID) (hT : T < 32)
    (hi : id.Index < s.m_Entities.length) (hrow : id.Index < 1024) :
    ∃ s', s.Assign T sz id = .ok s' ∧
      (∃ row', s'.m_EntityComponents[T]? = some row' ∧ row'.length = 1024 ∧
        row'[id.Index]? = some (some ⟨id.Index⟩)) ∧
      s'.Get T id = .ok (some ⟨id.Index⟩) := by
  have hinv := tablesInv_run ops Scene.empty s hrun tablesInv_empty
  have hd : s.m_Entities[id.Index]? = some s.m_Entities[id.Index] := List.getElem?_eq_getElem hi
  obtain ⟨pool, P₂, C₂, row, _, hrowC, hlen, hass⟩ := assign_of_tablesInv s T sz id _ hinv hT hd
  rw [if_pos hrow] at hass
  have hTC : T < C₂.length := (List.getElem?_eq_some_iff.mp hrowC).1
  have hrow' : (C₂.set T (row.set id.Index (some ⟨id.Index⟩)))[T]?
      = some (row.set id.Index (some ⟨id.Index⟩)) := List.getElem?_set_self hTC
  have hh : (row.set id.Index (some (⟨id.Index⟩ : Handle)))[id.Index]?
      = some (some ⟨id.Index⟩) := List.getElem?_set_self (by omega)
  refine ⟨_, hass, ⟨_, hrow', by simp [hlen], hh⟩, ?_⟩
  have hbit : (s.m_Entities[id.Index].Masks ||| (1 <<< T)).testBit T = true := by
    rw [testBit_set_bit]
    simp
  simp only [Scene.Get, List.getElem?_set_self hi, bitsetTest, MaskBits, hT, if_true, hbit,
    hrow', hh]

set_option maxRecDepth 20000 in
/-- Witness of C13 (amended): `Assign<ComponentA>` on E2 = `{1, 0}` in the scene of `main`. -/
theorem Assign_records_handle_within_row_witness :
    ∃ s', sceneMain.Assign 0 12 ⟨1, 0⟩ = .ok s' ∧
      (∃ row', s'.m_EntityComponents[0]? = some row' ∧ row'.length = 1024 ∧
        row'[1]? = some (some ⟨1⟩)) ∧
      s'.Get 0 ⟨1, 0⟩ = .ok (some ⟨1⟩) :=
  Assign_records_handle_within_row mainOps sceneMain rfl 0 12 ⟨1, 0⟩ (by decide) (by decide)
    (by decide)

/-- A call that returns keeps the length of the descriptor sequence, except a `CreateEntity`
with an empty free-slot list, which appends one slot. -/
theorem step_length (s s' : Scene) (op : Op) (hstep : s.step op = .ok s') :
    s'.m_Entities.length = s.m_Entities.length ∨
      (op = .CreateEntity ∧ s.m_FreeEntityIndecies = [] ∧
        s'.m_Entities.length = s.m_Entities.length + 1) := by
  cases op with
  | CreateEntity =>
    simp only [Scene.step] at hstep
    cases hc : s.CreateEntity with
    | error e => simp [hc] at hstep
    | ok r =>
      obtain ⟨id, s₁⟩ := r
      simp only [hc] at hstep
      cases hstep
      rcases createEntity_ok s s' id hc with ⟨hnil, _, rfl⟩ | ⟨_, _, _, _, _, rfl⟩
      · exact Or.inr ⟨rfl, hnil, by simp⟩
      · exact Or.inl (by simp)
  | DestroyEntity E =>
    obtain ⟨_, _, rfl⟩ := destroyEntity_ok s s' E hstep
    exact Or.inl (by simp)
  | Remove cid E =>
    simp only [Scene.step] at hstep
    cases hr : s.Remove cid E with
    | error e => simp [hr] at hstep
    | ok r =>
      simp only [hr] at hstep
      cases hstep
      rcases remove_ok s cid E r hr with ⟨rfl, _⟩ | ⟨_, _, _, _, rfl⟩
      · exact Or.inl rfl
      · exact Or.inl (by simp)
  | Assign cid sz E =>
    obtain ⟨_, _, _, hent, _⟩ := assign_entities s s' cid sz E hstep
    exact Or.inl (by rw [hent]; simp)

end ECS
